import Mathlib

/-! Session event multiplexing core: a shallow embedding.

Lean definitions that follow the C++ sources of the session event core
(cancellation tokens, the blocking queue, the session record, the subscriber
registry and the two polling producers), followed by theorems about them.

Conventions of the embedding.
* An object that the C++ code mutates in place is a value that every operation
  takes and returns (the return value of the C++ function comes first or is
  named in the result).
* `std::atomic<T>::compare_exchange_strong` is the function
  `compare_exchange_strong`; the embedding describes one thread at a time.
* A `std::shared_ptr` to a session is an address (`SessionPtr`) into a
  `SessionHeap`; a `std::weak_ptr` is what `lock()` returns for it.
* Logging (`VLOGGER_*`) has no effect on the state and is left out.
-/

namespace CodeVault

/-! ## Atomics -/

/-- The call `cell.compare_exchange_strong(expected, desired)` of `std::atomic`:
the new content of the cell and the value returned. -/
def compare_exchange_strong {α : Type} [DecidableEq α] (cell expected desired : α) : α × Bool :=
  if cell = expected then (desired, true) else (cell, false)

/-! ## vcommsessionenums.h -/

/-- The enum `SessionConnectionState`. -/
inductive SessionConnectionState where
  | NotConnected
  | Connected
  | Disconnected
  deriving DecidableEq, Repr

/-- The enum `MessageReceptionAfterDisconnection`. -/
inductive MessageReceptionAfterDisconnection where
  | NotSupported
  | Supported
  deriving DecidableEq, Repr

/-- The enum `MessageProcessingAfterDisconnection`. -/
inductive MessageProcessingAfterDisconnection where
  | NotSupported
  | Supported
  deriving DecidableEq, Repr

/-! ## sys/epoll.h -/

/-- Linux: the bit `EPOLLIN` of an event mask. -/
def EPOLLIN : Nat := 0x001

/-- Linux: the bit `EPOLLERR` of an event mask. -/
def EPOLLERR : Nat := 0x008

/-- Linux: the bit `EPOLLHUP` of an event mask. -/
def EPOLLHUP : Nat := 0x010

/-- Linux: the bit `EPOLLRDHUP` of an event mask. -/
def EPOLLRDHUP : Nat := 0x2000

/-- Linux: the bit `EPOLLONESHOT` of an event mask. -/
def EPOLLONESHOT : Nat := 0x40000000

/-- Linux: the bit `EPOLLET` of an event mask. -/
def EPOLLET : Nat := 0x80000000

/-- The struct `epoll_event`: the event mask and `data.fd`. -/
structure EPOLL_EVENT where
  events : Nat
  fd : Int
  deriving DecidableEq, Repr

/-! ## vcommsessioninfo.cpp -/

/-- The data members of `VCommSessionInfo`. `id` is the UUID taken from the
comm session, `socket` is what `commSession->Socket()` returns, `socketEvent` is
the member `EPOLL_EVENT socketEvent` of the Linux class. -/
structure VCommSessionInfo where
  id : Nat
  socket : Int
  connectionState : SessionConnectionState
  socketEvent : EPOLL_EVENT
  messageReceptionAfterDisconnection : MessageReceptionAfterDisconnection
  messageProcessingAfterDisconnection : MessageProcessingAfterDisconnection
  messagesWaitingToBeProcessed : Nat
  deriving DecidableEq, Repr

namespace VCommSessionInfo

/-- The method `VCommSessionInfo::ConfigureSocketEvent`: the mask and the
socket of the session, in `data.fd`, are written to `socketEvent`. -/
def ConfigureSocketEvent (s : VCommSessionInfo) : VCommSessionInfo :=
  { s with socketEvent :=
      { events := EPOLLIN ||| EPOLLET ||| EPOLLONESHOT ||| EPOLLRDHUP, fd := s.socket } }

/-- The constructor `VCommSessionInfo::VCommSessionInfo`: the connection state is
the one passed in, the counter starts at 0, and `ConfigureSocketEvent` is called
when the state passed in is `Connected`. The member `socketEvent` has no
initialiser and no other method writes it: `socketEvent` is what the storage of
the object holds when the constructor begins, and a session constructed in
another state keeps that content. (The Windows class calls
`CreateAndRegisterSocketEvent` at the same place; its event handle carries no
data here.) -/
def create (id : Nat) (socket : Int) (connectionState : SessionConnectionState)
    (messageReceptionAfterDisconnection : MessageReceptionAfterDisconnection)
    (messageProcessingAfterDisconnection : MessageProcessingAfterDisconnection)
    (socketEvent : EPOLL_EVENT) : VCommSessionInfo :=
  let s : VCommSessionInfo :=
    { id := id, socket := socket, connectionState := connectionState,
      socketEvent := socketEvent,
      messageReceptionAfterDisconnection := messageReceptionAfterDisconnection,
      messageProcessingAfterDisconnection := messageProcessingAfterDisconnection,
      messagesWaitingToBeProcessed := 0 }
  if connectionState = SessionConnectionState.Connected then s.ConfigureSocketEvent else s

/-- The getter `VCommSessionInfo::SocketEvent`. -/
def SocketEvent (s : VCommSessionInfo) : EPOLL_EVENT :=
  s.socketEvent

/-- The getter `VCommSessionInfo::ConnectionState`. -/
def ConnectionState (s : VCommSessionInfo) : SessionConnectionState :=
  s.connectionState

/-- The method `VCommSessionInfo::SetAsConnected`: the value returned and the
session afterwards. -/
def SetAsConnected (s : VCommSessionInfo) : Bool × VCommSessionInfo :=
  let expectedState := SessionConnectionState.NotConnected
  let r := compare_exchange_strong s.connectionState expectedState SessionConnectionState.Connected
  let stateChanged := r.2
  (stateChanged, { s with connectionState := r.1 })

/-- The method `VCommSessionInfo::SetAsDisconnected`: the value returned and the
session afterwards. -/
def SetAsDisconnected (s : VCommSessionInfo) : Bool × VCommSessionInfo :=
  let expectedState := SessionConnectionState.Connected
  let r := compare_exchange_strong s.connectionState expectedState SessionConnectionState.Disconnected
  let stateChanged := r.2
  (stateChanged, { s with connectionState := r.1 })

end VCommSessionInfo

/-- A call that changes the connection state of a session record. -/
inductive SessionCall where
  | SetAsConnected
  | SetAsDisconnected
  deriving DecidableEq, Repr

/-- The session after one call. -/
def SessionCall.apply (c : SessionCall) (s : VCommSessionInfo) : VCommSessionInfo :=
  match c with
  | SessionCall.SetAsConnected => s.SetAsConnected.2
  | SessionCall.SetAsDisconnected => s.SetAsDisconnected.2

/-- The values of `ConnectionState()` read at construction and after each call
of the sequence. -/
def observedStates (s : VCommSessionInfo) : List SessionCall → List SessionConnectionState
  | [] => [s.ConnectionState]
  | c :: cs => s.ConnectionState :: observedStates (c.apply s) cs

/-- A sequence with runs of equal neighbours collapsed to one element. -/
def distinctRuns {α : Type} [DecidableEq α] : List α → List α
  | [] => []
  | [a] => [a]
  | a :: b :: rest => if a = b then distinctRuns (b :: rest) else a :: distinctRuns (b :: rest)

/-- The order of the connection states in their life cycle. -/
def lifeCycle : List SessionConnectionState :=
  [SessionConnectionState.NotConnected, SessionConnectionState.Connected,
   SessionConnectionState.Disconnected]

/-- The part of the life cycle that starts at the given state. -/
def lifeCycleFrom (st : SessionConnectionState) : List SessionConnectionState :=
  lifeCycle.dropWhile (fun x => decide (x ≠ st))

/-! ## vcancellationtokensource.cpp, vcancellationtoken.cpp -/

/-- The type `AtomicBoolean` (`std::atomic<bool>`). -/
abbrev AtomicBoolean := Bool

/-- What `lock()` on an `AtomicBooleanWeakPtr` gives: the flag as long as the
source that owns it is alive, nothing once the source is destroyed. -/
abbrev AtomicBooleanWeakPtr := Option AtomicBoolean

/-- The data member of `VCancellationTokenSource`. -/
structure VCancellationTokenSource where
  cancellationFlag : AtomicBoolean
  deriving DecidableEq, Repr

/-- The data member of `VCancellationToken`. -/
structure VCancellationToken where
  cancellationFlag : AtomicBooleanWeakPtr
  deriving DecidableEq, Repr

namespace VCancellationTokenSource

/-- The constructor: the flag is `new AtomicBoolean(false)`. -/
def create : VCancellationTokenSource :=
  { cancellationFlag := false }

/-- The method `VCancellationTokenSource::Token`. -/
def Token (s : VCancellationTokenSource) : VCancellationToken :=
  { cancellationFlag := some s.cancellationFlag }

/-- The method `VCancellationTokenSource::Cancelled`. -/
def Cancelled (s : VCancellationTokenSource) : Bool :=
  s.cancellationFlag

/-- The method `VCancellationTokenSource::Cancel`: the value returned and the
source afterwards. -/
def Cancel (s : VCancellationTokenSource) : Bool × VCancellationTokenSource :=
  let notCancelled := false
  let r := compare_exchange_strong s.cancellationFlag notCancelled true
  (r.2, { cancellationFlag := r.1 })

end VCancellationTokenSource

namespace VCancellationToken

/-- The method `VCancellationToken::Cancelled`. -/
def Cancelled (t : VCancellationToken) : Bool :=
  match t.cancellationFlag with
  | some cancellationFlagSharedPtr => cancellationFlagSharedPtr
  | none => true

/-- A token handed out by a source, read at a moment at which the source is
`parent` (`none`: the source has been destroyed). -/
def observing (parent : Option VCancellationTokenSource) : VCancellationToken :=
  { cancellationFlag := parent.map (fun s => s.cancellationFlag) }

end VCancellationToken

/-- A call on a cancellation source. -/
inductive SourceCall where
  | Token
  | Cancelled
  | Cancel
  deriving DecidableEq, Repr

/-- The source after one call. -/
def SourceCall.apply (c : SourceCall) (s : VCancellationTokenSource) : VCancellationTokenSource :=
  match c with
  | SourceCall.Token => s
  | SourceCall.Cancelled => s
  | SourceCall.Cancel => s.Cancel.2

/-- The source after a sequence of calls. -/
def runSourceCalls (s : VCancellationTokenSource) (cs : List SourceCall) : VCancellationTokenSource :=
  cs.foldl (fun acc c => c.apply acc) s

/-! ## vwaittokensource.cpp, vwaittoken.cpp -/

/-- The flag of `VWaitTokenSource` (its condition variable and mutex carry no
data). -/
structure VWaitTokenSource where
  waitFlag : AtomicBoolean
  deriving DecidableEq, Repr

/-- The flag of `VWaitToken`. -/
structure VWaitToken where
  waitFlag : AtomicBooleanWeakPtr
  deriving DecidableEq, Repr

namespace VWaitTokenSource

/-- The constructor `VWaitTokenSource(startWaiting)`. -/
def create (startWaiting : Bool) : VWaitTokenSource :=
  { waitFlag := startWaiting }

/-- The method `VWaitTokenSource::Token`. -/
def Token (s : VWaitTokenSource) : VWaitToken :=
  { waitFlag := some s.waitFlag }

/-- The method `VWaitTokenSource::Waiting`. -/
def Waiting (s : VWaitTokenSource) : Bool :=
  s.waitFlag

end VWaitTokenSource

namespace VWaitToken

/-- The method `VWaitToken::Waiting`. -/
def Waiting (t : VWaitToken) : Bool :=
  match t.waitFlag with
  | some waitFlagSharedPtr => waitFlagSharedPtr
  | none => false

/-- A wait token read at a moment at which its source is `parent` (`none`: the
source has been destroyed). -/
def observing (parent : Option VWaitTokenSource) : VWaitToken :=
  { waitFlag := parent.map (fun s => s.waitFlag) }

end VWaitToken

namespace VWaitTokenSource

/-- The method `VWaitTokenSource::Wait`: the value returned and the source
afterwards. -/
def Wait (s : VWaitTokenSource) : Bool × VWaitTokenSource :=
  let waiting := false
  let r := compare_exchange_strong s.waitFlag waiting true
  (r.2, { waitFlag := r.1 })

/-- The method `VWaitTokenSource::Continue`: the value returned and the source
afterwards (`notify_all` changes no data). -/
def Continue (s : VWaitTokenSource) : Bool × VWaitTokenSource :=
  let continuing := true
  let r := compare_exchange_strong s.waitFlag continuing false
  (r.2, { waitFlag := r.1 })

end VWaitTokenSource

/-! ## vblockingqueue.h -/

/-- The data members of `VBlockingQueue<DataType>`. The head of `jobQueue` is
the front of the `std::queue`; `stopCalled` is the `std::once_flag` of `Stop`.
The token is the queue's own copy; what it reads changes when its source is
cancelled or destroyed. -/
structure VBlockingQueue (α : Type) where
  cancellationToken : VCancellationToken
  jobQueue : List α
  stopCalled : Bool
  queueStopped : AtomicBoolean
  allowTakeAfterCancellationOrStop : Bool
  deriving DecidableEq, Repr

namespace VBlockingQueue

variable {α : Type}

/-- The constructors of `VBlockingQueue`: an empty queue that is not stopped. -/
def create (cancellationToken : VCancellationToken) (allowTakeAfterCancellationOrStop : Bool) :
    VBlockingQueue α :=
  { cancellationToken := cancellationToken, jobQueue := [], stopCalled := false,
    queueStopped := false, allowTakeAfterCancellationOrStop := allowTakeAfterCancellationOrStop }

/-- The method `VBlockingQueue::Stopped`. -/
def Stopped (q : VBlockingQueue α) : Bool :=
  q.queueStopped

/-- The method `VBlockingQueue::Cancelled`. -/
def Cancelled (q : VBlockingQueue α) : Bool :=
  q.cancellationToken.Cancelled

/-- The method `VBlockingQueue::Size`. -/
def Size (q : VBlockingQueue α) : Nat :=
  q.jobQueue.length

/-- The method `VBlockingQueue::Stop`: the body runs under `std::call_once`. -/
def Stop (q : VBlockingQueue α) : VBlockingQueue α :=
  if q.stopCalled then q
  else { q with stopCalled := true, queueStopped := true }

/-- The method `VBlockingQueue::Clear`. -/
def Clear (q : VBlockingQueue α) : VBlockingQueue α :=
  if q.jobQueue.length > 0 then { q with jobQueue := [] } else q

/-- The call `jobQueue.push(item)`. -/
def push (q : VBlockingQueue α) (item : α) : VBlockingQueue α :=
  { q with jobQueue := q.jobQueue ++ [item] }

/-- The method `VBlockingQueue::Enqueue`: the value returned and the queue
afterwards. -/
def Enqueue (q : VBlockingQueue α) (data : α) : Bool × VBlockingQueue α :=
  if q.cancellationToken.Cancelled || q.queueStopped then (false, q)
  else (true, q.push data)

/-- The method `VBlockingQueue::EnqueueMultiple`: the value returned and the
queue afterwards. -/
def EnqueueMultiple (q : VBlockingQueue α) (items : List α) : Bool × VBlockingQueue α :=
  if q.cancellationToken.Cancelled || q.queueStopped then (false, q)
  else (true, items.foldl (fun acc item => acc.push item) q)

/-- The method `VBlockingQueue::TryTake`: the item taken (`none` when the method
returns false) and the queue afterwards. -/
def TryTake (q : VBlockingQueue α) : Option α × VBlockingQueue α :=
  if (q.cancellationToken.Cancelled || q.queueStopped) && !q.allowTakeAfterCancellationOrStop then
    (none, q)
  else
    match q.jobQueue with
    | data :: rest => (some data, { q with jobQueue := rest })
    | [] => (none, q)

/-- The lambda `proceedToTake` of `WaitAndTake`. -/
def proceedToTake (q : VBlockingQueue α) : Bool :=
  if q.cancellationToken.Cancelled || q.queueStopped then
    if !q.allowTakeAfterCancellationOrStop then false else true
  else true

/-- The predicate of the `condition.wait` of `WaitAndTake`. -/
def wakeCondition (q : VBlockingQueue α) : Bool :=
  !q.jobQueue.isEmpty || q.cancellationToken.Cancelled || q.queueStopped

end VBlockingQueue

/-- What can happen to a queue between two steps of one thread: a call by
another thread, or a change of what the queue's token reads (its source is
cancelled, or destroyed). -/
inductive QueueCall (α : Type) where
  | Enqueue (data : α)
  | EnqueueMultiple (items : List α)
  | TryTake
  | Clear
  | Stop
  | SourceCancelled
  | SourceDestroyed

/-- The queue after one such step. -/
def QueueCall.apply {α : Type} (c : QueueCall α) (q : VBlockingQueue α) : VBlockingQueue α :=
  match c with
  | QueueCall.Enqueue data => (q.Enqueue data).2
  | QueueCall.EnqueueMultiple items => (q.EnqueueMultiple items).2
  | QueueCall.TryTake => q.TryTake.2
  | QueueCall.Clear => q.Clear
  | QueueCall.Stop => q.Stop
  | QueueCall.SourceCancelled =>
    { q with cancellationToken :=
        { cancellationFlag := q.cancellationToken.cancellationFlag.map (fun _ => true) } }
  | QueueCall.SourceDestroyed =>
    { q with cancellationToken := { cancellationFlag := none } }

/-- The queue after a sequence of such steps. -/
def runQueueCalls {α : Type} (q : VBlockingQueue α) (cs : List (QueueCall α)) : VBlockingQueue α :=
  cs.foldl (fun acc c => c.apply acc) q

namespace VBlockingQueue

variable {α : Type}

/-- The method `VBlockingQueue::WaitAndTake`. `whileWaiting` is what the other
threads do to the queue between the entry check and the moment the thread
leaves `condition.wait`. The result is `none` while the wait predicate is false
(the call is still blocked); otherwise the item taken (`none` when the method
returns false) and the queue afterwards. -/
def WaitAndTake (q : VBlockingQueue α) (whileWaiting : List (QueueCall α)) :
    Option (Option α × VBlockingQueue α) :=
  if !q.proceedToTake then some (none, q)
  else
    let w := runQueueCalls q whileWaiting
    if !w.wakeCondition then none
    else if (w.cancellationToken.Cancelled || w.queueStopped) &&
        (!w.proceedToTake || w.jobQueue.isEmpty) then
      some (none, w.Stop)
    else
      match w.jobQueue with
      | data :: rest => some (some data, { w with jobQueue := rest })
      | [] => none -- not reached: an empty queue that was woken is stopped or cancelled

/-- The items that successive calls of `TryTake` return, until one returns no
item (at most `fuel` calls). -/
def drain : Nat → VBlockingQueue α → List α
  | 0, _ => []
  | fuel + 1, q =>
    match q.TryTake with
    | (some data, q') => data :: drain fuel q'
    | (none, _) => []

/-- The state invariant of the queue: `Stop` has run exactly when the queue is
marked stopped. -/
def Consistent (q : VBlockingQueue α) : Prop :=
  q.stopCalled = q.queueStopped

instance (q : VBlockingQueue α) : Decidable q.Consistent :=
  inferInstanceAs (Decidable (q.stopCalled = q.queueStopped))

end VBlockingQueue

/-! ## std::map -/

/-- A `std::map<Key, T>`: its entries in increasing order of their keys. -/
abbrev StdMap (κ β : Type) := List (κ × β)

namespace StdMap

variable {κ β : Type} [LinearOrder κ]

/-- The call `m.find(k)`: the mapped value, `none` for `m.end()`. -/
def find : StdMap κ β → κ → Option β
  | [], _ => none
  | e :: rest, k => if e.1 = k then some e.2 else find rest k

/-- The assignment `m[k] = v`. -/
def assign : StdMap κ β → κ → β → StdMap κ β
  | [], k, v => [(k, v)]
  | e :: rest, k, v =>
    if k < e.1 then (k, v) :: e :: rest
    else if k = e.1 then (k, v) :: rest
    else e :: assign rest k v

/-- The call `m.erase(k)`: the map afterwards. -/
def erase : StdMap κ β → κ → StdMap κ β
  | [], _ => []
  | e :: rest, k => if e.1 = k then rest else e :: erase rest k

/-- The number of entries stored under the key `k`. -/
def countKey (m : StdMap κ β) (k : κ) : Nat :=
  (m.filter (fun e => decide (e.1 = k))).length

end StdMap

/-! ## vcommsessioneventhandler.h, vcommsessionevent.h -/

/-- A `std::shared_ptr<VCommSessionInfo>`: the address of the session record. -/
abbrev SessionPtr := Nat

/-- The payload of a `VCommSessionEvent` (read or closed): the vector `sessions`. -/
abbrev VCommSessionEvent := List SessionPtr

/-- A handler object `VCommSessionEventHandler<EventType>`, as a shared or weak
pointer refers to it: the address of the object and its `id`. -/
structure VCommSessionEventHandler where
  address : Nat
  id : Nat
  deriving DecidableEq, Repr

/-- The getter `VCommSessionEventHandler::HandlerId`. -/
def VCommSessionEventHandler.HandlerId (h : VCommSessionEventHandler) : Nat :=
  h.id

/-- The call `weak.lock()` on a weak pointer to a handler, at a moment at which
`alive` tells which handler objects still exist. -/
def lockHandler (alive : VCommSessionEventHandler → Bool) (weak : VCommSessionEventHandler) :
    Option VCommSessionEventHandler :=
  if alive weak then some weak else none

/-! ## vcommsessioneventproducer.cpp -/

/-- The two subscriber registries of `VCommSessionEventProducer`, keyed by the
UUID of the handler. -/
structure VCommSessionEventProducer where
  readEventHandlers : StdMap Nat VCommSessionEventHandler
  closedEventHandlers : StdMap Nat VCommSessionEventHandler
  deriving DecidableEq, Repr

/-- One call of `HandleEvent`: the handler called and the event passed. -/
abbrev HandleEventCall := VCommSessionEventHandler × VCommSessionEvent

namespace VCommSessionEventProducer

/-- The constructor: both registries are empty. -/
def create : VCommSessionEventProducer :=
  { readEventHandlers := [], closedEventHandlers := [] }

/-- The method `SubscribeToReadEvents`: the value returned and the producer
afterwards. -/
def SubscribeToReadEvents (p : VCommSessionEventProducer) (handler : VCommSessionEventHandler) :
    Bool × VCommSessionEventProducer :=
  let handlerId := handler.HandlerId
  match p.readEventHandlers.find handlerId with
  | none => (true, { p with readEventHandlers := p.readEventHandlers.assign handlerId handler })
  | some _ => (false, p)

/-- The method `UnsubscribeFromReadEvents`: the value returned and the producer
afterwards. -/
def UnsubscribeFromReadEvents (p : VCommSessionEventProducer) (handler : VCommSessionEventHandler) :
    Bool × VCommSessionEventProducer :=
  let handlerId := handler.HandlerId
  match p.readEventHandlers.find handlerId with
  | some _ => (true, { p with readEventHandlers := p.readEventHandlers.erase handlerId })
  | none => (false, p)

/-- The method `SubscribeToClosedEvents`: the value returned and the producer
afterwards. -/
def SubscribeToClosedEvents (p : VCommSessionEventProducer) (handler : VCommSessionEventHandler) :
    Bool × VCommSessionEventProducer :=
  let handlerId := handler.HandlerId
  match p.closedEventHandlers.find handlerId with
  | none => (true, { p with closedEventHandlers := p.closedEventHandlers.assign handlerId handler })
  | some _ => (false, p)

/-- The method `UnsubscribeFromClosedEvents`: the value returned and the producer
afterwards. -/
def UnsubscribeFromClosedEvents (p : VCommSessionEventProducer) (handler : VCommSessionEventHandler) :
    Bool × VCommSessionEventProducer :=
  let handlerId := handler.HandlerId
  match p.closedEventHandlers.find handlerId with
  | some _ => (true, { p with closedEventHandlers := p.closedEventHandlers.erase handlerId })
  | none => (false, p)

/-- The first loop of `RaiseReadEvent` / `RaiseClosedEvent`, run under the lock:
it walks the registry from `begin()` to `end()`, erases the entries whose weak
pointer has expired and pushes the others to the vector `handlers`. The result
is the registry afterwards and `handlers`. -/
def collectHandlers (alive : VCommSessionEventHandler → Bool) :
    StdMap Nat VCommSessionEventHandler →
      StdMap Nat VCommSessionEventHandler × List VCommSessionEventHandler
  | [] => ([], [])
  | entry :: rest =>
    let r := collectHandlers alive rest
    match lockHandler alive entry.2 with
    | none => r
    | some _ => (entry :: r.1, entry.2 :: r.2)

/-- The second loop of `RaiseReadEvent` / `RaiseClosedEvent`: each collected weak
pointer is locked again and `HandleEvent(eventArgs)` is called on the handlers
that are there. The result is the calls made, in order. -/
def invokeHandlers (alive : VCommSessionEventHandler → Bool) (eventArgs : VCommSessionEvent) :
    List VCommSessionEventHandler → List HandleEventCall
  | [] => []
  | weak :: rest =>
    match lockHandler alive weak with
    | some handler => (handler, eventArgs) :: invokeHandlers alive eventArgs rest
    | none => invokeHandlers alive eventArgs rest

/-- The method `RaiseReadEvent`: the producer afterwards and the calls of
`HandleEvent` made. -/
def RaiseReadEvent (p : VCommSessionEventProducer) (alive : VCommSessionEventHandler → Bool)
    (eventArgs : VCommSessionEvent) : VCommSessionEventProducer × List HandleEventCall :=
  let r := collectHandlers alive p.readEventHandlers
  ({ p with readEventHandlers := r.1 }, invokeHandlers alive eventArgs r.2)

/-- The method `RaiseClosedEvent`: the producer afterwards and the calls of
`HandleEvent` made. -/
def RaiseClosedEvent (p : VCommSessionEventProducer) (alive : VCommSessionEventHandler → Bool)
    (eventArgs : VCommSessionEvent) : VCommSessionEventProducer × List HandleEventCall :=
  let r := collectHandlers alive p.closedEventHandlers
  ({ p with closedEventHandlers := r.1 }, invokeHandlers alive eventArgs r.2)

end VCommSessionEventProducer

/-- A call on the subscriber registries of a producer; `alive` tells which
handler objects exist at the time of a fan-out. -/
inductive SubscriberCall where
  | SubscribeToReadEvents (handler : VCommSessionEventHandler)
  | UnsubscribeFromReadEvents (handler : VCommSessionEventHandler)
  | SubscribeToClosedEvents (handler : VCommSessionEventHandler)
  | UnsubscribeFromClosedEvents (handler : VCommSessionEventHandler)
  | RaiseReadEvent (alive : VCommSessionEventHandler → Bool) (eventArgs : VCommSessionEvent)
  | RaiseClosedEvent (alive : VCommSessionEventHandler → Bool) (eventArgs : VCommSessionEvent)

/-- The producer after one call on its subscriber registries. -/
def SubscriberCall.apply (c : SubscriberCall) (p : VCommSessionEventProducer) :
    VCommSessionEventProducer :=
  match c with
  | SubscriberCall.SubscribeToReadEvents handler => (p.SubscribeToReadEvents handler).2
  | SubscriberCall.UnsubscribeFromReadEvents handler => (p.UnsubscribeFromReadEvents handler).2
  | SubscriberCall.SubscribeToClosedEvents handler => (p.SubscribeToClosedEvents handler).2
  | SubscriberCall.UnsubscribeFromClosedEvents handler =>
    (p.UnsubscribeFromClosedEvents handler).2
  | SubscriberCall.RaiseReadEvent alive eventArgs => (p.RaiseReadEvent alive eventArgs).1
  | SubscriberCall.RaiseClosedEvent alive eventArgs => (p.RaiseClosedEvent alive eventArgs).1

/-- The producer after a sequence of calls on its subscriber registries. -/
def runSubscriberCalls (p : VCommSessionEventProducer) (cs : List SubscriberCall) :
    VCommSessionEventProducer :=
  cs.foldl (fun acc c => c.apply acc) p

/-- The invariant of a subscriber registry: the entries are in increasing order
of their keys, and every handler is stored under its own UUID. -/
def SubscribersOrdered (m : StdMap Nat VCommSessionEventHandler) : Prop :=
  m.Pairwise (fun a b => a.1 < b.1) ∧ ∀ e ∈ m, e.2.id = e.1

/-! ## The session records shared by the producers -/

/-- The session records that the `std::shared_ptr`s point to. -/
abbrev SessionHeap := SessionPtr → VCommSessionInfo

/-- The call `session->SetAsDisconnected()` through a shared pointer. -/
def SessionHeap.SetAsDisconnected (heap : SessionHeap) (session : SessionPtr) : SessionHeap :=
  Function.update heap session (heap session).SetAsDisconnected.2

/-- The kind of a batch handed to the subscribers. -/
inductive CommEventType where
  | Read
  | Close
  deriving DecidableEq, Repr

/-- A batch that a polling pass raised (`RaiseReadEvent` or `RaiseClosedEvent`)
and the sessions in it. -/
structure RaisedEvent where
  eventType : CommEventType
  sessions : VCommSessionEvent
  deriving DecidableEq, Repr

/-- The end of a polling pass in both producers: `RaiseReadEvent` when
`readingSessions` is not empty, then `RaiseClosedEvent` when `closedSessions` is
not empty. -/
def raiseBatches (readingSessions closedSessions : List SessionPtr) : List RaisedEvent :=
  (if readingSessions.length > 0 then
    [{ eventType := CommEventType.Read, sessions := readingSessions }] else []) ++
  (if closedSessions.length > 0 then
    [{ eventType := CommEventType.Close, sessions := closedSessions }] else [])

/-! ## vwsaeventproducer.cpp: the event-processing path of a polling thread -/

/-- Winsock: the bit `FD_READ` of `lNetworkEvents`. -/
def FD_READ : Nat := 1

/-- Winsock: the bit `FD_CLOSE` of `lNetworkEvents`. -/
def FD_CLOSE : Nat := 32

/-- Winsock: the index `FD_READ_BIT` into `iErrorCode`. -/
def FD_READ_BIT : Nat := 0

/-- Winsock: the index `FD_CLOSE_BIT` into `iErrorCode`. -/
def FD_CLOSE_BIT : Nat := 5

/-- Winsock: the return value `SOCKET_ERROR`. -/
def SOCKET_ERROR : Int := -1

/-- Winsock: the error code `WSAENOTSOCK`. -/
def WSAENOTSOCK : Int := 10038

/-- Winsock: the socket value `INVALID_SOCKET`. -/
def INVALID_SOCKET : Int := -1

/-- Winsock: the struct `WSANETWORKEVENTS`. -/
structure WSANETWORKEVENTS where
  lNetworkEvents : Nat
  iErrorCode : Nat → Int

/-- What the operating system answers while one index of the event array is
examined: whether `WSAWaitForMultipleEvents(1, ...)` gave `WSA_WAIT_FAILED`, what
`WSAEnumNetworkEvents` returned and wrote, and `WSAGetLastError()`. -/
structure SocketProbe where
  waitFailed : Bool
  enumResult : Int
  networkEvents : WSANETWORKEVENTS
  lastError : Int

/-- The variables of the polling thread that the loop over the event array
reads and writes. -/
structure ProcessingState where
  heap : SessionHeap
  networkEvents : WSANETWORKEVENTS
  readingSessions : List SessionPtr
  closedSessions : List SessionPtr

namespace VWSAEventProducer

/-- The body of the loop `for (DWORD index = eventIndex; index <
eventsToWaitFor.size(); index++)` of `ListenAndProduceEvents`. The event array
has the abort event at index 0, so the session of `index` is
`localSessions[index - 1]`. -/
def examineIndex (localSessions : List SessionPtr) (os : Nat → SocketProbe)
    (st : ProcessingState) (index : Nat) : ProcessingState :=
  match localSessions.get? (index - 1) with
  | none => st
  | some session =>
    let probe := os index
    if probe.waitFailed then st
    else if (st.heap session).ConnectionState ≠ SessionConnectionState.Connected then st
    else
      -- `session->ResetSocketEvent()` changes none of the data kept here
      let socket := (st.heap session).socket
      let closeSocket := decide (socket = INVALID_SOCKET)
      -- `none`: the `continue` after a failed `WSAEnumNetworkEvents`
      let enumerated : Option (Bool × WSANETWORKEVENTS) :=
        if !closeSocket then
          if probe.enumResult = SOCKET_ERROR then
            if probe.lastError ≠ WSAENOTSOCK then none
            else some (true, st.networkEvents)
          else some (closeSocket, probe.networkEvents)
        else some (closeSocket, st.networkEvents)
      match enumerated with
      | none => st
      | some (closeSocket, networkEvents) =>
        if !closeSocket && decide (networkEvents.lNetworkEvents &&& FD_READ ≠ 0) then
          if networkEvents.iErrorCode FD_READ_BIT ≠ 0 then
            { st with networkEvents := networkEvents }
          else
            { st with networkEvents := networkEvents,
                      readingSessions := st.readingSessions ++ [session] }
        else if closeSocket || decide (networkEvents.lNetworkEvents &&& FD_CLOSE ≠ 0) then
          { heap := st.heap.SetAsDisconnected session,
            networkEvents := networkEvents,
            readingSessions := st.readingSessions,
            closedSessions := st.closedSessions ++ [session] }
        else
          { st with networkEvents := networkEvents }

/-- One polling pass of `ListenAndProduceEvents` once `WSAWaitForMultipleEvents`
has signalled `eventIndex`: index 0 is the abort event (the pause path, nothing
is raised) and an index beyond the array is skipped; otherwise the event array
is examined from `eventIndex` on and the batches are raised. The result is the
session records afterwards and the batches raised, in order. -/
def processEvents (heap : SessionHeap) (localSessions : List SessionPtr) (eventIndex : Nat)
    (os : Nat → SocketProbe) : SessionHeap × List RaisedEvent :=
  let totalEvents := localSessions.length + 1
  if eventIndex ≥ totalEvents then (heap, [])
  else if eventIndex = 0 then (heap, [])
  else
    let st := (List.range' eventIndex (totalEvents - eventIndex)).foldl
      (examineIndex localSessions os)
      { heap := heap, networkEvents := { lNetworkEvents := 0, iErrorCode := fun _ => 0 },
        readingSessions := [], closedSessions := [] }
    (st.heap, raiseBatches st.readingSessions st.closedSessions)

end VWSAEventProducer

/-- The input of one polling pass of the event-array producer: the window of
sessions the thread has loaded, the index that was signalled and the answers of
the operating system. -/
structure WSAPass where
  localSessions : List SessionPtr
  eventIndex : Nat
  os : Nat → SocketProbe

/-- The batches raised by a sequence of polling passes of the event-array
producer (of one thread or of several, one pass at a time), in order. -/
def VWSAEventProducer.ListenAndProduceEvents (heap : SessionHeap) : List WSAPass → List RaisedEvent
  | [] => []
  | pass :: rest =>
    let r := VWSAEventProducer.processEvents heap pass.localSessions pass.eventIndex pass.os
    r.2 ++ VWSAEventProducer.ListenAndProduceEvents r.1 rest

/-! ## veventproducer.cpp: the readiness-API producer -/

/-- The constant `VEventProducer::MAX_EPOLL_EVENTS`. -/
def MAX_EPOLL_EVENTS : Nat := 1024

/-- A readiness condition pending in the kernel: the condition bits and the
descriptor they are pending on. -/
structure Readiness where
  events : Nat
  fd : Int
  deriving DecidableEq, Repr

/-- The interest list of the epoll instance `epoll_fd`: the descriptors
registered with it, each with the `epoll_event` that was passed when it was
registered. -/
abbrev EpollInterest := List (Int × EPOLL_EVENT)

/-- The kernel side of `epoll_ctl(epoll_fd, EPOLL_CTL_DEL, fd, NULL)`: the value
returned and the interest list afterwards. A descriptor that is registered is
removed; one that is not gives -1. -/
def epoll_ctl_del (interest : EpollInterest) (fd : Int) : Int × EpollInterest :=
  if fd ∈ interest.map Prod.fst then (0, interest.filter (fun x => decide (x.1 ≠ fd)))
  else (-1, interest)

/-- The conditions of `ready` with one condition a descriptor: a condition for a
descriptor in `seen` is dropped. -/
def oneEventPerDescriptor (seen : List Int) : List Readiness → List Readiness
  | [] => []
  | r :: rest =>
    if r.fd ∈ seen then oneEventPerDescriptor seen rest
    else r :: oneEventPerDescriptor (r.fd :: seen) rest

/-- The event that `epoll_wait` reports for a pending readiness condition, if
any: the descriptor has to be in the interest list, and of the condition bits
those are reported that were asked for at the registration (`EPOLLERR` and
`EPOLLHUP` are reported always). The event carries these bits and the user data
that was passed at the registration; the descriptor itself is not reported. -/
def reportedEvent (interest : EpollInterest) (r : Readiness) : Option EPOLL_EVENT :=
  match interest.find? (fun x => decide (x.1 = r.fd)) with
  | none => none
  | some registered =>
    let events := r.events &&& (registered.2.events ||| EPOLLERR ||| EPOLLHUP)
    if events = 0 then none else some { events := events, fd := registered.2.fd }

/-- The kernel side of `epoll_wait(epoll_fd, events, maxevents, 0)`: of the
readiness conditions `ready` that are pending, one a descriptor, the kernel
reports those that give an event, at most `maxevents` of them. A registration
with `EPOLLONESHOT` is taken as armed in every call (the re-arming by
`ReArmSession` is not followed). -/
def epoll_wait (interest : EpollInterest) (ready : List Readiness) (maxevents : Nat) :
    List EPOLL_EVENT :=
  ((oneEventPerDescriptor [] ready).filterMap (reportedEvent interest)).take maxevents

/-- The data members of `VEventProducer`, with the interest list of its epoll
instance. `sessions` is the `VCommSessionInfoSharedPtrMap`, keyed by socket
descriptor. -/
structure VEventProducer where
  started : AtomicBoolean
  cancellationSource : VCancellationTokenSource
  sessions : StdMap Int SessionPtr
  epollInterest : EpollInterest

/-- The variables that the loop over the returned events of
`VEventProducer::ListenAndProduceEvents` reads and writes. -/
structure ListenState where
  heap : SessionHeap
  epollInterest : EpollInterest
  readingSessions : List SessionPtr
  closedSessions : List SessionPtr

namespace VEventProducer

/-- The body of the loop `for (Vu16 i = 0; i < numEvents; i++)` of
`ListenAndProduceEvents` for the event `events[i]`. The result is `none` when
`inSessions->at(fd)` throws `std::out_of_range`. -/
def handleEvent (inSessions : StdMap Int SessionPtr) (st : ListenState) (event : EPOLL_EVENT) :
    Option ListenState :=
  if decide (event.events &&& EPOLLRDHUP ≠ 0) || decide (event.events &&& EPOLLHUP ≠ 0) then
    let interest := (epoll_ctl_del st.epollInterest event.fd).2
    match inSessions.find event.fd with
    | none => none
    | some session =>
      some { heap := st.heap.SetAsDisconnected session,
             epollInterest := interest,
             readingSessions := st.readingSessions,
             closedSessions := st.closedSessions ++ [session] }
  else if event.events &&& EPOLLIN ≠ 0 then
    match inSessions.find event.fd with
    | none => none
    | some session =>
      some { st with readingSessions := st.readingSessions ++ [session] }
  else some st

/-- One pass of the outer loop of `ListenAndProduceEvents`, from the return of
`epoll_wait` to the raising of the batches; `ready` are the readiness conditions
pending in the kernel. The result is `none` when a registry lookup throws;
otherwise the producer and the session records afterwards and the batches
raised, in order. -/
def pollOnce (p : VEventProducer) (heap : SessionHeap) (ready : List Readiness) :
    Option (VEventProducer × SessionHeap × List RaisedEvent) :=
  let events := epoll_wait p.epollInterest ready MAX_EPOLL_EVENTS
  match events.foldlM (handleEvent p.sessions)
      { heap := heap, epollInterest := p.epollInterest,
        readingSessions := [], closedSessions := [] } with
  | none => none
  | some st =>
    some ({ p with epollInterest := st.epollInterest }, st.heap,
      raiseBatches st.readingSessions st.closedSessions)

/-- The batches raised by the loop `while (!this->cancellationSource.Cancelled())`
of `ListenAndProduceEvents` over a sequence of passes, in order; an exception
thrown in a pass ends the polling thread. -/
def ListenAndProduceEvents (p : VEventProducer) (heap : SessionHeap) :
    List (List Readiness) → List RaisedEvent
  | [] => []
  | ready :: rest =>
    if p.cancellationSource.Cancelled then []
    else
      match p.pollOnce heap ready with
      | none => []
      | some (p', heap', raised) => raised ++ ListenAndProduceEvents p' heap' rest

end VEventProducer

/-- No session is registered under two socket descriptors. -/
def RegistryInjective (sessions : StdMap Int SessionPtr) : Prop :=
  ∀ e1 ∈ sessions, ∀ e2 ∈ sessions, e1.2 = e2.2 → e1.1 = e2.1

instance (sessions : StdMap Int SessionPtr) : Decidable (RegistryInjective sessions) :=
  inferInstanceAs (Decidable (∀ e1 ∈ sessions, ∀ e2 ∈ sessions, e1.2 = e2.2 → e1.1 = e2.1))

/-- Every descriptor of the interest list was registered with an `epoll_event`
whose `data.fd` is that descriptor, as `ConfigureSocketEvent` writes it. -/
def DataIsDescriptor (interest : EpollInterest) : Prop :=
  ∀ x ∈ interest, x.2.fd = x.1

instance (interest : EpollInterest) : Decidable (DataIsDescriptor interest) :=
  inferInstanceAs (Decidable (∀ x ∈ interest, x.2.fd = x.1))

/-- The loop invariant of a pass of the readiness-API producer that started with
the interest list `interest0`, before the events `remaining` are handled. -/
def ListenInvariant (sessions : StdMap Int SessionPtr) (interest0 : EpollInterest)
    (st : ListenState) (remaining : List EPOLL_EVENT) : Prop :=
  (∀ x ∈ st.epollInterest, x ∈ interest0) ∧
  (∀ s ∈ st.readingSessions, ∃ fd ∈ interest0.map Prod.fst, sessions.find fd = some s) ∧
  (∀ s ∈ st.closedSessions, ∃ fd ∈ interest0.map Prod.fst, sessions.find fd = some s) ∧
  (∀ s ∈ st.closedSessions, ∀ fd, sessions.find fd = some s →
    fd ∉ st.epollInterest.map Prod.fst ∧ fd ∉ remaining.map EPOLL_EVENT.fd) ∧
  st.closedSessions.Nodup

/-- The relation between an earlier and a later raised batch that the polling
passes keep: a session of an earlier closed batch is in no later batch. -/
def NotAfterClosed (earlier later : RaisedEvent) : Prop :=
  earlier.eventType = CommEventType.Close → ∀ s ∈ earlier.sessions, s ∉ later.sessions

instance (earlier later : RaisedEvent) : Decidable (NotAfterClosed earlier later) :=
  inferInstanceAs (Decidable
    (earlier.eventType = CommEventType.Close → ∀ s ∈ earlier.sessions, s ∉ later.sessions))

/-- The loop invariant of a pass of the event-array producer that started with
the session records `heap0`. -/
def PassInvariant (heap0 : SessionHeap) (st : ProcessingState) : Prop :=
  (∀ s, (st.heap s).connectionState = (heap0 s).connectionState ∨
    (st.heap s).connectionState = SessionConnectionState.Disconnected) ∧
  (∀ s ∈ st.closedSessions,
    (st.heap s).connectionState = SessionConnectionState.Disconnected) ∧
  (∀ s ∈ st.readingSessions, (heap0 s).connectionState = SessionConnectionState.Connected) ∧
  (∀ s ∈ st.closedSessions, (heap0 s).connectionState = SessionConnectionState.Connected) ∧
  st.closedSessions.Nodup

/-! ## Machine integers -/

/-- The conversion of an integer value to `int` (32 bits, two's complement):
what `static_cast<int>` and the implicit conversion of an `unsigned int`
argument give. The value is reduced modulo 2^32; a residue from 2^31 on stands
for the negative number 2^32 below it. -/
def int32 (x : Int) : Int :=
  match x with
  | Int.ofNat n =>
    if n % 4294967296 < 2147483648 then Int.ofNat (n % 4294967296)
    else Int.negSucc (4294967295 - n % 4294967296)
  | Int.negSucc n =>
    if n % 4294967296 < 2147483648 then Int.negSucc (n % 4294967296)
    else Int.ofNat (4294967295 - n % 4294967296)

/-- The conversion of an integer value to `unsigned int` (32 bits). -/
def uint32 (x : Int) : Nat :=
  (x % 4294967296).toNat

/-- The struct `std::div_t`. -/
structure div_t where
  quot : Int
  rem : Int
  deriving DecidableEq, Repr

/-- The call `std::div(x, y)` on `int`: quotient truncated towards zero and
remainder; `none` for a zero divisor, where the behaviour is undefined. -/
def std_div (x y : Int) : Option div_t :=
  if y = 0 then none else some { quot := x.tdiv y, rem := x.tmod y }

/-! ## vcommsessioninfo.cpp: the counter of waiting messages -/

/-- The method `VCommSessionInfo::IncrementMessagesWaitingToBeProcessed`, a
pre-increment of the `std::atomic<Vu32>`: the value returned and the session
afterwards. -/
def VCommSessionInfo.IncrementMessagesWaitingToBeProcessed (s : VCommSessionInfo) :
    Nat × VCommSessionInfo :=
  let updated := uint32 ((s.messagesWaitingToBeProcessed : Int) + 1)
  (updated, { s with messagesWaitingToBeProcessed := updated })

/-- The method `VCommSessionInfo::DecrementMessagesWaitingToBeProcessed`, a
pre-decrement of the `std::atomic<Vu32>`: the value returned and the session
afterwards. -/
def VCommSessionInfo.DecrementMessagesWaitingToBeProcessed (s : VCommSessionInfo) :
    Nat × VCommSessionInfo :=
  let updated := uint32 ((s.messagesWaitingToBeProcessed : Int) - 1)
  (updated, { s with messagesWaitingToBeProcessed := updated })

/-- The method `VCommSessionInfo::GetNumberOfMessagesWaitingToBeProcessed`. -/
def VCommSessionInfo.GetNumberOfMessagesWaitingToBeProcessed (s : VCommSessionInfo) : Nat :=
  s.messagesWaitingToBeProcessed

/-! ## Errors raised by the producers -/

/-- The places at which the producers raise an error (`throw`,
`VLOGGER_FATAL_AND_THROW`); `DivisionByZero` stands for an integer division by
zero, which raises no C++ exception but ends the call. -/
inductive ProducerError where
  | EpollStartAfterStop
  | EpollCreateFailed
  | EpollUpdateAfterStop
  | EpollUpdateNotStarted
  | WSAStartAfterStop
  | WSAStartFailed
  | PollingThreadNotCreated
  | WSAUpdateAfterStop
  | WSAUpdateNotStarted
  | AbortEventNotSet
  | JoinWaitFailed
  | AbortEventNotReset
  | DivisionByZero
  deriving DecidableEq, Repr

/-- The message of the error (the text before any formatted argument). -/
def ProducerError.what : ProducerError → String
  | EpollStartAfterStop =>
    "[COMM] VEventProducer::Start - Comm Event Producer is stopped and cannot be restarted"
  | EpollCreateFailed => "[COMM] VEventProducer::Start - epoll_create failed: "
  | EpollUpdateAfterStop =>
    "[COMM] VEventProducer::UpdateSessions - Event Producer is stopped and cannot be used to manage sessions"
  | EpollUpdateNotStarted =>
    "[COMM] VEventProducer::UpdateSessions - Event Producer is not started and cannot be used to manage sessions"
  | WSAStartAfterStop =>
    "[COMM] VWSAEventProducer::Start - WSA Comm Event Producer is stopped and cannot be restarted"
  | WSAStartFailed => "[COMM] VWSAEventProducer::Start - Failed to start: "
  | PollingThreadNotCreated => "[COMM] Failed to create VPollingThreadInfo instance: "
  | WSAUpdateAfterStop =>
    "[COMM] VWSAEventProducer::UpdateSessions - WSA Event Producer is stopped and cannot be used to manage sessions"
  | WSAUpdateNotStarted =>
    "[COMM] VWSAEventProducer::UpdateSessions - WSA Event Producer is not started and cannot be used to manage sessions"
  | AbortEventNotSet =>
    "[COMM] VWSAEventProducer::UpdateSessions - Failed to set abort-IO-wait event for pausing threads"
  | JoinWaitFailed =>
    "[COMM] VWSAEventProducer::UpdateSessions::waitForAllJoinEvents - Failed waiting for polling threads to join. Error: "
  | AbortEventNotReset =>
    "[COMM] VWSAEventProducer::UpdateSessions - Failed to set abort-IO-wait event for resuming threads"
  | DivisionByZero => "integer division by zero"

/-! ## veventproducer.cpp: start, stop and session updates -/

/-- The kernel side of `epoll_ctl(epoll_fd, EPOLL_CTL_ADD, fd, &event)`: the value
returned and the interest list afterwards. `accepted` tells whether the kernel
can register the descriptor at all (it cannot register a descriptor that is
closed, for one); a descriptor that is already registered gives -1. The
descriptor is registered with the event passed, as it is. -/
def epoll_ctl_add (interest : EpollInterest) (fd : Int) (event : EPOLL_EVENT) (accepted : Bool) :
    Int × EpollInterest :=
  if accepted && decide (fd ∉ interest.map Prod.fst) then (0, interest ++ [(fd, event)])
  else (-1, interest)

/-- The call `m.emplace(k, v)` of `std::map`: the map afterwards and `.second` of
the pair returned (whether the entry was inserted). -/
def StdMap.emplace {κ β : Type} [LinearOrder κ] (m : StdMap κ β) (k : κ) (v : β) :
    StdMap κ β × Bool :=
  match m.find k with
  | none => (m.assign k v, true)
  | some _ => (m, false)

namespace VEventProducer

/-- The constructor of `VEventProducer`: not started, not cancelled, an empty
registry; no epoll instance exists yet. -/
def create : VEventProducer :=
  { started := false, cancellationSource := VCancellationTokenSource.create,
    sessions := [], epollInterest := [] }

/-- The method `VEventProducer::Start`. `epoll_create1_result` is what
`epoll_create1(0)` returns when it is called. The result is the error raised or
the value returned, and the producer afterwards. -/
def Start (p : VEventProducer) (epoll_create1_result : Int) :
    Except ProducerError Bool × VEventProducer :=
  if p.cancellationSource.Cancelled then (Except.error ProducerError.EpollStartAfterStop, p)
  else if p.started then (Except.ok false, p)
  else if epoll_create1_result = -1 then (Except.error ProducerError.EpollCreateFailed, p)
  else (Except.ok true, { p with epollInterest := [], started := true })

/-- The method `VEventProducer::Stop`: the value returned and the producer
afterwards. -/
def Stop (p : VEventProducer) : Bool × VEventProducer :=
  if !p.started || p.cancellationSource.Cancelled then (false, p)
  else
    (true, { p with started := false,
                    cancellationSource := p.cancellationSource.Cancel.2,
                    sessions := [] })

/-- The method `VEventProducer::Started`. -/
def Started (p : VEventProducer) : Bool :=
  p.started && !p.cancellationSource.Cancelled

/-- The method `VEventProducer::CanStart`. -/
def CanStart (p : VEventProducer) : Bool :=
  !p.started && !p.cancellationSource.Cancelled

/-- The first loop of `UpdateSessions`: `sessions->erase(closedSession->Socket())`
for every closed session. -/
def eraseClosed (heap : SessionHeap) (sessions : StdMap Int SessionPtr) :
    List SessionPtr → StdMap Int SessionPtr
  | [] => sessions
  | closedSession :: rest =>
    eraseClosed heap (sessions.erase (heap closedSession).socket) rest

/-- The second loop of `UpdateSessions`: every new session is emplaced under its
socket; when that inserted an entry the socket is added to the epoll instance
with the socket event of the session (a failure of the add is logged only). The
result is the registry and the interest list afterwards. -/
def addNew (heap : SessionHeap) (addAccepted : Int → Bool) :
    StdMap Int SessionPtr × EpollInterest → List SessionPtr →
      StdMap Int SessionPtr × EpollInterest
  | st, [] => st
  | st, newSession :: rest =>
    let addNewResult := st.1.emplace (heap newSession).socket newSession
    if !addNewResult.2 then addNew heap addAccepted (addNewResult.1, st.2) rest
    else
      let event := (heap newSession).SocketEvent
      let added := epoll_ctl_add st.2 (heap newSession).socket event
        (addAccepted (heap newSession).socket)
      addNew heap addAccepted (addNewResult.1, added.2) rest

/-- The method `VEventProducer::UpdateSessions`. `addAccepted` tells for which
descriptors the kernel accepts `EPOLL_CTL_ADD`. The result is the error raised,
if any, and the producer afterwards. -/
def UpdateSessions (p : VEventProducer) (heap : SessionHeap)
    (newSessions closedSessions : List SessionPtr) (addAccepted : Int → Bool) :
    Option ProducerError × VEventProducer :=
  if !p.started then
    if p.cancellationSource.Cancelled then (some ProducerError.EpollUpdateAfterStop, p)
    else (some ProducerError.EpollUpdateNotStarted, p)
  else if p.cancellationSource.Cancelled then (none, p)
  else
    let erased := eraseClosed heap p.sessions closedSessions
    let r := addNew heap addAccepted (erased, p.epollInterest) newSessions
    (none, { p with sessions := r.1, epollInterest := r.2 })

end VEventProducer

/-- A call on the readiness-API producer, with the answers of the operating
system and the session records at the time of the call. -/
inductive EpollProducerCall where
  | Start (epoll_create1_result : Int)
  | Stop
  | UpdateSessions (heap : SessionHeap) (newSessions closedSessions : List SessionPtr)
      (addAccepted : Int → Bool)

/-- The readiness-API producer after one call. -/
def EpollProducerCall.apply (c : EpollProducerCall) (p : VEventProducer) : VEventProducer :=
  match c with
  | EpollProducerCall.Start r => (p.Start r).2
  | EpollProducerCall.Stop => p.Stop.2
  | EpollProducerCall.UpdateSessions heap newSessions closedSessions addAccepted =>
    (p.UpdateSessions heap newSessions closedSessions addAccepted).2

/-- The readiness-API producer after a sequence of calls. -/
def runEpollProducerCalls (p : VEventProducer) (cs : List EpollProducerCall) : VEventProducer :=
  cs.foldl (fun acc c => c.apply acc) p

/-- A step in the life of a readiness-API producer: a call of `Start` or of
`UpdateSessions`, or one pass of the polling thread over the readiness
conditions `ready`. -/
inductive EpollStep where
  | Start (epoll_create1_result : Int)
  | UpdateSessions (heap : SessionHeap) (newSessions closedSessions : List SessionPtr)
      (addAccepted : Int → Bool)
  | Poll (heap : SessionHeap) (ready : List Readiness)

/-- The producer after one step; `none` when a registry lookup of the polling
pass throws. -/
def EpollStep.apply (step : EpollStep) (p : VEventProducer) : Option VEventProducer :=
  match step with
  | EpollStep.Start r => some (p.Start r).2
  | EpollStep.UpdateSessions heap newSessions closedSessions addAccepted =>
    some (p.UpdateSessions heap newSessions closedSessions addAccepted).2
  | EpollStep.Poll heap ready =>
    match p.pollOnce heap ready with
    | none => none
    | some r => some r.1

/-- The producer after a sequence of steps; `none` when a registry lookup
throws on the way. -/
def runEpollSteps : VEventProducer → List EpollStep → Option VEventProducer
  | p, [] => some p
  | p, step :: rest =>
    match step.apply p with
    | none => none
    | some p' => runEpollSteps p' rest

/-- Whether the sessions that a sequence of steps passes as closed to
`UpdateSessions` have, each at the time of its call, a descriptor that is not in
the epoll interest list (it was deleted on a hang-up, or was never added). The
sequence is followed as far as it runs. -/
def closedAreDeregistered : VEventProducer → List EpollStep → Bool
  | _, [] => true
  | p, step :: rest =>
    (match step with
      | EpollStep.UpdateSessions heap _ closedSessions _ =>
        closedSessions.all (fun c => decide ((heap c).socket ∉ p.epollInterest.map Prod.fst))
      | _ => true) &&
    (match step.apply p with
      | none => true
      | some p' => closedAreDeregistered p' rest)

/-- Whether the sessions that a sequence of steps passes as new to
`UpdateSessions` carry, each at the time of its call, a socket event whose
`data.fd` is the socket of the session, as `ConfigureSocketEvent` writes it when
a session is constructed as `Connected`. -/
def newAreConfigured : List EpollStep → Bool
  | [] => true
  | step :: rest =>
    (match step with
      | EpollStep.UpdateSessions heap newSessions _ _ =>
        newSessions.all (fun s => decide ((heap s).SocketEvent.fd = (heap s).socket))
      | _ => true) &&
    newAreConfigured rest

/-- Whether the sessions that a sequence of steps passes as new to
`UpdateSessions` have, each at the time of its call, the socket that `socketOf`
gives for them: no session changes its socket between the calls. -/
def newHaveSocket (socketOf : SessionPtr → Int) : List EpollStep → Bool
  | [] => true
  | step :: rest =>
    (match step with
      | EpollStep.UpdateSessions heap newSessions _ _ =>
        newSessions.all (fun s => decide ((heap s).socket = socketOf s))
      | _ => true) &&
    newHaveSocket socketOf rest

/-! ## vpollingthreadinfo.cpp -/

/-- The data members of `VPollingThreadInfo` (the handles of the thread, of the
abort event and of the join event carry no data here). -/
structure VPollingThreadInfo where
  id : Nat
  groupOffset : Nat
  numberOfSockets : Nat
  isJoinEventSet : AtomicBoolean
  threadExited : AtomicBoolean
  pollingCancellationSource : VCancellationTokenSource
  deriving DecidableEq, Repr

namespace VPollingThreadInfo

/-- The constructor `VPollingThreadInfo(threadId, groupOffset, numberOfSockets,
...)`, once its join event has been created. -/
def create (threadId groupOffset numberOfSockets : Nat) : VPollingThreadInfo :=
  { id := threadId, groupOffset := groupOffset, numberOfSockets := numberOfSockets,
    isJoinEventSet := false, threadExited := false,
    pollingCancellationSource := VCancellationTokenSource.create }

/-- The getter `VPollingThreadInfo::GroupOffset()`. -/
def GroupOffset (t : VPollingThreadInfo) : Nat :=
  t.groupOffset

/-- The setter `VPollingThreadInfo::GroupOffset(inGroupOffset)`. -/
def setGroupOffset (t : VPollingThreadInfo) (inGroupOffset : Nat) : VPollingThreadInfo :=
  { t with groupOffset := inGroupOffset }

/-- The getter `VPollingThreadInfo::NumberOfSockets()`. -/
def NumberOfSockets (t : VPollingThreadInfo) : Nat :=
  t.numberOfSockets

/-- The setter `VPollingThreadInfo::NumberOfSockets(inNumberOfSockets)`. -/
def setNumberOfSockets (t : VPollingThreadInfo) (inNumberOfSockets : Nat) : VPollingThreadInfo :=
  { t with numberOfSockets := inNumberOfSockets }

/-- The method `VPollingThreadInfo::IsPollingThreadJoinEventSet`. -/
def IsPollingThreadJoinEventSet (t : VPollingThreadInfo) : Bool :=
  t.isJoinEventSet

/-- The method `VPollingThreadInfo::ResetPollingThreadJoinEvent`; `resetEvent` is
what `::ResetEvent` returns when it is called. The result is the value returned
and the record afterwards. -/
def ResetPollingThreadJoinEvent (t : VPollingThreadInfo) (resetEvent : Bool) :
    Bool × VPollingThreadInfo :=
  let eventIsSet := true
  let r := compare_exchange_strong t.isJoinEventSet eventIsSet false
  if !r.2 then (true, { t with isJoinEventSet := r.1 })
  else if !resetEvent then (false, { t with isJoinEventSet := true })
  else (true, { t with isJoinEventSet := r.1 })

/-- The method `VPollingThreadInfo::ThreadExited`. -/
def ThreadExited (t : VPollingThreadInfo) : Bool :=
  t.threadExited

/-- The method `VPollingThreadInfo::SetThreadExited`: the value returned and the
record afterwards. -/
def SetThreadExited (t : VPollingThreadInfo) : Bool × VPollingThreadInfo :=
  if t.threadExited then (false, { t with threadExited := true })
  else (false, t)

/-- The method `VPollingThreadInfo::Cancelled`. -/
def Cancelled (t : VPollingThreadInfo) : Bool :=
  t.pollingCancellationSource.Cancelled

/-- The method `VPollingThreadInfo::Cancel`: the value returned and the record
afterwards. -/
def Cancel (t : VPollingThreadInfo) : Bool × VPollingThreadInfo :=
  (t.pollingCancellationSource.Cancel.1,
    { t with pollingCancellationSource := t.pollingCancellationSource.Cancel.2 })

end VPollingThreadInfo

/-! ## vcommsessioninfo.cpp: the comparer -/

/-- The call `VCommSessionInfoComparer(sessionInfo)(other)` on two shared
pointers (`none`: a null pointer). -/
def VCommSessionInfoComparer (heap : SessionHeap) (sessionInfo other : Option SessionPtr) : Bool :=
  match sessionInfo, other with
  | none, none => true
  | some s, some o => decide ((heap s).id = (heap o).id)
  | _, _ => false

/-! ## vwsaeventproducer.cpp: start, stop and session updates -/

/-- The data members of `VWSAEventProducer`. `sessions` is the shared vector of
sessions, `pollingThreads` the records of the polling threads in thread
order. -/
structure VWSAEventProducer where
  minimumPollingThreads : Nat
  maximumEventsPerPollingThread : Nat
  started : AtomicBoolean
  cancellationSource : VCancellationTokenSource
  sessions : List SessionPtr
  pollingThreads : List VPollingThreadInfo
  waitTokenSource : VWaitTokenSource
  abortIOWaitEventSet : AtomicBoolean
  deriving DecidableEq, Repr

/-- What `::WaitForMultipleObjects` returns: an object index (all events are
signalled), `WAIT_TIMEOUT` or `WAIT_FAILED`. -/
inductive WaitResult where
  | WAIT_OBJECT_0
  | WAIT_TIMEOUT
  | WAIT_FAILED
  deriving DecidableEq, Repr

/-- The answers of the operating system during `VWSAEventProducer::Start`:
whether `::WSACreateEvent` gave an event, and for every thread id whether its
`VPollingThreadInfo` (with its join event) and its thread could be created. -/
structure StartOS where
  abortEventCreated : Bool
  threadCreated : Nat → Bool

/-- The answers of the operating system during
`VWSAEventProducer::UpdateSessions`, in the order of use: `::WSASetEvent`, the
wait for the pause acknowledgements, `::ResetEvent` on the join event of a
thread id, the creation of the thread with an id, `::WSAResetEvent`, the wait
after the resume. -/
structure UpdateOS where
  wsaSetEvent : Bool
  pauseWait : WaitResult
  resetJoinEvent : Nat → Bool
  threadCreated : Nat → Bool
  wsaResetEvent : Bool
  resumeWait : WaitResult

/-- The local variables `offset`, `remainder`, `groupsCreated` and `threadId` of
step 6 of `UpdateSessions` (all of type `int`). -/
structure GroupCursor where
  offset : Int
  remainder : Int
  groupsCreated : Int
  threadId : Int
  deriving DecidableEq, Repr

namespace VWSAEventProducer

/-- The constructor as `vwsaeventproducer.cpp` defines it: the first number
passed is stored as `minimumPollingThreads`, the second as
`maximumEventsPerPollingThread`. -/
def create (minimumPollingThreads maximumEventsPerPollingThread : Nat) : VWSAEventProducer :=
  { minimumPollingThreads := minimumPollingThreads,
    maximumEventsPerPollingThread := maximumEventsPerPollingThread,
    started := false, cancellationSource := VCancellationTokenSource.create,
    sessions := [], pollingThreads := [],
    waitTokenSource := VWaitTokenSource.create false,
    abortIOWaitEventSet := false }

/-- The loop of `Start` that creates the polling threads `i, i + 1, ...`
(`count` of them), each with offset 0 and no sockets. The result is the error
raised, if any, and the thread records afterwards. -/
def startThreads (threadCreated : Nat → Bool) :
    Nat → Nat → List VPollingThreadInfo → Option ProducerError × List VPollingThreadInfo
  | 0, _, threads => (none, threads)
  | count + 1, i, threads =>
    if !threadCreated i then (some ProducerError.PollingThreadNotCreated, threads)
    else startThreads threadCreated count (i + 1) (threads ++ [VPollingThreadInfo.create i 0 0])

/-- The method `VWSAEventProducer::Start`: the error raised or the value
returned, and the producer afterwards. -/
def Start (p : VWSAEventProducer) (os : StartOS) : Except ProducerError Bool × VWSAEventProducer :=
  if p.cancellationSource.Cancelled then (Except.error ProducerError.WSAStartAfterStop, p)
  else if p.started then (Except.ok false, p)
  else if !os.abortEventCreated then (Except.error ProducerError.WSAStartFailed, p)
  else
    let r := startThreads os.threadCreated p.minimumPollingThreads 1 p.pollingThreads
    match r.1 with
    | some e => (Except.error e, { p with pollingThreads := r.2 })
    | none => (Except.ok true, { p with pollingThreads := r.2, started := true })

/-- The method `VWSAEventProducer::SetAbortIOWaitEvent`; `wsaSetEvent` is what
`::WSASetEvent` returns when it is called. -/
def SetAbortIOWaitEvent (p : VWSAEventProducer) (wsaSetEvent : Bool) : Bool × VWSAEventProducer :=
  let eventIsSet := false
  let r := compare_exchange_strong p.abortIOWaitEventSet eventIsSet true
  if !r.2 then (true, { p with abortIOWaitEventSet := r.1 })
  else if !wsaSetEvent then (false, { p with abortIOWaitEventSet := false })
  else (true, { p with abortIOWaitEventSet := r.1 })

/-- The method `VWSAEventProducer::ResetAbortIOWaitEvent`; `wsaResetEvent` is
what `::WSAResetEvent` returns when it is called. -/
def ResetAbortIOWaitEvent (p : VWSAEventProducer) (wsaResetEvent : Bool) :
    Bool × VWSAEventProducer :=
  let eventIsSet := true
  let r := compare_exchange_strong p.abortIOWaitEventSet eventIsSet false
  if !r.2 then (true, { p with abortIOWaitEventSet := r.1 })
  else if !wsaResetEvent then (false, { p with abortIOWaitEventSet := true })
  else (true, { p with abortIOWaitEventSet := r.1 })

/-- The method `VWSAEventProducer::Stop`; `wsaSetEvent` is what `::WSASetEvent`
returns when it is called (a failure is logged only). The result is the value
returned and the producer afterwards. -/
def Stop (p : VWSAEventProducer) (wsaSetEvent : Bool) : Bool × VWSAEventProducer :=
  if !p.started || p.cancellationSource.Cancelled then (false, p)
  else
    let p1 := { p with started := false, cancellationSource := p.cancellationSource.Cancel.2 }
    let p2 := { p1 with pollingThreads := p1.pollingThreads.map (fun (t : VPollingThreadInfo) => t.Cancel.2) }
    let p3 := (p2.SetAbortIOWaitEvent wsaSetEvent).2
    (true, { p3 with pollingThreads := [], sessions := [] })

/-- The method `VWSAEventProducer::Started`. -/
def Started (p : VWSAEventProducer) : Bool :=
  p.started && !p.cancellationSource.Cancelled

/-- The method `VWSAEventProducer::CanStart`. -/
def CanStart (p : VWSAEventProducer) : Bool :=
  !p.started && !p.cancellationSource.Cancelled

/-- The lambda `waitForAllJoinEvents` of `UpdateSessions`, given what
`::WaitForMultipleObjects` returns. Every path through the body of its
`while (true)` ends in `break` or `throw`, so the wait is made once. -/
def waitForAllJoinEvents (pollingThreads : List VPollingThreadInfo) (waitResult : WaitResult) :
    Except ProducerError Unit :=
  if pollingThreads.length = 0 then Except.ok ()
  else
    let allSignalled := pollingThreads.foldl
      (fun acc t => acc && t.IsPollingThreadJoinEventSet) true
    if waitResult = WaitResult.WAIT_TIMEOUT ∧ allSignalled = true then Except.ok ()
    else if waitResult = WaitResult.WAIT_FAILED then Except.error ProducerError.JoinWaitFailed
    else Except.ok ()

/-- The lambda `shouldRemoveSession` of `UpdateSessions`. -/
def shouldRemoveSession (heap : SessionHeap) (closedSessions : List SessionPtr)
    (sessionInfo : SessionPtr) : Bool :=
  decide ((heap sessionInfo).ConnectionState ≠ SessionConnectionState.Connected) ||
    closedSessions.any (fun c => VCommSessionInfoComparer heap (some sessionInfo) (some c))

/-- Step 3 of `UpdateSessions`: the erase-remove of the sessions to remove and
the insertion of the new sessions at the end. -/
def updateRegistry (heap : SessionHeap) (sessions newSessions closedSessions : List SessionPtr) :
    List SessionPtr :=
  let kept := sessions.filter (fun s => !shouldRemoveSession heap closedSessions s)
  if newSessions.length > 0 then kept ++ newSessions else kept

/-- The number of groups `requiredSocketGroups` of step 4 of `UpdateSessions`, an
`unsigned int`; `none` when the division by `maximumEventsPerPollingThread` is a
division by zero. -/
def requiredSocketGroups (numberOfSockets : Int) (maximumEventsPerPollingThread
    minimumPollingThreads : Nat) : Option Nat :=
  match std_div numberOfSockets (int32 maximumEventsPerPollingThread) with
  | none => none
  | some result =>
    let required := uint32 (result.quot + (if result.rem > 0 then 1 else 0))
    some (if required < minimumPollingThreads then minimumPollingThreads else required)

/-- The first loop of step 6 of `UpdateSessions`: every polling thread that is
kept gets its offset and its number of sockets, and its join event is reset. -/
def updateThreads (quot : Int) (resetJoinEvent : Nat → Bool) :
    List VPollingThreadInfo → GroupCursor → List VPollingThreadInfo × GroupCursor
  | [], c => ([], c)
  | pollingThreadInfo :: rest, c =>
    let threadSockets := quot + (if c.remainder > 0 then 1 else 0)
    let t1 := pollingThreadInfo.setGroupOffset (uint32 c.offset)
    let t2 := t1.setNumberOfSockets (uint32 threadSockets)
    let t3 := (t2.ResetPollingThreadJoinEvent (resetJoinEvent t2.id)).2
    let r := updateThreads quot resetJoinEvent rest
      { offset := c.offset + threadSockets, remainder := c.remainder - 1,
        groupsCreated := c.groupsCreated + 1, threadId := c.threadId + 1 }
    (t3 :: r.1, r.2)

/-- The second loop of step 6 of `UpdateSessions`, `for (unsigned int i =
groupsCreated + 1; i <= requiredSocketGroups; i++, threadId++)`, with `count`
iterations left: the threads that are missing are created behind the threads
`threads`. The number of iterations is `requiredSocketGroups + 1 - (groupsCreated
+ 1)`, as long as `requiredSocketGroups` is below 2^32 - 1 (at 2^32 - 1 the
condition `i <= requiredSocketGroups` never fails). The result is the error raised, if any, and the thread records
afterwards. -/
def createThreads (quot : Int) (threadCreated : Nat → Bool) :
    Nat → GroupCursor → List VPollingThreadInfo → Option ProducerError × List VPollingThreadInfo
  | 0, _, threads => (none, threads)
  | count + 1, c, threads =>
    let groupSockets := quot + (if c.remainder > 0 then 1 else 0)
    if !threadCreated (uint32 c.threadId) then (some ProducerError.PollingThreadNotCreated, threads)
    else
      createThreads quot threadCreated count
        { offset := c.offset + groupSockets, remainder := c.remainder - 1,
          groupsCreated := c.groupsCreated, threadId := c.threadId + 1 }
        (threads ++ [VPollingThreadInfo.create (uint32 c.threadId) (uint32 c.offset)
          (uint32 groupSockets)])

/-- Steps 4 to 6 of `UpdateSessions` for a registry of `sessions.size()` sessions:
the number of groups is computed, the threads beyond it are cancelled and
dropped, the threads kept get their windows and the missing threads are
created. The result is the error raised, if any, and the thread records
afterwards. -/
def redistribute (p : VWSAEventProducer) (os : UpdateOS) :
    Option ProducerError × List VPollingThreadInfo :=
  let numberOfSockets := int32 p.sessions.length
  match requiredSocketGroups numberOfSockets p.maximumEventsPerPollingThread
      p.minimumPollingThreads with
  | none => (some ProducerError.DivisionByZero, p.pollingThreads)
  | some requiredSocketGroups =>
    match std_div numberOfSockets (int32 requiredSocketGroups) with
    | none => (some ProducerError.DivisionByZero, p.pollingThreads)
    | some result =>
      -- step 5: the threads from index `requiredSocketGroups` on are cancelled and erased
      let kept :=
        if p.pollingThreads.length > requiredSocketGroups then
          p.pollingThreads.take requiredSocketGroups
        else p.pollingThreads
      -- step 6
      let updated := updateThreads result.quot os.resetJoinEvent kept
        { offset := 0, remainder := result.rem, groupsCreated := 0, threadId := 1 }
      createThreads result.quot os.threadCreated
        (requiredSocketGroups + 1 - uint32 (updated.2.groupsCreated + 1)) updated.2 updated.1

/-- The method `VWSAEventProducer::UpdateSessions`: the error raised, if any, and
the producer afterwards. -/
def UpdateSessions (p : VWSAEventProducer) (heap : SessionHeap)
    (newSessions closedSessions : List SessionPtr) (os : UpdateOS) :
    Option ProducerError × VWSAEventProducer :=
  if !p.started then
    if p.cancellationSource.Cancelled then (some ProducerError.WSAUpdateAfterStop, p)
    else (some ProducerError.WSAUpdateNotStarted, p)
  else if p.cancellationSource.Cancelled then (none, p)
  else
    -- step 1
    let p1 := { p with waitTokenSource := p.waitTokenSource.Wait.2 }
    let set := p1.SetAbortIOWaitEvent os.wsaSetEvent
    if !set.1 then (some ProducerError.AbortEventNotSet, set.2)
    else
      -- step 2
      match waitForAllJoinEvents set.2.pollingThreads os.pauseWait with
      | Except.error e => (some e, set.2)
      | Except.ok _ =>
        -- step 3
        let p3 := { set.2 with
          sessions := updateRegistry heap set.2.sessions newSessions closedSessions }
        -- steps 4 to 6
        let groups := redistribute p3 os
        let p6 := { p3 with pollingThreads := groups.2 }
        match groups.1 with
        | some e => (some e, p6)
        | none =>
          -- step 7
          let reset := p6.ResetAbortIOWaitEvent os.wsaResetEvent
          if !reset.1 then (some ProducerError.AbortEventNotReset, reset.2)
          else
            let p7 := { reset.2 with waitTokenSource := reset.2.waitTokenSource.Continue.2 }
            match waitForAllJoinEvents p7.pollingThreads os.resumeWait with
            | Except.error e => (some e, p7)
            | Except.ok _ =>
              let threads := p7.pollingThreads.map (fun (t : VPollingThreadInfo) =>
                (t.ResetPollingThreadJoinEvent (os.resetJoinEvent t.id)).2)
              (none, { p7 with pollingThreads := threads })

end VWSAEventProducer

/-- A call on the event-array producer, with the answers of the operating system
and the session records at the time of the call. -/
inductive WSAProducerCall where
  | Start (os : StartOS)
  | Stop (wsaSetEvent : Bool)
  | UpdateSessions (heap : SessionHeap) (newSessions closedSessions : List SessionPtr)
      (os : UpdateOS)

/-- The event-array producer after one call. -/
def WSAProducerCall.apply (c : WSAProducerCall) (p : VWSAEventProducer) : VWSAEventProducer :=
  match c with
  | WSAProducerCall.Start os => (p.Start os).2
  | WSAProducerCall.Stop wsaSetEvent => (p.Stop wsaSetEvent).2
  | WSAProducerCall.UpdateSessions heap newSessions closedSessions os =>
    (p.UpdateSessions heap newSessions closedSessions os).2

/-- The event-array producer after a sequence of calls. -/
def runWSAProducerCalls (p : VWSAEventProducer) (cs : List WSAProducerCall) : VWSAEventProducer :=
  cs.foldl (fun acc c => c.apply acc) p

/-! ## vcommsessioneventproducerfactory.cpp -/

/-- The data member `commSessionEventProducer` of
`VCommSessionEventProducerFactory` (`none`: the null pointer). -/
structure VCommSessionEventProducerFactory where
  commSessionEventProducer : Option VWSAEventProducer
  deriving DecidableEq, Repr

/-- The error `VException("An instance of Comm Session Event Producer is already
created")`. -/
inductive FactoryError where
  | AlreadyCreated
  deriving DecidableEq, Repr

namespace VCommSessionEventProducerFactory

/-- The method `CreateCommSessionEventProducer` as
`vcommsessioneventproducerfactory.cpp` defines it: the two numbers are passed
on, in the order received, to the constructor of `VWSAEventProducer`. The
result is the error raised or the producer created, and the factory
afterwards. -/
def CreateCommSessionEventProducer (f : VCommSessionEventProducerFactory)
    (minimumPollingThreads maximumEventsPerPollingThread : Nat) :
    Except FactoryError VWSAEventProducer × VCommSessionEventProducerFactory :=
  match f.commSessionEventProducer with
  | some _ => (Except.error FactoryError.AlreadyCreated, f)
  | none =>
    let csep := VWSAEventProducer.create minimumPollingThreads maximumEventsPerPollingThread
    (Except.ok csep, { commSessionEventProducer := some csep })

end VCommSessionEventProducerFactory

/-- The constant `VCommSessionEventProducer::MAX_SOCKETS_PER_POLLING_THREAD` as
`vwsaeventproducer.cpp` defines it. No function of the repository reads it. -/
def MAX_SOCKETS_PER_POLLING_THREAD : Nat := 63

/-- A call `VWSAEventProducer(name, maximumEventsPerPollingThread,
minimumPollingThreads)` written against the declaration in `vwsaeventproducer.h`.
Arguments are bound by position, so the first number reaches the first
parameter of the definition in `vwsaeventproducer.cpp`. -/
def VWSAEventProducer.createAsDeclared (maximumEventsPerPollingThread
    minimumPollingThreads : Nat) : VWSAEventProducer :=
  VWSAEventProducer.create maximumEventsPerPollingThread minimumPollingThreads

/-- A call `CreateCommSessionEventProducer(maximumEventsPerPollingThread,
minimumPollingThreads)` written against the declaration in
`vcommsessioneventproducerfactory.h`. Arguments are bound by position, so the
first number reaches the first parameter of the definition in
`vcommsessioneventproducerfactory.cpp`. -/
def VCommSessionEventProducerFactory.createAsDeclared (f : VCommSessionEventProducerFactory)
    (maximumEventsPerPollingThread minimumPollingThreads : Nat) :
    Except FactoryError VWSAEventProducer × VCommSessionEventProducerFactory :=
  f.CreateCommSessionEventProducer maximumEventsPerPollingThread minimumPollingThreads

/-! ## The window of a polling thread; the partition as the specification words it -/

/-- The window of the sessions vector that a polling thread snapshots in
`ListenAndProduceEvents`: `startPosition` is `inSessions->begin() + GroupOffset()`
and `endPosition` is `startPosition + NumberOfSockets()`. The pair holds the
offset and the count. -/
def VPollingThreadInfo.window (t : VPollingThreadInfo) : Nat × Nat :=
  (t.GroupOffset, t.NumberOfSockets)

/-- The number of groups in the words of the specification:
`ceil(n / maximumEventsPerPollingThread)`, floored by the configured minimum. -/
def specGroups (n maximumEventsPerPollingThread minimumPollingThreads : Nat) : Nat :=
  max ((n + maximumEventsPerPollingThread - 1) / maximumEventsPerPollingThread)
    minimumPollingThreads

/-- The number of sessions of the `i`-th of `g` groups in the words of the
specification: `n / g`, and one more for the first `n mod g` groups. -/
def specGroupSize (n g i : Nat) : Nat :=
  n / g + (if i < n % g then 1 else 0)

/-! ## Concrete states used in the examples -/

/-- Session records in which every session was constructed as `Connected`; the
sessions at the addresses 100 and 101 have the sockets 5 and 6. -/
def allConnected : SessionHeap := fun ptr =>
  VCommSessionInfo.create ptr (Int.ofNat ptr - 95) SessionConnectionState.Connected
    MessageReceptionAfterDisconnection.NotSupported
    MessageProcessingAfterDisconnection.NotSupported { events := 0, fd := 0 }

/-- A started readiness-API producer with the sessions 100 and 101 of
`allConnected` registered under the descriptors 5 and 6 and added to the epoll
instance with their socket events. -/
def exampleProducer : VEventProducer :=
  { started := true, cancellationSource := VCancellationTokenSource.create,
    sessions := [(5, 100), (6, 101)],
    epollInterest := [(5, (allConnected 100).SocketEvent), (6, (allConnected 101).SocketEvent)] }

/-- Session records in which the session 200 uses the socket descriptor 5, the
descriptor of session 100 (the descriptor was used again); every other session
is as in `allConnected`. -/
def reusedDescriptor : SessionHeap := fun ptr =>
  if ptr = 200 then
    VCommSessionInfo.create 200 5 SessionConnectionState.Connected
      MessageReceptionAfterDisconnection.NotSupported
      MessageProcessingAfterDisconnection.NotSupported { events := 0, fd := 0 }
  else allConnected ptr

/-- Session records in which the session 100, with the socket 5, was constructed
as `NotConnected` and set connected later (a deferred connection): its socket
event was never configured, and the member holds what the storage of the object
held, here an empty mask and the value 6 in `data.fd`. Every other session is
as in `allConnected`. -/
def neverConfigured : SessionHeap := fun ptr =>
  if ptr = 100 then
    (VCommSessionInfo.create 100 5 SessionConnectionState.NotConnected
      MessageReceptionAfterDisconnection.NotSupported
      MessageProcessingAfterDisconnection.NotSupported
      { events := 0, fd := 6 }).SetAsConnected.2
  else allConnected ptr

/-- An answer of the operating system for one index of the event array: the wait
and the enumeration succeed and report the given network events without error
codes. -/
def probeOf (lNetworkEvents : Nat) : SocketProbe :=
  { waitFailed := false, enumResult := 0,
    networkEvents := { lNetworkEvents := lNetworkEvents, iErrorCode := fun _ => 0 },
    lastError := 0 }

/-- Answers of the operating system during `VWSAEventProducer::Start` in which
every call succeeds. -/
def okStartOS : StartOS :=
  { abortEventCreated := true, threadCreated := fun _ => true }

/-- Answers of the operating system during `VWSAEventProducer::UpdateSessions` in
which every call succeeds and both waits find all join events signalled. -/
def okUpdateOS : UpdateOS :=
  { wsaSetEvent := true, pauseWait := WaitResult.WAIT_OBJECT_0, resetJoinEvent := fun _ => true,
    threadCreated := fun _ => true, wsaResetEvent := true,
    resumeWait := WaitResult.WAIT_OBJECT_0 }

/-! ## Theorems -/

/-- C1: in every connection state, `SetAsConnected` returns true exactly from
`NotConnected` and then leaves `Connected`, `SetAsDisconnected` returns true
exactly from `Connected` and then leaves `Disconnected`, and a call that returns
false leaves the whole record as it was. -/
theorem C1_connection_state_cas (s : VCommSessionInfo) :
    (s.SetAsConnected.1 = true ↔ s.connectionState = SessionConnectionState.NotConnected) ∧
    (s.SetAsConnected.1 = true →
      s.SetAsConnected.2.connectionState = SessionConnectionState.Connected) ∧
    (s.SetAsConnected.1 = false → s.SetAsConnected.2 = s) ∧
    (s.SetAsDisconnected.1 = true ↔ s.connectionState = SessionConnectionState.Connected) ∧
    (s.SetAsDisconnected.1 = true →
      s.SetAsDisconnected.2.connectionState = SessionConnectionState.Disconnected) ∧
    (s.SetAsDisconnected.1 = false → s.SetAsDisconnected.2 = s) ∧
    (s.connectionState = SessionConnectionState.Disconnected →
      s.SetAsConnected = (false, s) ∧ s.SetAsDisconnected = (false, s)) := by
  obtain ⟨id, socket, st, mr, mp, n⟩ := s
  cases st <;>
    simp [VCommSessionInfo.SetAsConnected, VCommSessionInfo.SetAsDisconnected,
      compare_exchange_strong]

theorem observedStates_eq_cons (s : VCommSessionInfo) (cs : List SessionCall) :
    ∃ t, observedStates s cs = s.connectionState :: t := by
  cases cs with
  | nil => exact ⟨[], rfl⟩
  | cons c cs => exact ⟨observedStates (c.apply s) cs, rfl⟩

theorem distinctRuns_cons_same {α : Type} [DecidableEq α] (a : α) (l : List α) :
    distinctRuns (a :: a :: l) = distinctRuns (a :: l) := by
  simp [distinctRuns]

theorem distinctRuns_cons_ne {α : Type} [DecidableEq α] {a b : α} (h : a ≠ b) (l : List α) :
    distinctRuns (a :: b :: l) = a :: distinctRuns (b :: l) := by
  simp [distinctRuns, h]

theorem apply_state_cases (c : SessionCall) (s : VCommSessionInfo) :
    (c.apply s).connectionState = s.connectionState ∨
    (s.connectionState = SessionConnectionState.NotConnected ∧
      (c.apply s).connectionState = SessionConnectionState.Connected) ∨
    (s.connectionState = SessionConnectionState.Connected ∧
      (c.apply s).connectionState = SessionConnectionState.Disconnected) := by
  obtain ⟨id, socket, st, mr, mp, n⟩ := s
  cases c <;> cases st <;>
    simp [SessionCall.apply, VCommSessionInfo.SetAsConnected,
      VCommSessionInfo.SetAsDisconnected, compare_exchange_strong]

theorem distinctRuns_observed_within (cs : List SessionCall) :
    ∀ s : VCommSessionInfo,
      distinctRuns (observedStates s cs) <+: lifeCycleFrom s.connectionState := by
  induction cs with
  | nil =>
    intro s
    show [s.connectionState] <+: lifeCycleFrom s.connectionState
    cases s.connectionState <;> decide
  | cons c cs ih =>
    intro s
    obtain ⟨t, ht⟩ := observedStates_eq_cons (c.apply s) cs
    have hih := ih (c.apply s)
    show distinctRuns (s.connectionState :: observedStates (c.apply s) cs) <+: _
    rw [ht] at hih ⊢
    rcases apply_state_cases c s with h | ⟨h1, h2⟩ | ⟨h1, h2⟩
    · rw [h] at hih ⊢
      rw [← h, distinctRuns_cons_same]
      rw [h]
      exact hih
    · rw [h2] at hih ⊢
      rw [h1, distinctRuns_cons_ne (by decide)]
      exact (List.prefix_cons_inj _).mpr hih
    · rw [h2] at hih ⊢
      rw [h1, distinctRuns_cons_ne (by decide)]
      exact (List.prefix_cons_inj _).mpr hih

/-- C2 (as stated, refuted): a session record constructed as `Connected` is
observed in the state `Connected` first, and `[Connected]` is no prefix of
`[NotConnected, Connected, Disconnected]`. -/
theorem C2_prefix_fails_when_constructed_connected :
    ¬ (∀ (s : VCommSessionInfo) (cs : List SessionCall),
        distinctRuns (observedStates s cs) <+: lifeCycle) := by
  intro h
  have h1 := h (VCommSessionInfo.create 1 5 SessionConnectionState.Connected
    MessageReceptionAfterDisconnection.NotSupported
    MessageProcessingAfterDisconnection.NotSupported { events := 0, fd := 0 }) []
  revert h1
  decide

/-- C2 (amended): whatever state a session record is constructed with and
whatever calls follow, the distinct connection states observed begin with the
state at construction and are a prefix of the part of
`[NotConnected, Connected, Disconnected]` that starts at that state; so they are
a contiguous piece of the life cycle, and a prefix of all of it for a record
constructed as `NotConnected`. -/
theorem C2_observed_states_follow_life_cycle (s : VCommSessionInfo) (cs : List SessionCall) :
    distinctRuns (observedStates s cs) <+: lifeCycleFrom s.connectionState ∧
    (distinctRuns (observedStates s cs)).head? = some s.connectionState ∧
    distinctRuns (observedStates s cs) <:+: lifeCycle ∧
    (s.connectionState = SessionConnectionState.NotConnected →
      distinctRuns (observedStates s cs) <+: lifeCycle) := by
  have hp := distinctRuns_observed_within cs s
  have hsuf : lifeCycleFrom s.connectionState <:+ lifeCycle := by
    cases s.connectionState <;> decide
  refine ⟨hp, ?_, hp.isInfix.trans hsuf.isInfix, ?_⟩
  · obtain ⟨t, ht⟩ := observedStates_eq_cons s cs
    rw [ht]
    cases t with
    | nil => rfl
    | cons b t =>
      by_cases hb : s.connectionState = b
      · subst hb
        rw [distinctRuns_cons_same]
        have key : ∀ (l : List SessionConnectionState) (a : SessionConnectionState),
            (distinctRuns (a :: l)).head? = some a := by
          intro l
          induction l with
          | nil => intro a; rfl
          | cons x l ihl =>
            intro a
            by_cases hx : a = x
            · subst hx
              rw [distinctRuns_cons_same]
              exact ihl a
            · rw [distinctRuns_cons_ne hx]
              rfl
        exact key t _
      · rw [distinctRuns_cons_ne hb]
        rfl
  · intro h
    rw [h] at hp
    exact hp

/-- C9: `Cancel` returns true exactly when the source was not yet cancelled;
after it the source is cancelled and stays so under every later sequence of
calls, and every later `Cancel` returns false. -/
theorem C9_cancel_once (s : VCancellationTokenSource) :
    (s.Cancel.1 = true ↔ s.Cancelled = false) ∧
    s.Cancel.2.Cancelled = true ∧
    (∀ cs : List SourceCall, (runSourceCalls s.Cancel.2 cs).Cancelled = true) ∧
    (∀ cs : List SourceCall, (runSourceCalls s.Cancel.2 cs).Cancel.1 = false) ∧
    s.Cancel.2.Cancel.1 = false := by
  have hc : s.Cancel.2.Cancelled = true := by
    obtain ⟨f⟩ := s
    cases f <;> rfl
  have hstay : ∀ (cs : List SourceCall) (t : VCancellationTokenSource),
      t.Cancelled = true → (runSourceCalls t cs).Cancelled = true := by
    intro cs
    induction cs with
    | nil => intro t ht; exact ht
    | cons c cs ih =>
      intro t ht
      show (runSourceCalls (c.apply t) cs).Cancelled = true
      apply ih
      obtain ⟨f⟩ := t
      cases c <;> cases f <;> first | rfl | exact ht
  have hfalse : ∀ t : VCancellationTokenSource, t.Cancelled = true → t.Cancel.1 = false := by
    intro t ht
    obtain ⟨f⟩ := t
    cases f
    · exact absurd ht (by decide)
    · rfl
  refine ⟨?_, hc, fun cs => hstay cs _ hc, fun cs => hfalse _ (hstay cs _ hc), hfalse _ hc⟩
  obtain ⟨f⟩ := s
  cases f <;> decide

/-- C10: a cancellation token reads cancelled exactly when its source is gone or
the source is cancelled; a wait token reads waiting exactly when its source is
alive and waiting, so it reads not waiting once the source is gone. -/
theorem C10_tokens_follow_source :
    (∀ parent : Option VCancellationTokenSource,
      ((VCancellationToken.observing parent).Cancelled = true ↔
        (parent = none ∨ ∃ s, parent = some s ∧ s.Cancelled = true))) ∧
    (∀ parent : Option VWaitTokenSource,
      ((VWaitToken.observing parent).Waiting = true ↔
        ∃ s, parent = some s ∧ s.Waiting = true)) ∧
    (VWaitToken.observing none).Waiting = false ∧
    (∀ s : VCancellationTokenSource, s.Token.Cancelled = s.Cancelled) ∧
    (∀ s : VWaitTokenSource, s.Token.Waiting = s.Waiting) := by
  refine ⟨?_, ?_, rfl, fun s => rfl, fun s => rfl⟩
  · intro parent
    cases parent with
    | none => simp [VCancellationToken.observing, VCancellationToken.Cancelled]
    | some s =>
      simp [VCancellationToken.observing, VCancellationToken.Cancelled,
        VCancellationTokenSource.Cancelled]
  · intro parent
    cases parent with
    | none => simp [VWaitToken.observing, VWaitToken.Waiting]
    | some s =>
      simp [VWaitToken.observing, VWaitToken.Waiting, VWaitTokenSource.Waiting]

theorem foldl_push_eq {α : Type} (items : List α) :
    ∀ q : VBlockingQueue α,
      items.foldl (fun acc item => acc.push item) q =
        { q with jobQueue := q.jobQueue ++ items } := by
  induction items with
  | nil => intro q; simp
  | cons x xs ih =>
    intro q
    rw [List.foldl_cons, ih]
    simp [VBlockingQueue.push]

/-- C6: `Enqueue` returns false exactly when the token is cancelled or the queue
is stopped, and then leaves the queue as it was; otherwise it returns true and
the item is appended behind the queued items. `EnqueueMultiple` follows the same
rule and appends all the items in order. -/
theorem C6_enqueue_rejected_iff_cancelled_or_stopped {α : Type} (q : VBlockingQueue α)
    (x : α) (xs : List α) :
    ((q.Enqueue x).1 = false ↔ (q.Cancelled = true ∨ q.Stopped = true)) ∧
    ((q.Enqueue x).1 = false → (q.Enqueue x).2 = q) ∧
    ((q.Enqueue x).1 = true →
      (q.Enqueue x).2 = { q with jobQueue := q.jobQueue ++ [x] }) ∧
    ((q.EnqueueMultiple xs).1 = false ↔ (q.Cancelled = true ∨ q.Stopped = true)) ∧
    ((q.EnqueueMultiple xs).1 = false → (q.EnqueueMultiple xs).2 = q) ∧
    ((q.EnqueueMultiple xs).1 = true →
      (q.EnqueueMultiple xs).2 = { q with jobQueue := q.jobQueue ++ xs }) := by
  unfold VBlockingQueue.Enqueue VBlockingQueue.EnqueueMultiple VBlockingQueue.Cancelled
    VBlockingQueue.Stopped
  rw [foldl_push_eq]
  cases h1 : q.cancellationToken.Cancelled <;> cases h2 : q.queueStopped <;>
    simp [VBlockingQueue.push, h1, h2]

theorem stop_jobQueue {α : Type} (q : VBlockingQueue α) :
    q.Stop.jobQueue = q.jobQueue ∧
    q.Stop.allowTakeAfterCancellationOrStop = q.allowTakeAfterCancellationOrStop ∧
    q.Stop.cancellationToken = q.cancellationToken := by
  unfold VBlockingQueue.Stop
  split <;> simp

theorem tryTake_of_permitted {α : Type} (q : VBlockingQueue α)
    (h : ¬ ((q.Cancelled = true ∨ q.Stopped = true) ∧ q.allowTakeAfterCancellationOrStop = false)) :
    q.TryTake = match q.jobQueue with
      | data :: rest => (some data, { q with jobQueue := rest })
      | [] => (none, q) := by
  unfold VBlockingQueue.TryTake
  unfold VBlockingQueue.Cancelled VBlockingQueue.Stopped at h
  have hc : ((q.cancellationToken.Cancelled || q.queueStopped) &&
      !q.allowTakeAfterCancellationOrStop) = false := by
    cases h1 : q.cancellationToken.Cancelled <;> cases h2 : q.queueStopped <;>
      cases h3 : q.allowTakeAfterCancellationOrStop <;> simp_all
  simp [hc]

theorem drain_of_permitted {α : Type} (fuel : Nat) :
    ∀ q : VBlockingQueue α,
      ¬ ((q.Cancelled = true ∨ q.Stopped = true) ∧ q.allowTakeAfterCancellationOrStop = false) →
      q.jobQueue.length ≤ fuel → VBlockingQueue.drain fuel q = q.jobQueue := by
  induction fuel with
  | zero =>
    intro q _ hlen
    have : q.jobQueue = [] := List.length_eq_zero.mp (Nat.le_zero.mp hlen)
    simp [VBlockingQueue.drain, this]
  | succ n ih =>
    intro q hperm hlen
    unfold VBlockingQueue.drain
    rw [tryTake_of_permitted q hperm]
    cases hj : q.jobQueue with
    | nil => rfl
    | cons x rest =>
      simp only
      rw [ih]
      · exact hperm
      · rw [hj] at hlen
        simpa using hlen

/-- C7: when the queue is stopped or cancelled and taking after cancellation or
stop is not allowed, `TryTake` returns no item and leaves the queue as it was;
in every other case it removes and returns the front item of a non-empty queue
and returns no item on an empty one, so that successive calls return the queued
items in the order in which `Enqueue` appended them, also after a stop. -/
theorem C7_try_take_fifo {α : Type} (q : VBlockingQueue α) :
    (((q.Cancelled = true ∨ q.Stopped = true) ∧ q.allowTakeAfterCancellationOrStop = false) →
      q.TryTake = (none, q)) ∧
    (¬ ((q.Cancelled = true ∨ q.Stopped = true) ∧ q.allowTakeAfterCancellationOrStop = false) →
      (∀ x rest, q.jobQueue = x :: rest →
        q.TryTake = (some x, { q with jobQueue := rest })) ∧
      (q.jobQueue = [] → q.TryTake = (none, q)) ∧
      (∀ fuel, q.jobQueue.length ≤ fuel → VBlockingQueue.drain fuel q = q.jobQueue)) ∧
    (q.allowTakeAfterCancellationOrStop = true →
      ∀ xs fuel, (q.jobQueue ++ xs).length ≤ fuel → (q.EnqueueMultiple xs).1 = true →
        VBlockingQueue.drain fuel (q.EnqueueMultiple xs).2.Stop = q.jobQueue ++ xs) := by
  refine ⟨?_, ?_, ?_⟩
  · rintro ⟨h1, h2⟩
    unfold VBlockingQueue.Cancelled VBlockingQueue.Stopped at h1
    unfold VBlockingQueue.TryTake
    have hc : ((q.cancellationToken.Cancelled || q.queueStopped) &&
        !q.allowTakeAfterCancellationOrStop) = true := by
      rcases h1 with h1 | h1 <;> simp [h1, h2]
    simp [hc]
  · intro hperm
    refine ⟨?_, ?_, fun fuel hlen => drain_of_permitted fuel q hperm hlen⟩
    · intro x rest hj
      rw [tryTake_of_permitted q hperm, hj]
    · intro hj
      rw [tryTake_of_permitted q hperm, hj]
  · intro hallow xs fuel hlen henq
    have hq2 : (q.EnqueueMultiple xs).2 = { q with jobQueue := q.jobQueue ++ xs } := by
      unfold VBlockingQueue.EnqueueMultiple at henq ⊢
      split at henq
      · exact absurd henq (by simp)
      · rename_i hc
        simp only [hc]
        exact foldl_push_eq xs q
    obtain ⟨hs1, hs2, _⟩ := stop_jobQueue (q.EnqueueMultiple xs).2
    have hj : (q.EnqueueMultiple xs).2.Stop.jobQueue = q.jobQueue ++ xs := by
      rw [hs1, hq2]
    have ha : (q.EnqueueMultiple xs).2.Stop.allowTakeAfterCancellationOrStop = true := by
      rw [hs2, hq2]
      exact hallow
    rw [← hj]
    apply drain_of_permitted
    · rw [ha]
      simp
    · rw [hj]
      exact hlen

theorem consistent_apply {α : Type} (c : QueueCall α) (q : VBlockingQueue α)
    (h : q.Consistent) : (c.apply q).Consistent := by
  unfold VBlockingQueue.Consistent at h ⊢
  cases c with
  | Enqueue data =>
    simp only [QueueCall.apply, VBlockingQueue.Enqueue]
    split <;> simpa [VBlockingQueue.push] using h
  | EnqueueMultiple items =>
    simp only [QueueCall.apply, VBlockingQueue.EnqueueMultiple]
    split
    · exact h
    · rw [foldl_push_eq]
      exact h
  | TryTake =>
    simp only [QueueCall.apply, VBlockingQueue.TryTake]
    split
    · exact h
    · split <;> exact h
  | Clear =>
    simp only [QueueCall.apply, VBlockingQueue.Clear]
    split <;> exact h
  | Stop =>
    simp only [QueueCall.apply, VBlockingQueue.Stop]
    split
    · exact h
    · rfl
  | SourceCancelled => exact h
  | SourceDestroyed => exact h

theorem consistent_run {α : Type} (cs : List (QueueCall α)) :
    ∀ q : VBlockingQueue α, q.Consistent → (runQueueCalls q cs).Consistent := by
  induction cs with
  | nil => intro q h; exact h
  | cons c cs ih =>
    intro q h
    exact ih (c.apply q) (consistent_apply c q h)

theorem stop_stopped {α : Type} (q : VBlockingQueue α) (h : q.Consistent) :
    q.Stop.Stopped = true := by
  unfold VBlockingQueue.Consistent at h
  unfold VBlockingQueue.Stop VBlockingQueue.Stopped
  split
  · rename_i hs
    rw [← h]
    exact hs
  · rfl

/-- C8 (as stated, refuted): a queue whose token has been cancelled, that is not
stopped and does not allow taking after cancellation, makes `WaitAndTake` return
without an item at its entry check, and `Stopped()` is still false afterwards. -/
theorem C8_entry_rejection_does_not_stop :
    ¬ (∀ (q : VBlockingQueue Nat) (whileWaiting : List (QueueCall Nat)) (q' : VBlockingQueue Nat),
        q.Consistent → q.WaitAndTake whileWaiting = some (none, q') →
        (q'.Cancelled = true ∨ q'.Stopped = true) → q'.Stopped = true) := by
  intro h
  have h1 := h
    (runQueueCalls (VBlockingQueue.create VCancellationTokenSource.create.Token false)
      [QueueCall.SourceCancelled])
    []
    (runQueueCalls (VBlockingQueue.create VCancellationTokenSource.create.Token false)
      [QueueCall.SourceCancelled])
    rfl rfl (Or.inl rfl)
  exact absurd h1 (by decide)

/-- C8 (amended): a call of `WaitAndTake` that passes its entry check and then
returns without an item has called `Stop()` first, so `Stopped()` is true after
it; this is the return from the wait on a queue that is stopped or cancelled and
is empty or does not allow taking. A call rejected by the entry check (the queue
is stopped or cancelled on entry and taking is not allowed) returns without an
item and without calling `Stop()`: the queue is left as it was. The call returns
exactly when the entry check rejects it or the wait predicate holds. -/
theorem C8_wait_and_take_stops_after_wait {α : Type} (q : VBlockingQueue α)
    (whileWaiting : List (QueueCall α)) (hq : q.Consistent) :
    (q.proceedToTake = false → q.WaitAndTake whileWaiting = some (none, q)) ∧
    (q.proceedToTake = true → ∀ q', q.WaitAndTake whileWaiting = some (none, q') →
      q' = (runQueueCalls q whileWaiting).Stop ∧ q'.Stopped = true ∧
      ((runQueueCalls q whileWaiting).Cancelled = true ∨
        (runQueueCalls q whileWaiting).Stopped = true) ∧
      ((runQueueCalls q whileWaiting).jobQueue = [] ∨
        (runQueueCalls q whileWaiting).allowTakeAfterCancellationOrStop = false)) ∧
    ((q.WaitAndTake whileWaiting).isSome = true ↔
      (q.proceedToTake = false ∨ (runQueueCalls q whileWaiting).wakeCondition = true)) := by
  have hw := consistent_run whileWaiting q hq
  generalize hwdef : runQueueCalls q whileWaiting = w at hw
  refine ⟨?_, ?_, ?_⟩
  · intro hp
    simp [VBlockingQueue.WaitAndTake, hp]
  · intro hp q' hret
    simp only [VBlockingQueue.WaitAndTake, hp, hwdef, Bool.not_true,
      Bool.false_eq_true, if_false] at hret
    split at hret
    · exact absurd hret (by simp)
    · split at hret
      · rename_i hcond
        have hq' : q' = w.Stop := by
          simp only [Option.some.injEq, Prod.mk.injEq, true_and] at hret
          exact hret.symm
        refine ⟨hq', ?_, ?_, ?_⟩
        · rw [hq']
          exact stop_stopped w hw
        · simp only [Bool.and_eq_true, Bool.or_eq_true] at hcond
          exact hcond.1
        · simp only [Bool.and_eq_true, Bool.or_eq_true] at hcond
          rcases hcond.2 with h2 | h2
          · right
            unfold VBlockingQueue.proceedToTake at h2
            cases ha : w.allowTakeAfterCancellationOrStop with
            | false => rfl
            | true => simp [ha] at h2
          · left
            simpa using h2
      · split at hret
        · simp at hret
        · exact absurd hret (by simp)
  · unfold VBlockingQueue.WaitAndTake
    rw [hwdef]
    cases hp : q.proceedToTake with
    | false => simp
    | true =>
      simp only [Bool.not_true, Bool.false_eq_true, if_false, false_or]
      cases hwc : w.wakeCondition with
      | false => simp
      | true =>
        simp only [Bool.not_true, Bool.false_eq_true, if_false]
        split
        · simp
        · rename_i hcond
          cases hj : w.jobQueue with
          | cons x rest => simp
          | nil =>
            exfalso
            apply hcond
            unfold VBlockingQueue.wakeCondition at hwc
            simp [hj] at hwc
            simp [hj, hwc]

/-- C8 (amended), at a concrete input: a draining queue that another thread
stops while the caller waits on the empty queue. -/
theorem C8_wait_and_take_stops_after_wait_witness :
    (VBlockingQueue.create VCancellationTokenSource.create.Token true :
      VBlockingQueue Nat).Consistent ∧
    ((VBlockingQueue.create VCancellationTokenSource.create.Token true :
      VBlockingQueue Nat).WaitAndTake [QueueCall.SourceCancelled]).isSome = true ∧
    (runQueueCalls (VBlockingQueue.create VCancellationTokenSource.create.Token true :
      VBlockingQueue Nat) [QueueCall.SourceCancelled]).Stop.Stopped = true :=
  ⟨rfl,
   (C8_wait_and_take_stops_after_wait
    (VBlockingQueue.create VCancellationTokenSource.create.Token true)
    [QueueCall.SourceCancelled] rfl).2.2.mpr (Or.inr rfl),
   ((C8_wait_and_take_stops_after_wait
    (VBlockingQueue.create VCancellationTokenSource.create.Token true)
    [QueueCall.SourceCancelled] rfl).2.1 rfl _ rfl).1 ▸
   ((C8_wait_and_take_stops_after_wait
    (VBlockingQueue.create VCancellationTokenSource.create.Token true)
    [QueueCall.SourceCancelled] rfl).2.1 rfl _ rfl).2.1⟩

theorem StdMap.find_assign_self {κ β : Type} [LinearOrder κ] (m : StdMap κ β) (k : κ) (v : β) :
    StdMap.find (StdMap.assign m k v) k = some v := by
  induction m with
  | nil => simp [StdMap.assign, StdMap.find]
  | cons e rest ih =>
    unfold StdMap.assign
    by_cases h1 : k < e.1
    · simp [h1, StdMap.find]
    · by_cases h2 : k = e.1
      · simp [h1, h2, StdMap.find]
      · have h3 : ¬ e.1 = k := fun h => h2 h.symm
        simp [h1, h2, h3, StdMap.find, ih]

theorem StdMap.countKey_of_find_none {κ β : Type} [LinearOrder κ] (m : StdMap κ β) (k : κ)
    (h : StdMap.find m k = none) : StdMap.countKey m k = 0 := by
  induction m with
  | nil => rfl
  | cons e rest ih =>
    unfold StdMap.find at h
    by_cases h1 : e.1 = k
    · simp [h1] at h
    · simp only [h1, if_false] at h
      have := ih h
      unfold StdMap.countKey at this ⊢
      simp [List.filter_cons, h1, this]

theorem StdMap.countKey_assign_of_find_none {κ β : Type} [LinearOrder κ] (m : StdMap κ β)
    (k : κ) (v : β) (h : StdMap.find m k = none) :
    StdMap.countKey (StdMap.assign m k v) k = 1 := by
  induction m with
  | nil => simp [StdMap.assign, StdMap.countKey]
  | cons e rest ih =>
    have h0 := StdMap.countKey_of_find_none _ _ h
    unfold StdMap.find at h
    by_cases h1 : e.1 = k
    · simp [h1] at h
    · simp only [h1, if_false] at h
      have h2 : ¬ k = e.1 := fun hk => h1 hk.symm
      unfold StdMap.assign
      by_cases h3 : k < e.1
      · simp only [h3, if_true]
        unfold StdMap.countKey at h0 ⊢
        rw [List.filter_cons]
        simp [h0]
      · simp only [h3, h2, if_false]
        have := ih h
        unfold StdMap.countKey at this ⊢
        simp [List.filter_cons, h1, this]

theorem StdMap.erase_assign_of_find_none {κ β : Type} [LinearOrder κ] (m : StdMap κ β)
    (k : κ) (v : β) (h : StdMap.find m k = none) :
    StdMap.erase (StdMap.assign m k v) k = m := by
  induction m with
  | nil => simp [StdMap.assign, StdMap.erase]
  | cons e rest ih =>
    unfold StdMap.find at h
    by_cases h1 : e.1 = k
    · simp [h1] at h
    · simp only [h1, if_false] at h
      have h2 : ¬ k = e.1 := fun hk => h1 hk.symm
      unfold StdMap.assign
      by_cases h3 : k < e.1
      · simp [h3, StdMap.erase]
      · simp [h3, h2, h1, StdMap.erase, ih h]

/-- C4: for a handler whose id is not yet in the read registry,
`SubscribeToReadEvents` returns true; a second call returns false and changes
nothing, so that exactly one entry is stored under the id and it refers to the
handler; `UnsubscribeFromReadEvents` then returns true and removes the entry
(the registry is as before the subscription); a second call returns false and
changes nothing. The same holds for `SubscribeToClosedEvents` and
`UnsubscribeFromClosedEvents` on the closed registry. -/
theorem C4_subscribe_unsubscribe_round_trip (p : VCommSessionEventProducer)
    (hr hc : VCommSessionEventHandler)
    (hread : p.readEventHandlers.find hr.HandlerId = none)
    (hclosed : p.closedEventHandlers.find hc.HandlerId = none) :
    ((p.SubscribeToReadEvents hr).1 = true ∧
      (p.SubscribeToReadEvents hr).2.SubscribeToReadEvents hr =
        (false, (p.SubscribeToReadEvents hr).2) ∧
      (p.SubscribeToReadEvents hr).2.readEventHandlers.countKey hr.HandlerId = 1 ∧
      (p.SubscribeToReadEvents hr).2.readEventHandlers.find hr.HandlerId = some hr ∧
      ((p.SubscribeToReadEvents hr).2.UnsubscribeFromReadEvents hr).1 = true ∧
      ((p.SubscribeToReadEvents hr).2.UnsubscribeFromReadEvents hr).2.readEventHandlers.find
        hr.HandlerId = none ∧
      ((p.SubscribeToReadEvents hr).2.UnsubscribeFromReadEvents hr).2 = p ∧
      ((p.SubscribeToReadEvents hr).2.UnsubscribeFromReadEvents hr).2.UnsubscribeFromReadEvents hr =
        (false, ((p.SubscribeToReadEvents hr).2.UnsubscribeFromReadEvents hr).2)) ∧
    ((p.SubscribeToClosedEvents hc).1 = true ∧
      (p.SubscribeToClosedEvents hc).2.SubscribeToClosedEvents hc =
        (false, (p.SubscribeToClosedEvents hc).2) ∧
      (p.SubscribeToClosedEvents hc).2.closedEventHandlers.countKey hc.HandlerId = 1 ∧
      (p.SubscribeToClosedEvents hc).2.closedEventHandlers.find hc.HandlerId = some hc ∧
      ((p.SubscribeToClosedEvents hc).2.UnsubscribeFromClosedEvents hc).1 = true ∧
      ((p.SubscribeToClosedEvents hc).2.UnsubscribeFromClosedEvents hc).2.closedEventHandlers.find
        hc.HandlerId = none ∧
      ((p.SubscribeToClosedEvents hc).2.UnsubscribeFromClosedEvents hc).2 = p ∧
      ((p.SubscribeToClosedEvents hc).2.UnsubscribeFromClosedEvents hc).2.UnsubscribeFromClosedEvents
          hc =
        (false, ((p.SubscribeToClosedEvents hc).2.UnsubscribeFromClosedEvents hc).2)) := by
  have r1 : p.SubscribeToReadEvents hr =
      (true, { p with readEventHandlers := p.readEventHandlers.assign hr.HandlerId hr }) := by
    simp [VCommSessionEventProducer.SubscribeToReadEvents, hread]
  have c1 : p.SubscribeToClosedEvents hc =
      (true, { p with closedEventHandlers := p.closedEventHandlers.assign hc.HandlerId hc }) := by
    simp [VCommSessionEventProducer.SubscribeToClosedEvents, hclosed]
  have r3 : (p.SubscribeToReadEvents hr).2.UnsubscribeFromReadEvents hr = (true, p) := by
    rw [r1]
    simp [VCommSessionEventProducer.UnsubscribeFromReadEvents, StdMap.find_assign_self,
      StdMap.erase_assign_of_find_none _ _ _ hread]
  have c3 : (p.SubscribeToClosedEvents hc).2.UnsubscribeFromClosedEvents hc = (true, p) := by
    rw [c1]
    simp [VCommSessionEventProducer.UnsubscribeFromClosedEvents, StdMap.find_assign_self,
      StdMap.erase_assign_of_find_none _ _ _ hclosed]
  refine ⟨⟨?_, ?_, ?_, ?_, ?_, ?_, ?_, ?_⟩, ⟨?_, ?_, ?_, ?_, ?_, ?_, ?_, ?_⟩⟩
  · rw [r1]
  · rw [r1]
    simp [VCommSessionEventProducer.SubscribeToReadEvents, StdMap.find_assign_self]
  · rw [r1]
    exact StdMap.countKey_assign_of_find_none _ _ _ hread
  · rw [r1]
    exact StdMap.find_assign_self _ _ _
  · rw [r3]
  · rw [r3]
    exact hread
  · rw [r3]
  · rw [r3]
    simp [VCommSessionEventProducer.UnsubscribeFromReadEvents, hread]
  · rw [c1]
  · rw [c1]
    simp [VCommSessionEventProducer.SubscribeToClosedEvents, StdMap.find_assign_self]
  · rw [c1]
    exact StdMap.countKey_assign_of_find_none _ _ _ hclosed
  · rw [c1]
    exact StdMap.find_assign_self _ _ _
  · rw [c3]
  · rw [c3]
    exact hclosed
  · rw [c3]
  · rw [c3]
    simp [VCommSessionEventProducer.UnsubscribeFromClosedEvents, hclosed]

/-- C4, at a concrete input: a producer with one read subscriber (id 7) and one
closed subscriber (id 9), and new handlers with the ids 3 and 12. -/
theorem C4_subscribe_unsubscribe_round_trip_witness :
    StdMap.find [(7, ({ address := 100, id := 7 } : VCommSessionEventHandler))] 3 = none ∧
    StdMap.find [(9, ({ address := 101, id := 9 } : VCommSessionEventHandler))] 12 = none ∧
    ((({ readEventHandlers := [(7, { address := 100, id := 7 })],
         closedEventHandlers := [(9, { address := 101, id := 9 })] } :
        VCommSessionEventProducer).SubscribeToReadEvents { address := 102, id := 3 }).2
      ).readEventHandlers.countKey 3 = 1 :=
  ⟨by decide, by decide,
   (C4_subscribe_unsubscribe_round_trip
    { readEventHandlers := [(7, { address := 100, id := 7 })],
      closedEventHandlers := [(9, { address := 101, id := 9 })] }
    { address := 102, id := 3 } { address := 103, id := 12 } (by decide) (by decide)).1.2.2.1⟩

theorem collectHandlers_eq (alive : VCommSessionEventHandler → Bool)
    (m : StdMap Nat VCommSessionEventHandler) :
    VCommSessionEventProducer.collectHandlers alive m =
      (m.filter (fun e => alive e.2), (m.filter (fun e => alive e.2)).map Prod.snd) := by
  induction m with
  | nil => rfl
  | cons e rest ih =>
    unfold VCommSessionEventProducer.collectHandlers
    rw [ih]
    cases h : alive e.2 <;> simp [lockHandler, h, List.filter_cons]

theorem invokeHandlers_eq (alive : VCommSessionEventHandler → Bool) (ev : VCommSessionEvent)
    (hs : List VCommSessionEventHandler) :
    VCommSessionEventProducer.invokeHandlers alive ev hs =
      (hs.filter alive).map (fun h => (h, ev)) := by
  induction hs with
  | nil => rfl
  | cons h rest ih =>
    unfold VCommSessionEventProducer.invokeHandlers
    rw [ih]
    cases hl : alive h <;> simp [lockHandler, hl, List.filter_cons]

theorem fan_out_calls (alive : VCommSessionEventHandler → Bool) (ev : VCommSessionEvent)
    (m : StdMap Nat VCommSessionEventHandler) :
    VCommSessionEventProducer.invokeHandlers alive ev
        (VCommSessionEventProducer.collectHandlers alive m).2 =
      ((m.map Prod.snd).filter alive).map (fun h => (h, ev)) := by
  rw [collectHandlers_eq, invokeHandlers_eq]
  congr 1
  induction m with
  | nil => rfl
  | cons e rest ih =>
    cases h : alive e.2 <;> simp [List.filter_cons, h, ih]

theorem filter_eq_length_one {β : Type} [DecidableEq β] (l : List β) (a : β)
    (hnd : l.Nodup) (ha : a ∈ l) : (l.filter (fun c => decide (c = a))).length = 1 := by
  induction l with
  | nil => exact absurd ha (List.not_mem_nil a)
  | cons x xs ih =>
    obtain ⟨hx, hxs⟩ := List.nodup_cons.mp hnd
    by_cases hxa : x = a
    · subst hxa
      have : xs.filter (fun c => decide (c = x)) = [] := by
        apply List.filter_eq_nil_iff.mpr
        intro c hc
        simp only [decide_eq_true_eq]
        intro hcx
        exact hx (hcx ▸ hc)
      simp [List.filter_cons, this]
    · have ha' : a ∈ xs := by
        rcases List.mem_cons.mp ha with h | h
        · exact absurd h.symm hxa
        · exact h
      simp [List.filter_cons, hxa, ih hxs ha']

theorem fan_out_count_one (alive : VCommSessionEventHandler → Bool) (ev : VCommSessionEvent)
    (m : StdMap Nat VCommSessionEventHandler) (hnd : (m.map Prod.snd).Nodup)
    (e : Nat × VCommSessionEventHandler) (he : e ∈ m) (ha : alive e.2 = true) :
    ((((m.map Prod.snd).filter alive).map (fun h => (h, ev))).filter
      (fun c => decide (c = (e.2, ev)))).length = 1 := by
  apply filter_eq_length_one
  · apply List.Nodup.map
    · intro a b hab
      exact (Prod.mk.inj hab).1
    · exact hnd.filter _
  · apply List.mem_map.mpr
    refine ⟨e.2, ?_, rfl⟩
    apply List.mem_filter.mpr
    exact ⟨List.mem_map.mpr ⟨e, he, rfl⟩, ha⟩

theorem filter_length_split {β : Type} (f : β → Bool) (l : List β) :
    (l.filter f).length + (l.filter (fun e => !f e)).length = l.length := by
  induction l with
  | nil => rfl
  | cons a l ih =>
    cases h : f a <;> simp [List.filter_cons, h] <;> omega

/-- C5: `RaiseReadEvent` calls `HandleEvent`, with the batch it was given, once
for every entry of the read registry whose handler is alive, in registry order,
and on no handler that has expired; afterwards the read registry holds exactly
the entries whose handlers were alive, so its size has dropped by the number of
expired entries, and the closed registry is untouched. With one entry per
handler every subscribed live handler is called exactly once. `RaiseClosedEvent`
does the same on the closed registry. -/
theorem C5_fan_out_prunes_expired (p : VCommSessionEventProducer)
    (alive : VCommSessionEventHandler → Bool) (eventArgs : VCommSessionEvent) :
    ((p.RaiseReadEvent alive eventArgs).2 =
        ((p.readEventHandlers.map Prod.snd).filter alive).map (fun h => (h, eventArgs)) ∧
      (∀ call ∈ (p.RaiseReadEvent alive eventArgs).2,
        alive call.1 = true ∧ call.2 = eventArgs) ∧
      ((p.readEventHandlers.map Prod.snd).Nodup → ∀ e ∈ p.readEventHandlers,
        alive e.2 = true →
          ((p.RaiseReadEvent alive eventArgs).2.filter
            (fun c => decide (c = (e.2, eventArgs)))).length = 1) ∧
      (p.RaiseReadEvent alive eventArgs).1.readEventHandlers =
        p.readEventHandlers.filter (fun e => alive e.2) ∧
      (p.RaiseReadEvent alive eventArgs).1.readEventHandlers.length +
          (p.readEventHandlers.filter (fun e => !alive e.2)).length =
        p.readEventHandlers.length ∧
      (p.RaiseReadEvent alive eventArgs).1.closedEventHandlers = p.closedEventHandlers) ∧
    ((p.RaiseClosedEvent alive eventArgs).2 =
        ((p.closedEventHandlers.map Prod.snd).filter alive).map (fun h => (h, eventArgs)) ∧
      (∀ call ∈ (p.RaiseClosedEvent alive eventArgs).2,
        alive call.1 = true ∧ call.2 = eventArgs) ∧
      ((p.closedEventHandlers.map Prod.snd).Nodup → ∀ e ∈ p.closedEventHandlers,
        alive e.2 = true →
          ((p.RaiseClosedEvent alive eventArgs).2.filter
            (fun c => decide (c = (e.2, eventArgs)))).length = 1) ∧
      (p.RaiseClosedEvent alive eventArgs).1.closedEventHandlers =
        p.closedEventHandlers.filter (fun e => alive e.2) ∧
      (p.RaiseClosedEvent alive eventArgs).1.closedEventHandlers.length +
          (p.closedEventHandlers.filter (fun e => !alive e.2)).length =
        p.closedEventHandlers.length ∧
      (p.RaiseClosedEvent alive eventArgs).1.readEventHandlers = p.readEventHandlers) := by
  have hmem : ∀ (m : StdMap Nat VCommSessionEventHandler),
      ∀ call ∈ ((m.map Prod.snd).filter alive).map (fun h => (h, eventArgs)),
        alive call.1 = true ∧ call.2 = eventArgs := by
    intro m call hcall
    obtain ⟨h, hh, rfl⟩ := List.mem_map.mp hcall
    exact ⟨(List.mem_filter.mp hh).2, rfl⟩
  refine ⟨⟨?_, ?_, ?_, ?_, ?_, rfl⟩, ⟨?_, ?_, ?_, ?_, ?_, rfl⟩⟩
  · exact fan_out_calls alive eventArgs _
  · show ∀ call ∈ VCommSessionEventProducer.invokeHandlers alive eventArgs
      (VCommSessionEventProducer.collectHandlers alive p.readEventHandlers).2, _
    rw [fan_out_calls]
    exact hmem _
  · intro hnd e he ha
    show ((VCommSessionEventProducer.invokeHandlers alive eventArgs
      (VCommSessionEventProducer.collectHandlers alive p.readEventHandlers).2).filter _).length = 1
    rw [fan_out_calls]
    exact fan_out_count_one alive eventArgs _ hnd e he ha
  · show (VCommSessionEventProducer.collectHandlers alive p.readEventHandlers).1 = _
    rw [collectHandlers_eq]
  · show (VCommSessionEventProducer.collectHandlers alive p.readEventHandlers).1.length + _ = _
    rw [collectHandlers_eq]
    exact filter_length_split (fun e : Nat × VCommSessionEventHandler => alive e.2) _
  · exact fan_out_calls alive eventArgs _
  · show ∀ call ∈ VCommSessionEventProducer.invokeHandlers alive eventArgs
      (VCommSessionEventProducer.collectHandlers alive p.closedEventHandlers).2, _
    rw [fan_out_calls]
    exact hmem _
  · intro hnd e he ha
    show ((VCommSessionEventProducer.invokeHandlers alive eventArgs
      (VCommSessionEventProducer.collectHandlers alive p.closedEventHandlers).2).filter _).length = 1
    rw [fan_out_calls]
    exact fan_out_count_one alive eventArgs _ hnd e he ha
  · show (VCommSessionEventProducer.collectHandlers alive p.closedEventHandlers).1 = _
    rw [collectHandlers_eq]
  · show (VCommSessionEventProducer.collectHandlers alive p.closedEventHandlers).1.length + _ = _
    rw [collectHandlers_eq]
    exact filter_length_split (fun e : Nat × VCommSessionEventHandler => alive e.2) _

theorem examineIndex_cases (localSessions : List SessionPtr) (os : Nat → SocketProbe)
    (st : ProcessingState) (index : Nat) :
    ((VWSAEventProducer.examineIndex localSessions os st index).heap = st.heap ∧
      (VWSAEventProducer.examineIndex localSessions os st index).readingSessions =
        st.readingSessions ∧
      (VWSAEventProducer.examineIndex localSessions os st index).closedSessions =
        st.closedSessions) ∨
    (∃ session, (st.heap session).connectionState = SessionConnectionState.Connected ∧
      (VWSAEventProducer.examineIndex localSessions os st index).heap = st.heap ∧
      (VWSAEventProducer.examineIndex localSessions os st index).readingSessions =
        st.readingSessions ++ [session] ∧
      (VWSAEventProducer.examineIndex localSessions os st index).closedSessions =
        st.closedSessions) ∨
    (∃ session, (st.heap session).connectionState = SessionConnectionState.Connected ∧
      (VWSAEventProducer.examineIndex localSessions os st index).heap =
        st.heap.SetAsDisconnected session ∧
      (VWSAEventProducer.examineIndex localSessions os st index).readingSessions =
        st.readingSessions ∧
      (VWSAEventProducer.examineIndex localSessions os st index).closedSessions =
        st.closedSessions ++ [session]) := by
  unfold VWSAEventProducer.examineIndex
  split
  · exact Or.inl ⟨rfl, rfl, rfl⟩
  · rename_i session _
    by_cases hw : (os index).waitFailed = true
    · rw [if_pos hw]
      exact Or.inl ⟨rfl, rfl, rfl⟩
    · by_cases hc : (st.heap session).ConnectionState ≠ SessionConnectionState.Connected
      · rw [if_neg hw, if_pos hc]
        exact Or.inl ⟨rfl, rfl, rfl⟩
      · have hconn : (st.heap session).connectionState = SessionConnectionState.Connected :=
          not_not.mp hc
        rw [if_neg hw, if_neg hc]
        dsimp only
        split
        · exact Or.inl ⟨rfl, rfl, rfl⟩
        · split
          · split
            · exact Or.inl ⟨rfl, rfl, rfl⟩
            · exact Or.inr (Or.inl ⟨session, hconn, rfl, rfl, rfl⟩)
          · split
            · exact Or.inr (Or.inr ⟨session, hconn, rfl, rfl, rfl⟩)
            · exact Or.inl ⟨rfl, rfl, rfl⟩

theorem heap_setAsDisconnected_apply (heap : SessionHeap) (session s : SessionPtr) :
    (heap.SetAsDisconnected session s).connectionState =
      if s = session then
        (if (heap session).connectionState = SessionConnectionState.Connected then
          SessionConnectionState.Disconnected else (heap session).connectionState)
      else (heap s).connectionState := by
  unfold SessionHeap.SetAsDisconnected
  by_cases h : s = session
  · subst h
    rw [Function.update_same, if_pos rfl]
    simp only [VCommSessionInfo.SetAsDisconnected, compare_exchange_strong]
    split <;> rfl
  · rw [Function.update_noteq h, if_neg h]

theorem heap_setAsDisconnected_terminal (heap : SessionHeap) (session s : SessionPtr)
    (h : (heap s).connectionState = SessionConnectionState.Disconnected) :
    (heap.SetAsDisconnected session s).connectionState = SessionConnectionState.Disconnected := by
  rw [heap_setAsDisconnected_apply]
  by_cases hs : s = session
  · subst hs
    rw [if_pos rfl, h]
    rfl
  · rw [if_neg hs, h]

theorem passInvariant_step (heap0 : SessionHeap) (localSessions : List SessionPtr)
    (os : Nat → SocketProbe) (st : ProcessingState) (index : Nat)
    (h : PassInvariant heap0 st) :
    PassInvariant heap0 (VWSAEventProducer.examineIndex localSessions os st index) := by
  obtain ⟨i1, i2, i3, i4, i5⟩ := h
  rcases examineIndex_cases localSessions os st index with
    ⟨e1, e2, e3⟩ | ⟨session, hc, e1, e2, e3⟩ | ⟨session, hc, e1, e2, e3⟩
  · unfold PassInvariant
    rw [e1, e2, e3]
    exact ⟨i1, i2, i3, i4, i5⟩
  · have h0 : (heap0 session).connectionState = SessionConnectionState.Connected := by
      rcases i1 session with h | h
      · rw [← h]; exact hc
      · rw [hc] at h; exact absurd h (by decide)
    unfold PassInvariant
    rw [e1, e2, e3]
    refine ⟨i1, i2, ?_, i4, i5⟩
    intro s hs
    rcases List.mem_append.mp hs with hs | hs
    · exact i3 s hs
    · rw [List.mem_singleton.mp hs]; exact h0
  · have h0 : (heap0 session).connectionState = SessionConnectionState.Connected := by
      rcases i1 session with h | h
      · rw [← h]; exact hc
      · rw [hc] at h; exact absurd h (by decide)
    have hnew : (st.heap.SetAsDisconnected session session).connectionState =
        SessionConnectionState.Disconnected := by
      rw [heap_setAsDisconnected_apply, if_pos rfl, if_pos hc]
    have hnotin : session ∉ st.closedSessions := by
      intro hin
      have := i2 session hin
      rw [hc] at this
      exact absurd this (by decide)
    unfold PassInvariant
    rw [e1, e2, e3]
    refine ⟨?_, ?_, i3, ?_, ?_⟩
    · intro s
      by_cases hs : s = session
      · subst hs; exact Or.inr hnew
      · rw [heap_setAsDisconnected_apply, if_neg hs]
        exact i1 s
    · intro s hs
      rcases List.mem_append.mp hs with hs | hs
      · exact heap_setAsDisconnected_terminal _ _ _ (i2 s hs)
      · rw [List.mem_singleton.mp hs]; exact hnew
    · intro s hs
      rcases List.mem_append.mp hs with hs | hs
      · exact i4 s hs
      · rw [List.mem_singleton.mp hs]; exact h0
    · apply List.Nodup.append i5 (List.nodup_singleton _)
      intro a ha hb
      rw [List.mem_singleton.mp hb] at ha
      exact hnotin ha

theorem passInvariant_fold (heap0 : SessionHeap) (localSessions : List SessionPtr)
    (os : Nat → SocketProbe) (indices : List Nat) :
    ∀ st, PassInvariant heap0 st →
      PassInvariant heap0 (indices.foldl (VWSAEventProducer.examineIndex localSessions os) st) := by
  induction indices with
  | nil => intro st h; exact h
  | cons i rest ih =>
    intro st h
    exact ih _ (passInvariant_step heap0 localSessions os st i h)

theorem mem_raiseBatches {rs cs : List SessionPtr} {d : RaisedEvent}
    (h : d ∈ raiseBatches rs cs) :
    (d.eventType = CommEventType.Read ∧ d.sessions = rs) ∨
    (d.eventType = CommEventType.Close ∧ d.sessions = cs) := by
  unfold raiseBatches at h
  rcases List.mem_append.mp h with h | h
  · split at h
    · rw [List.mem_singleton.mp h]; exact Or.inl ⟨rfl, rfl⟩
    · exact absurd h (List.not_mem_nil _)
  · split at h
    · rw [List.mem_singleton.mp h]; exact Or.inr ⟨rfl, rfl⟩
    · exact absurd h (List.not_mem_nil _)

theorem pairwise_raiseBatches (rs cs : List SessionPtr) :
    (raiseBatches rs cs).Pairwise NotAfterClosed := by
  unfold raiseBatches
  split <;> split <;> simp [NotAfterClosed]

theorem processEvents_spec (heap : SessionHeap) (localSessions : List SessionPtr)
    (eventIndex : Nat) (os : Nat → SocketProbe) :
    (∀ s, (heap s).connectionState = SessionConnectionState.Disconnected →
      ((VWSAEventProducer.processEvents heap localSessions eventIndex os).1 s).connectionState =
        SessionConnectionState.Disconnected) ∧
    (∀ d ∈ (VWSAEventProducer.processEvents heap localSessions eventIndex os).2,
      ∀ s ∈ d.sessions, (heap s).connectionState = SessionConnectionState.Connected) ∧
    (∀ d ∈ (VWSAEventProducer.processEvents heap localSessions eventIndex os).2,
      d.eventType = CommEventType.Close → d.sessions.Nodup ∧ ∀ s ∈ d.sessions,
        ((VWSAEventProducer.processEvents heap localSessions eventIndex os).1 s).connectionState =
          SessionConnectionState.Disconnected) ∧
    (VWSAEventProducer.processEvents heap localSessions eventIndex os).2.Pairwise
      NotAfterClosed := by
  unfold VWSAEventProducer.processEvents
  dsimp only
  split
  · simp
  · split
    · simp
    · have hinit : PassInvariant heap
          { heap := heap, networkEvents := { lNetworkEvents := 0, iErrorCode := fun _ => 0 },
            readingSessions := [], closedSessions := [] } := by
        refine ⟨fun s => Or.inl rfl, ?_, ?_, ?_, List.nodup_nil⟩ <;> simp
      obtain ⟨i1, i2, i3, i4, i5⟩ := passInvariant_fold heap localSessions os
        (List.range' eventIndex (localSessions.length + 1 - eventIndex)) _ hinit
      refine ⟨?_, ?_, ?_, pairwise_raiseBatches _ _⟩
      · intro s hs
        rcases i1 s with h | h
        · rw [h]; exact hs
        · exact h
      · intro d hd s hsd
        rcases mem_raiseBatches hd with ⟨_, h⟩ | ⟨_, h⟩
        · rw [h] at hsd; exact i3 s hsd
        · rw [h] at hsd; exact i4 s hsd
      · intro d hd hclose
        rcases mem_raiseBatches hd with ⟨h1, _⟩ | ⟨_, h⟩
        · rw [h1] at hclose; exact absurd hclose (by decide)
        · rw [h]; exact ⟨i5, i2⟩

theorem wsa_run_skips_disconnected (passes : List WSAPass) :
    ∀ (heap : SessionHeap) (s : SessionPtr),
      (heap s).connectionState = SessionConnectionState.Disconnected →
      ∀ d ∈ VWSAEventProducer.ListenAndProduceEvents heap passes, s ∉ d.sessions := by
  induction passes with
  | nil => intro heap s _ d hd; exact absurd hd (List.not_mem_nil _)
  | cons pass rest ih =>
    intro heap s hs d hd hsd
    obtain ⟨p1, p2, _, _⟩ := processEvents_spec heap pass.localSessions pass.eventIndex pass.os
    rcases List.mem_append.mp hd with hd | hd
    · have := p2 d hd s hsd
      rw [hs] at this
      exact absurd this (by decide)
    · exact ih _ s (p1 s hs) d hd hsd

theorem wsa_run_closed_terminal (passes : List WSAPass) :
    ∀ heap : SessionHeap,
      (VWSAEventProducer.ListenAndProduceEvents heap passes).Pairwise NotAfterClosed ∧
      ∀ d ∈ VWSAEventProducer.ListenAndProduceEvents heap passes,
        d.eventType = CommEventType.Close → d.sessions.Nodup := by
  induction passes with
  | nil => intro heap; exact ⟨List.Pairwise.nil, fun d hd => absurd hd (List.not_mem_nil _)⟩
  | cons pass rest ih =>
    intro heap
    obtain ⟨_, _, p3, p4⟩ := processEvents_spec heap pass.localSessions pass.eventIndex pass.os
    obtain ⟨ih1, ih2⟩ := ih
      (VWSAEventProducer.processEvents heap pass.localSessions pass.eventIndex pass.os).1
    constructor
    · apply List.pairwise_append.mpr
      refine ⟨p4, ih1, ?_⟩
      intro a ha b hb hclose s hsa
      exact wsa_run_skips_disconnected rest _ s ((p3 a ha hclose).2 s hsa) b hb
    · intro d hd hclose
      rcases List.mem_append.mp hd with hd | hd
      · exact (p3 d hd hclose).1
      · exact ih2 d hd hclose

theorem oneEventPerDescriptor_spec (l : List Readiness) :
    ∀ seen : List Int,
      (∀ r ∈ oneEventPerDescriptor seen l, r ∈ l ∧ r.fd ∉ seen) ∧
      ((oneEventPerDescriptor seen l).map Readiness.fd).Nodup := by
  induction l with
  | nil => intro seen; simp [oneEventPerDescriptor]
  | cons a rest ih =>
    intro seen
    unfold oneEventPerDescriptor
    by_cases h : a.fd ∈ seen
    · rw [if_pos h]
      obtain ⟨h1, h2⟩ := ih seen
      exact ⟨fun e he => ⟨List.mem_cons_of_mem _ (h1 e he).1, (h1 e he).2⟩, h2⟩
    · rw [if_neg h]
      obtain ⟨h1, h2⟩ := ih (a.fd :: seen)
      constructor
      · intro e he
        rcases List.mem_cons.mp he with he | he
        · rw [he]; exact ⟨List.mem_cons_self _ _, h⟩
        · have := h1 e he
          exact ⟨List.mem_cons_of_mem _ this.1, fun hs => this.2 (List.mem_cons_of_mem _ hs)⟩
      · rw [List.map_cons]
        apply List.nodup_cons.mpr
        refine ⟨?_, h2⟩
        intro hin
        obtain ⟨e, he, hfd⟩ := List.mem_map.mp hin
        exact (h1 e he).2 (hfd ▸ List.mem_cons_self _ _)

theorem reportedEvent_spec (interest : EpollInterest) (r : Readiness) (e : EPOLL_EVENT)
    (h : reportedEvent interest r = some e) :
    ∃ x ∈ interest, x.1 = r.fd ∧ e.fd = x.2.fd := by
  unfold reportedEvent at h
  split at h
  · exact absurd h (by simp)
  · rename_i registered hfind
    dsimp only at h
    split at h
    · exact absurd h (by simp)
    · simp only [Option.some.injEq] at h
      subst h
      refine ⟨registered, List.mem_of_find?_eq_some hfind, ?_, rfl⟩
      have := List.find?_some hfind
      simpa using this

theorem reportedEvent_descriptors (interest : EpollInterest) (hdata : DataIsDescriptor interest)
    (l : List Readiness) :
    List.Sublist ((l.filterMap (reportedEvent interest)).map EPOLL_EVENT.fd)
      (l.map Readiness.fd) := by
  induction l with
  | nil => exact List.Sublist.refl _
  | cons r rest ih =>
    cases h : reportedEvent interest r with
    | none =>
      rw [List.filterMap_cons_none h, List.map_cons]
      exact ih.cons _
    | some e =>
      rw [List.filterMap_cons_some h, List.map_cons, List.map_cons]
      obtain ⟨x, hx, h1, h2⟩ := reportedEvent_spec interest r e h
      have hfd : e.fd = r.fd := by rw [h2, hdata x hx, h1]
      rw [hfd]
      exact ih.cons₂ _

theorem epoll_wait_spec (interest : EpollInterest) (ready : List Readiness) (maxevents : Nat)
    (hdata : DataIsDescriptor interest) :
    (∀ e ∈ epoll_wait interest ready maxevents, e.fd ∈ interest.map Prod.fst) ∧
    ((epoll_wait interest ready maxevents).map EPOLL_EVENT.fd).Nodup := by
  unfold epoll_wait
  obtain ⟨-, h2⟩ := oneEventPerDescriptor_spec ready []
  constructor
  · intro e he
    obtain ⟨r, -, hr⟩ := List.mem_filterMap.mp (List.mem_of_mem_take he)
    obtain ⟨x, hx, -, h3⟩ := reportedEvent_spec interest r e hr
    rw [h3, hdata x hx]
    exact List.mem_map_of_mem _ hx
  · exact (h2.sublist (reportedEvent_descriptors interest hdata _)).sublist
      ((List.take_sublist _ _).map _)

theorem epoll_ctl_del_spec (interest : EpollInterest) (fd : Int) :
    fd ∉ (epoll_ctl_del interest fd).2.map Prod.fst ∧
    ∀ x ∈ (epoll_ctl_del interest fd).2, x ∈ interest := by
  unfold epoll_ctl_del
  by_cases h : fd ∈ interest.map Prod.fst
  · rw [if_pos h]
    constructor
    · intro hin
      obtain ⟨x, hx, hfd⟩ := List.mem_map.mp hin
      have hne := (List.mem_filter.mp hx).2
      simp only [ne_eq, decide_not, Bool.not_eq_true', decide_eq_false_iff_not] at hne
      exact hne hfd
    · intro x hx
      exact (List.mem_filter.mp hx).1
  · rw [if_neg h]
    exact ⟨h, fun x hx => hx⟩

theorem handleEvent_interest (inSessions : StdMap Int SessionPtr) (st st' : ListenState)
    (e : EPOLL_EVENT) (h : VEventProducer.handleEvent inSessions st e = some st') :
    ∀ x ∈ st'.epollInterest, x ∈ st.epollInterest := by
  unfold VEventProducer.handleEvent at h
  split at h
  · dsimp only at h
    split at h
    · exact absurd h (by simp)
    · simp only [Option.some.injEq] at h
      subst h
      exact (epoll_ctl_del_spec st.epollInterest e.fd).2
  · split at h
    · split at h
      · exact absurd h (by simp)
      · simp only [Option.some.injEq] at h
        subst h
        exact fun x hx => hx
    · simp only [Option.some.injEq] at h
      subst h
      exact fun x hx => hx

theorem handleEvent_fold_interest (inSessions : StdMap Int SessionPtr)
    (events : List EPOLL_EVENT) :
    ∀ (st st' : ListenState),
      events.foldlM (VEventProducer.handleEvent inSessions) st = some st' →
      ∀ x ∈ st'.epollInterest, x ∈ st.epollInterest := by
  induction events with
  | nil =>
    intro st st' h
    simp only [List.foldlM_nil, Option.pure_def, Option.some.injEq] at h
    subst h
    exact fun x hx => hx
  | cons e rest ih =>
    intro st st' h
    rw [List.foldlM_cons] at h
    cases hstep : VEventProducer.handleEvent inSessions st e with
    | none => rw [hstep] at h; exact absurd h (by simp)
    | some st1 =>
      rw [hstep] at h
      exact fun x hx => handleEvent_interest inSessions st st1 e hstep x (ih st1 st' h x hx)

theorem pollOnce_interest (p : VEventProducer) (heap : SessionHeap) (ready : List Readiness)
    (r : VEventProducer × SessionHeap × List RaisedEvent)
    (h : p.pollOnce heap ready = some r) :
    r.1.sessions = p.sessions ∧ ∀ x ∈ r.1.epollInterest, x ∈ p.epollInterest := by
  unfold VEventProducer.pollOnce at h
  dsimp only at h
  split at h
  · exact absurd h (by simp)
  · rename_i st hfold
    simp only [Option.some.injEq] at h
    subst h
    exact ⟨rfl, handleEvent_fold_interest p.sessions _ _ st hfold⟩

theorem epoll_start_interest (p : VEventProducer) (r : Int) :
    (p.Start r).2.sessions = p.sessions ∧
    ∀ x ∈ (p.Start r).2.epollInterest, x ∈ p.epollInterest := by
  unfold VEventProducer.Start
  split
  · exact ⟨rfl, fun x hx => hx⟩
  · split
    · exact ⟨rfl, fun x hx => hx⟩
    · split
      · exact ⟨rfl, fun x hx => hx⟩
      · exact ⟨rfl, fun x hx => absurd hx (List.not_mem_nil _)⟩

theorem StdMap.mem_of_find {κ β : Type} [LinearOrder κ] (m : StdMap κ β) (k : κ) (v : β)
    (h : StdMap.find m k = some v) : (k, v) ∈ m := by
  induction m with
  | nil => exact absurd h (by simp [StdMap.find])
  | cons e rest ih =>
    unfold StdMap.find at h
    split at h
    · rename_i hk
      have hv : e.2 = v := Option.some.inj h
      have : e = (k, v) := Prod.ext hk hv
      rw [this]
      exact List.mem_cons_self _ _
    · exact List.mem_cons_of_mem _ (ih h)

theorem registryInjective_find (sessions : StdMap Int SessionPtr)
    (hinj : RegistryInjective sessions) (fd fd' : Int) (s : SessionPtr)
    (h1 : sessions.find fd = some s) (h2 : sessions.find fd' = some s) : fd = fd' :=
  hinj (fd, s) (StdMap.mem_of_find _ _ _ h1) (fd', s) (StdMap.mem_of_find _ _ _ h2) rfl

/-- C11: `Wait` returns true exactly when the source was not waiting and leaves
it waiting; `Continue` returns true exactly when the source was waiting and
leaves it not waiting; a call that returns false leaves the source as it was, so
`Wait` on a waiting source and `Continue` on a source that is not waiting return
false. -/
theorem C11_wait_continue_cas (s : VWaitTokenSource) :
    (s.Wait.1 = true ↔ s.Waiting = false) ∧
    (s.Wait.1 = true → s.Wait.2.Waiting = true) ∧
    (s.Wait.1 = false → s.Wait.2 = s) ∧
    (s.Continue.1 = true ↔ s.Waiting = true) ∧
    (s.Continue.1 = true → s.Continue.2.Waiting = false) ∧
    (s.Continue.1 = false → s.Continue.2 = s) ∧
    (s.Waiting = true → s.Wait = (false, s)) ∧
    s.Wait.2.Waiting = true ∧
    s.Continue.2.Waiting = false := by
  obtain ⟨f⟩ := s
  cases f <;>
    simp [VWaitTokenSource.Wait, VWaitTokenSource.Continue, VWaitTokenSource.Waiting,
      compare_exchange_strong]

theorem startThreads_none_iff (threadCreated : Nat → Bool) (count : Nat) :
    ∀ (i : Nat) (threads : List VPollingThreadInfo),
      ((VWSAEventProducer.startThreads threadCreated count i threads).1 = none ↔
        ∀ k, i ≤ k → k < i + count → threadCreated k = true) ∧
      ((VWSAEventProducer.startThreads threadCreated count i threads).1 = none ∨
        (VWSAEventProducer.startThreads threadCreated count i threads).1 =
          some ProducerError.PollingThreadNotCreated) := by
  induction count with
  | zero =>
    intro i threads
    simp only [VWSAEventProducer.startThreads, true_iff, true_or, and_true]
    intro k h1 h2
    omega
  | succ n ih =>
    intro i threads
    unfold VWSAEventProducer.startThreads
    cases hc : threadCreated i with
    | false =>
      simp only [Bool.not_false, if_true]
      refine ⟨⟨fun h => absurd h (by simp), fun h => ?_⟩, by first | exact Or.inr rfl | trivial⟩
      have := h i (Nat.le_refl i) (by omega)
      rw [hc] at this
      exact absurd this (by decide)
    | true =>
      simp only [Bool.not_true, Bool.false_eq_true, if_false]
      obtain ⟨h1, h2⟩ := ih (i + 1) (threads ++ [VPollingThreadInfo.create i 0 0])
      refine ⟨?_, h2⟩
      rw [h1]
      constructor
      · intro h k hk1 hk2
        by_cases hki : k = i
        · rw [hki]; exact hc
        · exact h k (by omega) (by omega)
      · intro h k hk1 hk2
        exact h k (by omega) (by omega)

theorem cancel_cancelled (s : VCancellationTokenSource) : s.Cancel.2.Cancelled = true := by
  obtain ⟨f⟩ := s
  cases f <;> rfl

theorem setAbortIOWaitEvent_fields (p : VWSAEventProducer) (wsaSetEvent : Bool) :
    ∃ b, (p.SetAbortIOWaitEvent wsaSetEvent).2 = { p with abortIOWaitEventSet := b } := by
  unfold VWSAEventProducer.SetAbortIOWaitEvent
  dsimp only
  split
  · exact ⟨_, rfl⟩
  · split <;> exact ⟨_, rfl⟩

theorem resetAbortIOWaitEvent_fields (p : VWSAEventProducer) (wsaResetEvent : Bool) :
    ∃ b, (p.ResetAbortIOWaitEvent wsaResetEvent).2 = { p with abortIOWaitEventSet := b } := by
  unfold VWSAEventProducer.ResetAbortIOWaitEvent
  dsimp only
  split
  · exact ⟨_, rfl⟩
  · split <;> exact ⟨_, rfl⟩

theorem epoll_stop_spec (p : VEventProducer) :
    (p.Stop.1 = true ↔ p.Started = true) ∧
    (p.Stop.1 = true → p.Stop.2.started = false ∧
      p.Stop.2.cancellationSource.Cancelled = true ∧ p.Stop.2.sessions = []) ∧
    (p.Stop.1 = false → p.Stop.2 = p) := by
  unfold VEventProducer.Stop VEventProducer.Started
  cases h1 : p.started <;> cases h2 : p.cancellationSource.Cancelled <;>
    simp [cancel_cancelled]

theorem wsa_stop_spec (p : VWSAEventProducer) (wsaSetEvent : Bool) :
    ((p.Stop wsaSetEvent).1 = true ↔ p.Started = true) ∧
    ((p.Stop wsaSetEvent).1 = true → (p.Stop wsaSetEvent).2.started = false ∧
      (p.Stop wsaSetEvent).2.cancellationSource.Cancelled = true ∧
      (p.Stop wsaSetEvent).2.sessions = [] ∧ (p.Stop wsaSetEvent).2.pollingThreads = []) ∧
    ((p.Stop wsaSetEvent).1 = false → (p.Stop wsaSetEvent).2 = p) := by
  obtain ⟨b, hb⟩ := setAbortIOWaitEvent_fields
    { p with started := false, cancellationSource := p.cancellationSource.Cancel.2,
             pollingThreads := p.pollingThreads.map (fun (t : VPollingThreadInfo) => t.Cancel.2) }
    wsaSetEvent
  unfold VWSAEventProducer.Stop VWSAEventProducer.Started
  by_cases hcond : (!p.started || p.cancellationSource.Cancelled) = true
  · rw [if_pos hcond]
    have hs : (p.started && !p.cancellationSource.Cancelled) = false := by
      revert hcond
      cases p.started <;> cases p.cancellationSource.Cancelled <;> simp
    refine ⟨?_, fun h => absurd h (by simp), fun _ => rfl⟩
    rw [hs]
  · rw [if_neg hcond]
    have hs : (p.started && !p.cancellationSource.Cancelled) = true := by
      revert hcond
      cases p.started <;> cases p.cancellationSource.Cancelled <;> simp
    dsimp only
    rw [hb]
    refine ⟨?_, fun _ => ⟨rfl, cancel_cancelled _, rfl, rfl⟩, fun h => absurd h (by simp)⟩
    simp [hs]

/-- C12 (as stated, refuted): a readiness-API producer that was never started
raises an error from `Start` when `epoll_create1` fails, and an event-array
producer does when `WSACreateEvent` gives no event. -/
theorem C12_start_can_fail_when_never_started :
    ¬ (∀ (p : VEventProducer) (epoll_create1_result : Int),
        p.started = false → p.cancellationSource.Cancelled = false →
        (p.Start epoll_create1_result).1 = Except.ok true) ∧
    ¬ (∀ (p : VWSAEventProducer) (os : StartOS),
        p.started = false → p.cancellationSource.Cancelled = false →
        (p.Start os).1 = Except.ok true) := by
  constructor
  · intro h
    have h1 := h VEventProducer.create (-1) rfl rfl
    simp [VEventProducer.Start, VEventProducer.create, VCancellationTokenSource.create,
      VCancellationTokenSource.Cancelled] at h1
  · intro h
    have h1 := h (VWSAEventProducer.create 2 8)
      { abortEventCreated := false, threadCreated := fun _ => true } rfl rfl
    simp [VWSAEventProducer.Start, VWSAEventProducer.create, VCancellationTokenSource.create,
      VCancellationTokenSource.Cancelled] at h1

/-- C12 (amended): for both producers, `Start` on a producer that is neither
started nor stopped returns true and makes `Started()` true when the operating
system gives the resources it asks for (the epoll instance; the abort event and
every polling thread), and raises an error with `Started()` still false when it
does not; `Start` on a started producer returns false and changes nothing;
`Start` on a stopped producer raises an error and changes nothing. -/
theorem C12_start_by_state :
    (∀ (p : VEventProducer) (epoll_create1_result : Int),
      (p.started = false → p.cancellationSource.Cancelled = false →
        epoll_create1_result ≠ -1 →
        (p.Start epoll_create1_result).1 = Except.ok true ∧
        (p.Start epoll_create1_result).2.Started = true) ∧
      (p.started = false → p.cancellationSource.Cancelled = false →
        epoll_create1_result = -1 →
        p.Start epoll_create1_result = (Except.error ProducerError.EpollCreateFailed, p)) ∧
      (p.Started = true → p.Start epoll_create1_result = (Except.ok false, p)) ∧
      (p.cancellationSource.Cancelled = true →
        p.Start epoll_create1_result = (Except.error ProducerError.EpollStartAfterStop, p)) ∧
      (p.Stop.1 = true →
        p.Stop.2.Start epoll_create1_result =
          (Except.error ProducerError.EpollStartAfterStop, p.Stop.2))) ∧
    (∀ (p : VWSAEventProducer) (os : StartOS),
      (p.started = false → p.cancellationSource.Cancelled = false →
        os.abortEventCreated = true →
        (∀ i, 1 ≤ i → i < 1 + p.minimumPollingThreads → os.threadCreated i = true) →
        (p.Start os).1 = Except.ok true ∧ (p.Start os).2.Started = true) ∧
      (p.started = false → p.cancellationSource.Cancelled = false →
        (os.abortEventCreated = false ∨
          ∃ i, 1 ≤ i ∧ i < 1 + p.minimumPollingThreads ∧ os.threadCreated i = false) →
        ((p.Start os).1 = Except.error ProducerError.WSAStartFailed ∨
          (p.Start os).1 = Except.error ProducerError.PollingThreadNotCreated) ∧
        (p.Start os).2.Started = false) ∧
      (p.Started = true → p.Start os = (Except.ok false, p)) ∧
      (p.cancellationSource.Cancelled = true →
        p.Start os = (Except.error ProducerError.WSAStartAfterStop, p)) ∧
      (∀ wsaSetEvent, (p.Stop wsaSetEvent).1 = true →
        (p.Stop wsaSetEvent).2.Start os =
          (Except.error ProducerError.WSAStartAfterStop, (p.Stop wsaSetEvent).2))) := by
  constructor
  · intro p r
    refine ⟨?_, ?_, ?_, ?_, ?_⟩
    · intro h1 h2 h3
      simp [VEventProducer.Start, VEventProducer.Started, h1, h2, h3]
    · intro h1 h2 h3
      simp [VEventProducer.Start, h1, h2, h3]
    · intro h
      simp only [VEventProducer.Started, Bool.and_eq_true, Bool.not_eq_true'] at h
      simp [VEventProducer.Start, h.1, h.2]
    · intro h
      simp [VEventProducer.Start, h]
    · intro h
      have hcs := ((epoll_stop_spec p).2.1 h).2.1
      simp [VEventProducer.Start, hcs]
  · intro p os
    have hst := startThreads_none_iff os.threadCreated p.minimumPollingThreads 1 p.pollingThreads
    refine ⟨?_, ?_, ?_, ?_, ?_⟩
    · intro h1 h2 h3 h4
      have hnone := hst.1.mpr h4
      simp [VWSAEventProducer.Start, VWSAEventProducer.Started, h1, h2, h3, hnone]
    · intro h1 h2 h3
      cases ha : os.abortEventCreated with
      | false =>
        simp [VWSAEventProducer.Start, VWSAEventProducer.Started, h1, h2, ha]
      | true =>
        have hex : ∃ i, 1 ≤ i ∧ i < 1 + p.minimumPollingThreads ∧ os.threadCreated i = false := by
          rcases h3 with h3 | h3
          · rw [ha] at h3; exact absurd h3 (by decide)
          · exact h3
        have hne : (VWSAEventProducer.startThreads os.threadCreated p.minimumPollingThreads 1
            p.pollingThreads).1 ≠ none := by
          intro hn
          obtain ⟨i, hi1, hi2, hi3⟩ := hex
          have := hst.1.mp hn i hi1 hi2
          rw [hi3] at this
          exact absurd this (by decide)
        have hsome := hst.2.resolve_left hne
        simp [VWSAEventProducer.Start, VWSAEventProducer.Started, h1, h2, ha, hsome]
    · intro h
      simp only [VWSAEventProducer.Started, Bool.and_eq_true, Bool.not_eq_true'] at h
      simp [VWSAEventProducer.Start, h.1, h.2]
    · intro h
      simp [VWSAEventProducer.Start, h]
    · intro wsaSetEvent h
      have hcs := ((wsa_stop_spec p wsaSetEvent).2.1 h).2.1
      simp [VWSAEventProducer.Start, hcs]

theorem epoll_calls_after_stop (cs : List EpollProducerCall) :
    ∀ p : VEventProducer, p.started = false → p.cancellationSource.Cancelled = true →
      runEpollProducerCalls p cs = p := by
  induction cs with
  | nil => intro p _ _; rfl
  | cons c cs ih =>
    intro p h1 h2
    have hstep : c.apply p = p := by
      cases c with
      | Start r => simp [EpollProducerCall.apply, VEventProducer.Start, h2]
      | Stop => simp [EpollProducerCall.apply, VEventProducer.Stop, h1]
      | UpdateSessions heap newSessions closedSessions addAccepted =>
        simp [EpollProducerCall.apply, VEventProducer.UpdateSessions, h1, h2]
    show runEpollProducerCalls (c.apply p) cs = p
    rw [hstep]
    exact ih p h1 h2

theorem wsa_calls_after_stop (cs : List WSAProducerCall) :
    ∀ p : VWSAEventProducer, p.started = false → p.cancellationSource.Cancelled = true →
      runWSAProducerCalls p cs = p := by
  induction cs with
  | nil => intro p _ _; rfl
  | cons c cs ih =>
    intro p h1 h2
    have hstep : c.apply p = p := by
      cases c with
      | Start os => simp [WSAProducerCall.apply, VWSAEventProducer.Start, h2]
      | Stop wsaSetEvent => simp [WSAProducerCall.apply, VWSAEventProducer.Stop, h1]
      | UpdateSessions heap newSessions closedSessions os =>
        simp [WSAProducerCall.apply, VWSAEventProducer.UpdateSessions, h1, h2]
    show runWSAProducerCalls (c.apply p) cs = p
    rw [hstep]
    exact ih p h1 h2

theorem epoll_stopped_state (q : VEventProducer) (h1 : q.started = false)
    (h2 : q.cancellationSource.Cancelled = true) :
    q.Started = false ∧ q.CanStart = false ∧ q.Stop.1 = false := by
  simp [VEventProducer.Started, VEventProducer.CanStart, VEventProducer.Stop, h1, h2]

theorem wsa_stopped_state (q : VWSAEventProducer) (later : Bool) (h1 : q.started = false)
    (h2 : q.cancellationSource.Cancelled = true) :
    q.Started = false ∧ q.CanStart = false ∧ (q.Stop later).1 = false := by
  simp [VWSAEventProducer.Started, VWSAEventProducer.CanStart, VWSAEventProducer.Stop, h1, h2]

theorem createThreads_error (quot : Int) (threadCreated : Nat → Bool) (count : Nat) :
    ∀ (c : GroupCursor) (threads : List VPollingThreadInfo),
      (VWSAEventProducer.createThreads quot threadCreated count c threads).1 = none ∨
      (VWSAEventProducer.createThreads quot threadCreated count c threads).1 =
        some ProducerError.PollingThreadNotCreated := by
  induction count with
  | zero => intro c threads; exact Or.inl rfl
  | succ n ih =>
    intro c threads
    unfold VWSAEventProducer.createThreads
    dsimp only
    split
    · exact Or.inr rfl
    · exact ih _ _

theorem redistribute_error (p : VWSAEventProducer) (os : UpdateOS) :
    (p.redistribute os).1 = none ∨
    (p.redistribute os).1 = some ProducerError.DivisionByZero ∨
    (p.redistribute os).1 = some ProducerError.PollingThreadNotCreated := by
  unfold VWSAEventProducer.redistribute
  dsimp only
  split
  · exact Or.inr (Or.inl rfl)
  · split
    · exact Or.inr (Or.inl rfl)
    · rcases createThreads_error _ os.threadCreated _ _ _ with h | h
      · exact Or.inl h
      · exact Or.inr (Or.inr h)

theorem waitForAllJoinEvents_error (pollingThreads : List VPollingThreadInfo)
    (waitResult : WaitResult) (e : ProducerError)
    (h : VWSAEventProducer.waitForAllJoinEvents pollingThreads waitResult = Except.error e) :
    e = ProducerError.JoinWaitFailed := by
  unfold VWSAEventProducer.waitForAllJoinEvents at h
  dsimp only at h
  split at h
  · exact absurd h (by simp)
  · split at h
    · exact absurd h (by simp)
    · split at h
      · exact (Except.error.inj h).symm
      · exact absurd h (by simp)

theorem setAbortIOWaitEvent_proj (q : VWSAEventProducer) (w : Bool) :
    (q.SetAbortIOWaitEvent w).2.sessions = q.sessions ∧
    (q.SetAbortIOWaitEvent w).2.pollingThreads = q.pollingThreads ∧
    (q.SetAbortIOWaitEvent w).2.minimumPollingThreads = q.minimumPollingThreads ∧
    (q.SetAbortIOWaitEvent w).2.maximumEventsPerPollingThread = q.maximumEventsPerPollingThread := by
  obtain ⟨b, hb⟩ := setAbortIOWaitEvent_fields q w
  rw [hb]
  exact ⟨rfl, rfl, rfl, rfl⟩

theorem resetAbortIOWaitEvent_proj (q : VWSAEventProducer) (w : Bool) :
    (q.ResetAbortIOWaitEvent w).2.sessions = q.sessions ∧
    (q.ResetAbortIOWaitEvent w).2.pollingThreads = q.pollingThreads ∧
    (q.ResetAbortIOWaitEvent w).2.minimumPollingThreads = q.minimumPollingThreads ∧
    (q.ResetAbortIOWaitEvent w).2.maximumEventsPerPollingThread = q.maximumEventsPerPollingThread := by
  obtain ⟨b, hb⟩ := resetAbortIOWaitEvent_fields q w
  rw [hb]
  exact ⟨rfl, rfl, rfl, rfl⟩

theorem redistribute_congr (p q : VWSAEventProducer) (os : UpdateOS)
    (h1 : p.sessions = q.sessions) (h2 : p.pollingThreads = q.pollingThreads)
    (h3 : p.minimumPollingThreads = q.minimumPollingThreads)
    (h4 : p.maximumEventsPerPollingThread = q.maximumEventsPerPollingThread) :
    p.redistribute os = q.redistribute os := by
  unfold VWSAEventProducer.redistribute
  rw [h1, h2, h3, h4]

/-- The outcomes of `UpdateSessions` on a producer that is started and not
cancelled: one of the protocol errors, or success with the registry of step 3
and the thread records of steps 4 to 6 (their join events reset). -/
theorem wsa_updateSessions_cases (p : VWSAEventProducer) (heap : SessionHeap)
    (newSessions closedSessions : List SessionPtr) (os : UpdateOS)
    (hs : p.started = true) (hc : p.cancellationSource.Cancelled = false) :
    ((p.UpdateSessions heap newSessions closedSessions os).1 =
        some ProducerError.AbortEventNotSet ∧
      (p.UpdateSessions heap newSessions closedSessions os).2.sessions = p.sessions) ∨
    (p.UpdateSessions heap newSessions closedSessions os).1 =
        some ProducerError.JoinWaitFailed ∨
    (p.UpdateSessions heap newSessions closedSessions os).1 =
        some ProducerError.DivisionByZero ∨
    (p.UpdateSessions heap newSessions closedSessions os).1 =
        some ProducerError.PollingThreadNotCreated ∨
    (p.UpdateSessions heap newSessions closedSessions os).1 =
        some ProducerError.AbortEventNotReset ∨
    ((p.UpdateSessions heap newSessions closedSessions os).1 = none ∧
      (p.UpdateSessions heap newSessions closedSessions os).2.sessions =
        VWSAEventProducer.updateRegistry heap p.sessions newSessions closedSessions ∧
      (p.UpdateSessions heap newSessions closedSessions os).2.minimumPollingThreads =
        p.minimumPollingThreads ∧
      (p.UpdateSessions heap newSessions closedSessions os).2.maximumEventsPerPollingThread =
        p.maximumEventsPerPollingThread ∧
      ∃ threads,
        VWSAEventProducer.redistribute
          { p with sessions :=
              VWSAEventProducer.updateRegistry heap p.sessions newSessions closedSessions } os =
          (none, threads) ∧
        (p.UpdateSessions heap newSessions closedSessions os).2.pollingThreads =
          threads.map (fun (t : VPollingThreadInfo) =>
            (t.ResetPollingThreadJoinEvent (os.resetJoinEvent t.id)).2)) := by
  unfold VWSAEventProducer.UpdateSessions
  simp only [hs, hc, Bool.not_true, Bool.false_eq_true, if_false]
  have hp := setAbortIOWaitEvent_proj { p with waitTokenSource := p.waitTokenSource.Wait.2 }
    os.wsaSetEvent
  rw [hs] at hp
  generalize hset : VWSAEventProducer.SetAbortIOWaitEvent _ os.wsaSetEvent = set at hp ⊢
  simp only at hp
  obtain ⟨a1, a2, a3, a4⟩ := hp
  rw [a1, a2, a3, a4]
  have hr : VWSAEventProducer.redistribute
      { set.2 with
        minimumPollingThreads := p.minimumPollingThreads,
        maximumEventsPerPollingThread := p.maximumEventsPerPollingThread,
        sessions := VWSAEventProducer.updateRegistry heap p.sessions newSessions closedSessions,
        pollingThreads := p.pollingThreads } os =
      VWSAEventProducer.redistribute
        { p with sessions :=
            VWSAEventProducer.updateRegistry heap p.sessions newSessions closedSessions } os :=
    redistribute_congr _ _ os rfl rfl rfl rfl
  rw [hr]
  generalize hgroups : VWSAEventProducer.redistribute
    { p with sessions :=
        VWSAEventProducer.updateRegistry heap p.sessions newSessions closedSessions } os = groups
  have hge := redistribute_error
    { p with sessions :=
        VWSAEventProducer.updateRegistry heap p.sessions newSessions closedSessions } os
  rw [hgroups] at hge
  obtain ⟨g1, g2⟩ := groups
  simp only at hge ⊢
  split
  · exact Or.inl ⟨rfl, a1⟩
  · split
    · rename_i e he
      have := waitForAllJoinEvents_error _ _ _ he
      subst this
      exact Or.inr (Or.inl rfl)
    · cases g1 with
      | some e =>
        simp only
        rcases hge with h | h | h
        · exact absurd h (by simp)
        · exact Or.inr (Or.inr (Or.inl h))
        · exact Or.inr (Or.inr (Or.inr (Or.inl h)))
      | none =>
        simp only
        have hq := resetAbortIOWaitEvent_proj
          { set.2 with
            minimumPollingThreads := p.minimumPollingThreads,
            maximumEventsPerPollingThread := p.maximumEventsPerPollingThread,
            sessions := VWSAEventProducer.updateRegistry heap p.sessions newSessions closedSessions,
            pollingThreads := g2 } os.wsaResetEvent
        generalize hreset : VWSAEventProducer.ResetAbortIOWaitEvent _ os.wsaResetEvent = reset
          at hq ⊢
        simp only at hq
        obtain ⟨b1, b2, b3, b4⟩ := hq
        split
        · exact Or.inr (Or.inr (Or.inr (Or.inr (Or.inl rfl))))
        · split
          · rename_i e he
            have := waitForAllJoinEvents_error _ _ _ he
            subst this
            exact Or.inr (Or.inl rfl)
          · refine Or.inr (Or.inr (Or.inr (Or.inr (Or.inr ⟨rfl, b1, b3, b4, g2,
              (redistribute_congr _ _ os rfl rfl rfl rfl).trans hgroups, ?_⟩))))
            simp only [b2]

theorem wsa_updateSessions_started (p : VWSAEventProducer) (heap : SessionHeap)
    (newSessions closedSessions : List SessionPtr) (os : UpdateOS) (hs : p.started = true) :
    ((p.UpdateSessions heap newSessions closedSessions os).1 = none ∨
      (p.UpdateSessions heap newSessions closedSessions os).1 =
        some ProducerError.AbortEventNotSet ∨
      (p.UpdateSessions heap newSessions closedSessions os).1 =
        some ProducerError.JoinWaitFailed ∨
      (p.UpdateSessions heap newSessions closedSessions os).1 =
        some ProducerError.DivisionByZero ∨
      (p.UpdateSessions heap newSessions closedSessions os).1 =
        some ProducerError.PollingThreadNotCreated ∨
      (p.UpdateSessions heap newSessions closedSessions os).1 =
        some ProducerError.AbortEventNotReset) ∧
    ((p.UpdateSessions heap newSessions closedSessions os).1 =
        some ProducerError.AbortEventNotSet →
      (p.UpdateSessions heap newSessions closedSessions os).2.sessions = p.sessions) := by
  cases hc : p.cancellationSource.Cancelled with
  | true =>
    have h : p.UpdateSessions heap newSessions closedSessions os = (none, p) := by
      unfold VWSAEventProducer.UpdateSessions
      simp only [hs, hc, Bool.not_true, Bool.false_eq_true, if_false, if_true]
    rw [h]
    exact ⟨Or.inl rfl, fun h => absurd h (by simp)⟩
  | false =>
    rcases wsa_updateSessions_cases p heap newSessions closedSessions os hs hc with
      h | h | h | h | h | h
    · exact ⟨Or.inr (Or.inl h.1), fun _ => h.2⟩
    · exact ⟨Or.inr (Or.inr (Or.inl h)), fun h2 => absurd (h.symm.trans h2) (by simp)⟩
    · exact ⟨Or.inr (Or.inr (Or.inr (Or.inl h))), fun h2 => absurd (h.symm.trans h2) (by simp)⟩
    · exact ⟨Or.inr (Or.inr (Or.inr (Or.inr (Or.inl h)))),
        fun h2 => absurd (h.symm.trans h2) (by simp)⟩
    · exact ⟨Or.inr (Or.inr (Or.inr (Or.inr (Or.inr h)))),
        fun h2 => absurd (h.symm.trans h2) (by simp)⟩
    · exact ⟨Or.inl h.1, fun h2 => absurd (h.1.symm.trans h2) (by simp)⟩

theorem updateRegistry_eq (heap : SessionHeap) (sessions newSessions closedSessions : List SessionPtr) :
    VWSAEventProducer.updateRegistry heap sessions newSessions closedSessions =
      sessions.filter (fun s => decide
        ((heap s).connectionState = SessionConnectionState.Connected ∧
          ∀ c ∈ closedSessions, (heap s).id ≠ (heap c).id)) ++ newSessions := by
  have hpred : (fun s => !VWSAEventProducer.shouldRemoveSession heap closedSessions s) =
      (fun s => decide
        ((heap s).connectionState = SessionConnectionState.Connected ∧
          ∀ c ∈ closedSessions, (heap s).id ≠ (heap c).id)) := by
    funext s
    unfold VWSAEventProducer.shouldRemoveSession VCommSessionInfoComparer
      VCommSessionInfo.ConnectionState
    by_cases h1 : (heap s).connectionState = SessionConnectionState.Connected
    · by_cases h2 : ∀ c ∈ closedSessions, (heap s).id ≠ (heap c).id
      · have : closedSessions.any (fun c => decide ((heap s).id = (heap c).id)) = false := by
          rw [List.any_eq_false]
          intro c hc
          simpa using h2 c hc
        simp [h1, this]
        exact h2
      · have : closedSessions.any (fun c => decide ((heap s).id = (heap c).id)) = true := by
          rw [List.any_eq_true]
          push_neg at h2
          obtain ⟨c, hc, hid⟩ := h2
          exact ⟨c, hc, by simpa using hid⟩
        simp [h1, h2, this]
    · simp [h1]
  unfold VWSAEventProducer.updateRegistry
  dsimp only
  rw [hpred]
  split
  · rfl
  · rename_i hlen
    have : newSessions = [] := by
      cases newSessions with
      | nil => rfl
      | cons a l => simp at hlen
    rw [this, List.append_nil]

theorem resetJoinEvent_window (t : VPollingThreadInfo) (resetEvent : Bool) :
    (t.ResetPollingThreadJoinEvent resetEvent).2.groupOffset = t.groupOffset ∧
    (t.ResetPollingThreadJoinEvent resetEvent).2.numberOfSockets = t.numberOfSockets ∧
    (t.ResetPollingThreadJoinEvent resetEvent).2.id = t.id := by
  unfold VPollingThreadInfo.ResetPollingThreadJoinEvent
  dsimp only
  split
  · exact ⟨rfl, rfl, rfl⟩
  · split <;> exact ⟨rfl, rfl, rfl⟩

theorem wsa_updateSessions_ok (p : VWSAEventProducer) (heap : SessionHeap)
    (newSessions closedSessions : List SessionPtr) (os : UpdateOS)
    (hs : p.started = true) (hc : p.cancellationSource.Cancelled = false)
    (hok : (p.UpdateSessions heap newSessions closedSessions os).1 = none) :
    (p.UpdateSessions heap newSessions closedSessions os).2.sessions =
      VWSAEventProducer.updateRegistry heap p.sessions newSessions closedSessions ∧
    (p.UpdateSessions heap newSessions closedSessions os).2.minimumPollingThreads =
      p.minimumPollingThreads ∧
    (p.UpdateSessions heap newSessions closedSessions os).2.maximumEventsPerPollingThread =
      p.maximumEventsPerPollingThread ∧
    ∃ threads,
      VWSAEventProducer.redistribute
        { p with sessions :=
            VWSAEventProducer.updateRegistry heap p.sessions newSessions closedSessions } os =
        (none, threads) ∧
      (p.UpdateSessions heap newSessions closedSessions os).2.pollingThreads =
        threads.map (fun (t : VPollingThreadInfo) =>
          (t.ResetPollingThreadJoinEvent (os.resetJoinEvent t.id)).2) := by
  rcases wsa_updateSessions_cases p heap newSessions closedSessions os hs hc with
    h | h | h | h | h | h
  · exact absurd (hok.symm.trans h.1) (by simp)
  · exact absurd (hok.symm.trans h) (by simp)
  · exact absurd (hok.symm.trans h) (by simp)
  · exact absurd (hok.symm.trans h) (by simp)
  · exact absurd (hok.symm.trans h) (by simp)
  · exact h.2

/-- C15: on a started event-array producer, a call of `UpdateSessions` that
completes leaves as registry the sessions of the old registry that are
`Connected` and whose UUID is the UUID of no session in `closedSessions`, in
their order, followed by the sessions of `newSessions` in their order. -/
theorem C15_registry_after_update (p : VWSAEventProducer) (heap : SessionHeap)
    (newSessions closedSessions : List SessionPtr) (os : UpdateOS)
    (hstarted : p.Started = true)
    (hok : (p.UpdateSessions heap newSessions closedSessions os).1 = none) :
    (p.UpdateSessions heap newSessions closedSessions os).2.sessions =
      p.sessions.filter (fun s => decide
        ((heap s).connectionState = SessionConnectionState.Connected ∧
          ∀ c ∈ closedSessions, (heap s).id ≠ (heap c).id)) ++ newSessions := by
  simp only [VWSAEventProducer.Started, Bool.and_eq_true, Bool.not_eq_true'] at hstarted
  rw [(wsa_updateSessions_ok p heap newSessions closedSessions os hstarted.1 hstarted.2 hok).1]
  exact updateRegistry_eq heap p.sessions newSessions closedSessions

/-- C15 (an instance): a started producer with the registry `[100, 101, 102]`, of
which session 101 is closed, gets the new sessions 103 and 104. -/
theorem C15_registry_after_update_witness :
    (((((VWSAEventProducer.create 2 8).Start okStartOS).2.UpdateSessions allConnected
        [100, 101, 102] [] okUpdateOS).2.UpdateSessions allConnected [103, 104] [101]
        okUpdateOS).2.sessions = [100, 102, 103, 104]) :=
  (C15_registry_after_update
    (((VWSAEventProducer.create 2 8).Start okStartOS).2.UpdateSessions allConnected
        [100, 101, 102] [] okUpdateOS).2 allConnected [103, 104] [101] okUpdateOS
    (by decide) (by decide)).trans (by decide)

theorem int32_eq (x : Int) : int32 x = (x + 2147483648) % 4294967296 - 2147483648 := by
  unfold int32
  cases x with
  | ofNat n =>
    dsimp only
    split <;> simp only [Int.ofNat_eq_coe, Int.negSucc_eq] <;> omega
  | negSucc n =>
    dsimp only
    split <;> simp only [Int.ofNat_eq_coe, Int.negSucc_eq] <;> omega

theorem int32_natCast (m : Nat) (h : m < 2147483648) : int32 (m : Int) = (m : Int) := by
  rw [int32_eq]
  omega

theorem uint32_natCast (m : Nat) (h : m < 4294967296) : uint32 (m : Int) = m := by
  unfold uint32
  omega

theorem std_div_natCast (n d : Nat) (hd : 0 < d) :
    std_div (n : Int) (d : Int) =
      some { quot := ((n / d : Nat) : Int), rem := ((n % d : Nat) : Int) } := by
  unfold std_div
  rw [if_neg (by omega)]
  rw [Int.tdiv_eq_ediv (by omega) (by omega), Int.tmod_eq_emod (by omega) (by omega)]
  rfl

theorem std_div_zero (x : Int) : std_div x 0 = none := by
  unfold std_div
  rw [if_pos rfl]

theorem groupOffset_mono (q r i j : Nat) (h : i ≤ j) :
    i * q + min i r ≤ j * q + min j r := by
  have h1 : i * q ≤ j * q := Nat.mul_le_mul_right q h
  omega

theorem groupOffset_succ (q r k : Nat) :
    (k + 1) * q + min (k + 1) r = k * q + min k r + (q + (if k < r then 1 else 0)) := by
  rw [Nat.succ_mul]
  split <;> omega

theorem cursor_sockets (q r k : Nat) (rem : Int) (h : rem = (r : Int) - (k : Int)) :
    (q : Int) + (if rem > 0 then 1 else 0) = ((q + (if k < r then 1 else 0) : Nat) : Int) := by
  subst h
  by_cases hk : k < r
  · rw [if_pos hk, if_pos (by omega)]
    push_cast
    rfl
  · rw [if_neg hk, if_neg (by omega)]
    push_cast
    rfl

theorem updateThreads_spec (q r : Nat) (resetJoinEvent : Nat → Bool) :
    ∀ (kept : List VPollingThreadInfo) (k : Nat) (c : GroupCursor),
      c.offset = ((k * q + min k r : Nat) : Int) →
      c.remainder = (r : Int) - (k : Int) →
      (k + kept.length) * q + min (k + kept.length) r < 4294967296 →
      (VWSAEventProducer.updateThreads (q : Int) resetJoinEvent kept c).1.map
          VPollingThreadInfo.window =
        (List.range' k kept.length).map
          (fun i => (i * q + min i r, q + (if i < r then 1 else 0))) ∧
      (VWSAEventProducer.updateThreads (q : Int) resetJoinEvent kept c).2.offset =
        (((k + kept.length) * q + min (k + kept.length) r : Nat) : Int) ∧
      (VWSAEventProducer.updateThreads (q : Int) resetJoinEvent kept c).2.remainder =
        (r : Int) - ((k + kept.length : Nat) : Int) ∧
      (VWSAEventProducer.updateThreads (q : Int) resetJoinEvent kept c).2.groupsCreated =
        c.groupsCreated + (kept.length : Int) ∧
      (VWSAEventProducer.updateThreads (q : Int) resetJoinEvent kept c).2.threadId =
        c.threadId + (kept.length : Int) := by
  intro kept
  induction kept with
  | nil =>
    intro k c ho hr _
    refine ⟨rfl, ?_, ?_, ?_, ?_⟩
    · simpa [VWSAEventProducer.updateThreads] using ho
    · simpa [VWSAEventProducer.updateThreads] using hr
    · simp [VWSAEventProducer.updateThreads]
    · simp [VWSAEventProducer.updateThreads]
  | cons t rest ih =>
    intro k c ho hr hb
    have hlen : k + (t :: rest).length = (k + 1) + rest.length := by
      simp only [List.length_cons]; omega
    rw [hlen] at hb
    have hsock := cursor_sockets q r k c.remainder hr
    have hstep := groupOffset_succ q r k
    have hmono := groupOffset_mono q r (k + 1) (k + 1 + rest.length) (by omega)
    have ho' : c.offset + ((q : Int) + (if c.remainder > 0 then 1 else 0)) =
        (((k + 1) * q + min (k + 1) r : Nat) : Int) := by
      rw [hsock, ho, hstep]
      push_cast
      rfl
    have hr' : c.remainder - 1 = (r : Int) - ((k + 1 : Nat) : Int) := by
      rw [hr]; push_cast; omega
    obtain ⟨i1, i2, i3, i4, i5⟩ := ih (k + 1)
      { offset := c.offset + ((q : Int) + (if c.remainder > 0 then 1 else 0)),
        remainder := c.remainder - 1,
        groupsCreated := c.groupsCreated + 1, threadId := c.threadId + 1 } ho' hr' hb
    have hlen2 : k + (rest.length + 1) = k + 1 + rest.length := by omega
    have hoff : k * q + min k r < 4294967296 := by omega
    have hcnt : q + (if k < r then 1 else 0) < 4294967296 := by omega
    unfold VWSAEventProducer.updateThreads
    simp only [List.map_cons, List.length_cons, List.range'_succ]
    refine ⟨?_, ?_, ?_, ?_, ?_⟩
    · rw [i1]
      congr 1
      obtain ⟨w1, w2, _⟩ := resetJoinEvent_window
        ((t.setGroupOffset (uint32 c.offset)).setNumberOfSockets
          (uint32 (↑q + if c.remainder > 0 then 1 else 0)))
        (resetJoinEvent ((t.setGroupOffset (uint32 c.offset)).setNumberOfSockets
          (uint32 (↑q + if c.remainder > 0 then 1 else 0))).id)
      unfold VPollingThreadInfo.window VPollingThreadInfo.GroupOffset
        VPollingThreadInfo.NumberOfSockets
      rw [w1, w2]
      simp only [VPollingThreadInfo.setGroupOffset, VPollingThreadInfo.setNumberOfSockets]
      rw [hsock, ho, uint32_natCast _ hoff, uint32_natCast _ hcnt]
    · rw [i2, hlen2]
    · rw [i3, hlen2]
    · rw [i4]
      push_cast
      omega
    · rw [i5]
      push_cast
      omega

theorem createThreads_spec (q r : Nat) (threadCreated : Nat → Bool) :
    ∀ (count k : Nat) (c : GroupCursor) (threads out : List VPollingThreadInfo),
      c.offset = ((k * q + min k r : Nat) : Int) →
      c.remainder = (r : Int) - (k : Int) →
      (k + count) * q + min (k + count) r < 4294967296 →
      VWSAEventProducer.createThreads (q : Int) threadCreated count c threads = (none, out) →
      out.map VPollingThreadInfo.window =
        threads.map VPollingThreadInfo.window ++
          (List.range' k count).map
            (fun i => (i * q + min i r, q + (if i < r then 1 else 0))) := by
  intro count
  induction count with
  | zero =>
    intro k c threads out _ _ _ h
    have : out = threads := by
      simpa [VWSAEventProducer.createThreads] using h.symm
    subst this
    simp
  | succ n ih =>
    intro k c threads out ho hr hb h
    have hlen : k + (n + 1) = (k + 1) + n := by omega
    rw [hlen] at hb
    have hsock := cursor_sockets q r k c.remainder hr
    have hstep := groupOffset_succ q r k
    have hmono := groupOffset_mono q r (k + 1) (k + 1 + n) (by omega)
    have ho' : c.offset + ((q : Int) + (if c.remainder > 0 then 1 else 0)) =
        (((k + 1) * q + min (k + 1) r : Nat) : Int) := by
      rw [hsock, ho, hstep]
      push_cast
      rfl
    have hr' : c.remainder - 1 = (r : Int) - ((k + 1 : Nat) : Int) := by
      rw [hr]; push_cast; omega
    have hoff : k * q + min k r < 4294967296 := by omega
    have hcnt : q + (if k < r then 1 else 0) < 4294967296 := by omega
    unfold VWSAEventProducer.createThreads at h
    dsimp only at h
    split at h
    · exact absurd (congrArg Prod.fst h) (by simp)
    · have := ih (k + 1) _ _ out ho' hr' hb h
      rw [this, List.map_append, List.range'_succ, List.map_cons, List.append_assoc]
      congr 1
      simp only [List.map_cons, List.map_nil, List.singleton_append]
      congr 1
      unfold VPollingThreadInfo.window VPollingThreadInfo.GroupOffset
        VPollingThreadInfo.NumberOfSockets VPollingThreadInfo.create
      simp only
      rw [hsock, ho, uint32_natCast _ hoff, uint32_natCast _ hcnt]

theorem createThreads_ok (quot : Int) (threadCreated : Nat → Bool)
    (hcreated : ∀ i, threadCreated i = true) :
    ∀ (count : Nat) (c : GroupCursor) (threads : List VPollingThreadInfo),
      (VWSAEventProducer.createThreads quot threadCreated count c threads).1 = none := by
  intro count
  induction count with
  | zero => intro c threads; rfl
  | succ n ih =>
    intro c threads
    unfold VWSAEventProducer.createThreads
    dsimp only
    rw [hcreated]
    exact ih _ _

theorem ceil_div (n m : Nat) (hm : 0 < m) :
    n / m + (if n % m > 0 then 1 else 0) = (n + m - 1) / m := by
  have h := Nat.div_add_mod n m
  have hlt := Nat.mod_lt n hm
  by_cases hr : n % m > 0
  · rw [if_pos hr]
    have e : n + m - 1 = (n % m - 1) + m * (n / m + 1) := by
      rw [Nat.mul_add, Nat.mul_one]
      omega
    rw [e, Nat.add_mul_div_left _ _ hm, Nat.div_eq_of_lt (show n % m - 1 < m by omega)]
    omega
  · rw [if_neg hr]
    have e : n + m - 1 = (m - 1) + m * (n / m) := by omega
    rw [e, Nat.add_mul_div_left _ _ hm, Nat.div_eq_of_lt (show m - 1 < m by omega)]
    omega

theorem ceil_div_le (n m : Nat) (hm : 0 < m) : (n + m - 1) / m ≤ n := by
  rw [← ceil_div n m hm]
  have h := Nat.div_add_mod n m
  have h1 : n / m ≤ m * (n / m) := Nat.le_mul_of_pos_left _ hm
  split <;> omega

theorem requiredSocketGroups_spec (n maximumEventsPerPollingThread minimumPollingThreads : Nat)
    (hn : n < 2147483648) (hmax : 0 < maximumEventsPerPollingThread)
    (hmax2 : maximumEventsPerPollingThread < 2147483648) :
    VWSAEventProducer.requiredSocketGroups (n : Int) maximumEventsPerPollingThread
        minimumPollingThreads =
      some (specGroups n maximumEventsPerPollingThread minimumPollingThreads) := by
  have hle := ceil_div_le n maximumEventsPerPollingThread hmax
  have hc := ceil_div n maximumEventsPerPollingThread hmax
  have hq : ((n / maximumEventsPerPollingThread : Nat) : Int) +
      (if ((n % maximumEventsPerPollingThread : Nat) : Int) > 0 then 1 else 0) =
      (((n + maximumEventsPerPollingThread - 1) / maximumEventsPerPollingThread : Nat) : Int) := by
    rw [← hc]
    by_cases hr : n % maximumEventsPerPollingThread > 0
    · rw [if_pos hr, if_pos (by omega)]
      push_cast
      rfl
    · rw [if_neg hr, if_neg (by omega)]
      push_cast
      rfl
  unfold VWSAEventProducer.requiredSocketGroups
  rw [int32_natCast _ hmax2, std_div_natCast _ _ hmax]
  simp only
  rw [hq, uint32_natCast _ (by omega)]
  unfold specGroups
  congr 1
  split <;> omega

theorem redistribute_windows (p : VWSAEventProducer) (os : UpdateOS)
    (threads : List VPollingThreadInfo)
    (hn : p.sessions.length < 2147483648)
    (hmax : 0 < p.maximumEventsPerPollingThread)
    (hmax2 : p.maximumEventsPerPollingThread < 2147483648)
    (hmin2 : p.minimumPollingThreads < 2147483648)
    (h : p.redistribute os = (none, threads)) :
    0 < specGroups p.sessions.length p.maximumEventsPerPollingThread p.minimumPollingThreads ∧
    threads.map VPollingThreadInfo.window =
      (List.range (specGroups p.sessions.length p.maximumEventsPerPollingThread
          p.minimumPollingThreads)).map
        (fun i =>
          (i * (p.sessions.length /
                specGroups p.sessions.length p.maximumEventsPerPollingThread
                  p.minimumPollingThreads) +
              min i (p.sessions.length %
                specGroups p.sessions.length p.maximumEventsPerPollingThread
                  p.minimumPollingThreads),
            p.sessions.length /
                specGroups p.sessions.length p.maximumEventsPerPollingThread
                  p.minimumPollingThreads +
              (if i < p.sessions.length %
                specGroups p.sessions.length p.maximumEventsPerPollingThread
                  p.minimumPollingThreads then 1 else 0))) := by
  have hg2 : specGroups p.sessions.length p.maximumEventsPerPollingThread
      p.minimumPollingThreads < 2147483648 := by
    have := ceil_div_le p.sessions.length p.maximumEventsPerPollingThread hmax
    unfold specGroups
    omega
  unfold VWSAEventProducer.redistribute at h
  simp only at h
  rw [int32_natCast _ hn, requiredSocketGroups_spec _ _ _ hn hmax hmax2] at h
  generalize specGroups p.sessions.length p.maximumEventsPerPollingThread
      p.minimumPollingThreads = g at h hg2 ⊢
  generalize p.sessions.length = n at h hn ⊢
  simp only at h
  rw [int32_natCast _ hg2] at h
  by_cases hg : g = 0
  · subst hg
    rw [Nat.cast_zero, std_div_zero] at h
    exact absurd (congrArg Prod.fst h) (by simp)
  · have hgpos : 0 < g := by omega
    refine ⟨hgpos, ?_⟩
    rw [std_div_natCast _ _ hgpos] at h
    simp only at h
    have hkept : ∃ kept : List VPollingThreadInfo,
        kept = (if p.pollingThreads.length > g then List.take g p.pollingThreads
          else p.pollingThreads) ∧ kept.length ≤ g := by
      refine ⟨_, rfl, ?_⟩
      split
      · rw [List.length_take]; omega
      · omega
    obtain ⟨kept, hk, hkl⟩ := hkept
    rw [← hk] at h
    have hdm := Nat.div_add_mod n g
    have hml := Nat.mod_lt n hgpos
    have hmono := groupOffset_mono (n / g) (n % g) kept.length g hkl
    obtain ⟨u1, u2, u3, u4, -⟩ := updateThreads_spec (n / g) (n % g) os.resetJoinEvent kept 0
      { offset := 0, remainder := ↑(n % g), groupsCreated := 0, threadId := 1 }
      (by simp) (by simp) (by rw [Nat.zero_add]; omega)
    generalize VWSAEventProducer.updateThreads (↑(n / g)) os.resetJoinEvent kept
      { offset := 0, remainder := ↑(n % g), groupsCreated := 0, threadId := 1 } = U
      at h u1 u2 u3 u4
    rw [Nat.zero_add] at u2 u3
    simp only at u4
    have hcount : g + 1 - uint32 (U.2.groupsCreated + 1) = g - kept.length := by
      have : U.2.groupsCreated + 1 = ((kept.length + 1 : Nat) : Int) := by
        rw [u4]; push_cast; omega
      rw [this, uint32_natCast _ (by omega)]
      omega
    rw [hcount] at h
    have hc := createThreads_spec (n / g) (n % g) os.threadCreated (g - kept.length)
      kept.length U.2 U.1 threads u2 u3
      (by
        have : kept.length + (g - kept.length) = g := by omega
        rw [this]; omega) h
    have hrange : List.range' 0 kept.length ++ List.range' kept.length (g - kept.length) =
        List.range' 0 g := by
      have := List.range'_append 0 kept.length (g - kept.length) 1
      simp only [Nat.one_mul, Nat.zero_add] at this
      rw [this]
      congr 1
      omega
    rw [hc, u1, ← List.map_append, List.range_eq_range', hrange]

theorem windows_chain (q r g : Nat) :
    ((List.range g).map
        (fun i => (i * q + min i r, q + (if i < r then 1 else 0)))).Chain'
      (fun a b => b.1 = a.1 + a.2) := by
  rw [List.chain'_map]
  cases g with
  | zero => simp
  | succ m =>
    rw [List.chain'_range_succ]
    intro i _
    exact groupOffset_succ q r i

theorem windows_head (q r g : Nat) (hg : 0 < g) :
    ((List.range g).map
        (fun i => (i * q + min i r, q + (if i < r then 1 else 0)))).head?.map Prod.fst =
      some 0 := by
  cases g with
  | zero => omega
  | succ m =>
    rw [List.range_succ_eq_map]
    simp

theorem windows_sum (q r g : Nat) :
    (((List.range g).map
        (fun i => (i * q + min i r, q + (if i < r then 1 else 0)))).map Prod.snd).sum =
      g * q + min g r := by
  induction g with
  | zero => simp
  | succ m ih =>
    rw [List.range_succ, List.map_append, List.map_append, List.sum_append, ih,
      groupOffset_succ]
    simp

theorem windows_pairwise (q r g : Nat) :
    ((List.range g).map
        (fun i => (i * q + min i r, q + (if i < r then 1 else 0)))).Pairwise
      (fun a b => a.1 + a.2 ≤ b.1) := by
  rw [List.pairwise_map]
  refine (List.pairwise_lt_range g).imp ?_
  intro i j hij
  have h1 := groupOffset_succ q r i
  have h2 := groupOffset_mono q r (i + 1) j hij
  show i * q + min i r + (q + (if i < r then 1 else 0)) ≤ j * q + min j r
  omega

theorem windows_cover (q r g j : Nat) :
    j < g * q + min g r ↔
      ∃ w ∈ (List.range g).map
          (fun i => (i * q + min i r, q + (if i < r then 1 else 0))),
        w.1 ≤ j ∧ j < w.1 + w.2 := by
  constructor
  · intro h
    induction g with
    | zero => simp at h
    | succ m ih =>
      by_cases hj : j < m * q + min m r
      · obtain ⟨w, hw, hb⟩ := ih hj
        refine ⟨w, ?_, hb⟩
        rw [List.range_succ, List.map_append]
        exact List.mem_append_left _ hw
      · refine ⟨(m * q + min m r, q + (if m < r then 1 else 0)), ?_, ?_, ?_⟩
        · rw [List.range_succ, List.map_append]
          exact List.mem_append_right _ (by simp)
        · show m * q + min m r ≤ j
          omega
        · show j < m * q + min m r + (q + (if m < r then 1 else 0))
          rw [← groupOffset_succ]
          exact h
  · rintro ⟨w, hw, h1, h2⟩
    rw [List.mem_map] at hw
    obtain ⟨i, hi, rfl⟩ := hw
    rw [List.mem_range] at hi
    have e := groupOffset_succ q r i
    have m := groupOffset_mono q r (i + 1) g hi
    have h2' : j < i * q + min i r + (q + (if i < r then 1 else 0)) := h2
    omega

theorem group_size_le (n g m i : Nat) (hm : 0 < m) (hg : (n + m - 1) / m ≤ g) :
    n / g + (if i < n % g then 1 else 0) ≤ m := by
  by_cases hg0 : g = 0
  · subst hg0
    have hc := ceil_div n m hm
    have h1 : n / m + (if n % m > 0 then 1 else 0) ≤ 0 := by
      rw [hc]; exact hg
    have hz : n / m = 0 := Nat.eq_zero_of_le_zero (le_trans (Nat.le_add_right _ _) h1)
    have hi : (if n % m > 0 then 1 else 0) = 0 :=
      Nat.eq_zero_of_le_zero (le_trans (Nat.le_add_left _ _) h1)
    have hz2 : n % m = 0 := by
      by_contra hne
      rw [if_pos (Nat.pos_of_ne_zero hne)] at hi
      exact absurd hi (by decide)
    have hn : n = 0 := by
      have := Nat.div_add_mod n m
      rw [hz, hz2] at this
      omega
    subst hn
    simp
  · have hgpos : 0 < g := by omega
    have hdm := Nat.div_add_mod n g
    have hml := Nat.mod_lt n hgpos
    have hcm := Nat.div_add_mod (n + m - 1) m
    have hcl := Nat.mod_lt (n + m - 1) hm
    have hle : m * ((n + m - 1) / m) ≤ m * g := Nat.mul_le_mul_left m hg
    have hnle : n ≤ g * m := by
      rw [Nat.mul_comm g m]
      omega
    by_contra hcon
    have hcon' : m < n / g + (if i < n % g then 1 else 0) := by omega
    by_cases hr : i < n % g
    · rw [if_pos hr] at hcon'
      have : g * m ≤ g * (n / g) := Nat.mul_le_mul_left g (by omega)
      omega
    · rw [if_neg hr] at hcon'
      have : g * (m + 1) ≤ g * (n / g) := Nat.mul_le_mul_left g (by omega)
      rw [Nat.mul_succ] at this
      omega

theorem reset_map_windows (resetJoinEvent : Nat → Bool) (threads : List VPollingThreadInfo) :
    (threads.map (fun (t : VPollingThreadInfo) =>
        (t.ResetPollingThreadJoinEvent (resetJoinEvent t.id)).2)).map
        VPollingThreadInfo.window =
      threads.map VPollingThreadInfo.window := by
  rw [List.map_map]
  apply List.map_congr_left
  intro t _
  obtain ⟨w1, w2, _⟩ := resetJoinEvent_window t (resetJoinEvent t.id)
  show ((t.ResetPollingThreadJoinEvent (resetJoinEvent t.id)).2.groupOffset,
      (t.ResetPollingThreadJoinEvent (resetJoinEvent t.id)).2.numberOfSockets) =
    (t.groupOffset, t.numberOfSockets)
  rw [w1, w2]

/-- The windows of the polling threads after a call of `UpdateSessions` that
completes on a started producer, for a registry, a maximum and a minimum in the
range of `int`: with `n` sessions registered and `g` groups, the window of thread
`i` starts at `i * (n / g) + min i (n mod g)` and holds `n / g` sessions, one
more for `i < n mod g`. -/
theorem wsa_update_windows (p : VWSAEventProducer) (heap : SessionHeap)
    (newSessions closedSessions : List SessionPtr) (os : UpdateOS)
    (hstarted : p.Started = true)
    (hok : (p.UpdateSessions heap newSessions closedSessions os).1 = none)
    (hmax : 0 < p.maximumEventsPerPollingThread)
    (hmax2 : p.maximumEventsPerPollingThread < 2147483648)
    (hmin2 : p.minimumPollingThreads < 2147483648)
    (hn : (p.UpdateSessions heap newSessions closedSessions os).2.sessions.length < 2147483648) :
    0 < specGroups (p.UpdateSessions heap newSessions closedSessions os).2.sessions.length
          p.maximumEventsPerPollingThread p.minimumPollingThreads ∧
    (p.UpdateSessions heap newSessions closedSessions os).2.pollingThreads.map
        VPollingThreadInfo.window =
      (List.range (specGroups (p.UpdateSessions heap newSessions closedSessions os).2.sessions.length
          p.maximumEventsPerPollingThread p.minimumPollingThreads)).map
        (fun i =>
          (i * ((p.UpdateSessions heap newSessions closedSessions os).2.sessions.length /
                specGroups (p.UpdateSessions heap newSessions closedSessions os).2.sessions.length
                  p.maximumEventsPerPollingThread p.minimumPollingThreads) +
              min i ((p.UpdateSessions heap newSessions closedSessions os).2.sessions.length %
                specGroups (p.UpdateSessions heap newSessions closedSessions os).2.sessions.length
                  p.maximumEventsPerPollingThread p.minimumPollingThreads),
            (p.UpdateSessions heap newSessions closedSessions os).2.sessions.length /
                specGroups (p.UpdateSessions heap newSessions closedSessions os).2.sessions.length
                  p.maximumEventsPerPollingThread p.minimumPollingThreads +
              (if i < (p.UpdateSessions heap newSessions closedSessions os).2.sessions.length %
                specGroups (p.UpdateSessions heap newSessions closedSessions os).2.sessions.length
                  p.maximumEventsPerPollingThread p.minimumPollingThreads then 1 else 0))) := by
  simp only [VWSAEventProducer.Started, Bool.and_eq_true, Bool.not_eq_true'] at hstarted
  obtain ⟨e1, -, -, threads, hred, hthreads⟩ :=
    wsa_updateSessions_ok p heap newSessions closedSessions os hstarted.1 hstarted.2 hok
  rw [e1] at hn ⊢
  rw [hthreads, reset_map_windows]
  exact redistribute_windows
    { p with sessions :=
        VWSAEventProducer.updateRegistry heap p.sessions newSessions closedSessions }
    os threads hn hmax hmax2 hmin2 hred

/-- C18 (as stated, refuted): a producer configured with a maximum of 64 keeps
64 as its limit, and an `UpdateSessions` with 64 new sessions completes and
assigns all 64 sessions to one polling thread, more than
`MAX_SOCKETS_PER_POLLING_THREAD`. -/
theorem C18_maximum_is_not_clamped :
    (VWSAEventProducer.create 1 64).maximumEventsPerPollingThread = 64 ∧
    (((VWSAEventProducer.create 1 64).Start okStartOS).2.UpdateSessions allConnected
        (List.range' 100 64) [] okUpdateOS).1 = none ∧
    (((VWSAEventProducer.create 1 64).Start okStartOS).2.UpdateSessions allConnected
        (List.range' 100 64) [] okUpdateOS).2.pollingThreads.map
        VPollingThreadInfo.NumberOfSockets = [64] ∧
    ¬ (64 ≤ MAX_SOCKETS_PER_POLLING_THREAD) := by
  decide

theorem wsa_start_config (p : VWSAEventProducer) (os : StartOS) :
    (p.Start os).2.maximumEventsPerPollingThread = p.maximumEventsPerPollingThread ∧
    (p.Start os).2.minimumPollingThreads = p.minimumPollingThreads := by
  unfold VWSAEventProducer.Start
  split
  · exact ⟨rfl, rfl⟩
  · split
    · exact ⟨rfl, rfl⟩
    · split
      · exact ⟨rfl, rfl⟩
      · dsimp only
        split <;> exact ⟨rfl, rfl⟩

/-- C18 (amended): the limit in effect is the value configured, as it is: the
constructor and the factory store the second number passed, whatever it is, and
`Start` keeps it. After a call of `UpdateSessions` that completes on a started
producer (the maximum at least 1, and the registry size, the maximum and the
minimum in the range of `int`), no polling thread is assigned more sessions than
the configured maximum. -/
theorem C18_limit_is_configured_value (p : VWSAEventProducer) (heap : SessionHeap)
    (newSessions closedSessions : List SessionPtr) (os : UpdateOS)
    (hstarted : p.Started = true)
    (hok : (p.UpdateSessions heap newSessions closedSessions os).1 = none)
    (hmax : 0 < p.maximumEventsPerPollingThread)
    (hmax2 : p.maximumEventsPerPollingThread < 2147483648)
    (hmin2 : p.minimumPollingThreads < 2147483648)
    (hn : (p.UpdateSessions heap newSessions closedSessions os).2.sessions.length < 2147483648) :
    (∀ t ∈ (p.UpdateSessions heap newSessions closedSessions os).2.pollingThreads,
      t.NumberOfSockets ≤ p.maximumEventsPerPollingThread) ∧
    (p.UpdateSessions heap newSessions closedSessions os).2.maximumEventsPerPollingThread =
      p.maximumEventsPerPollingThread ∧
    (∀ (minimumPollingThreads maximumEventsPerPollingThread : Nat) (startOS : StartOS),
      (VWSAEventProducer.create minimumPollingThreads
          maximumEventsPerPollingThread).maximumEventsPerPollingThread =
        maximumEventsPerPollingThread ∧
      ((VWSAEventProducer.create minimumPollingThreads
          maximumEventsPerPollingThread).Start startOS).2.maximumEventsPerPollingThread =
        maximumEventsPerPollingThread ∧
      ((VCommSessionEventProducerFactory.CreateCommSessionEventProducer
          { commSessionEventProducer := none } minimumPollingThreads
          maximumEventsPerPollingThread).1.toOption.map
          VWSAEventProducer.maximumEventsPerPollingThread) =
        some maximumEventsPerPollingThread) := by
  obtain ⟨hg, hw⟩ := wsa_update_windows p heap newSessions closedSessions os hstarted hok hmax
    hmax2 hmin2 hn
  have hge : ((p.UpdateSessions heap newSessions closedSessions os).2.sessions.length +
      p.maximumEventsPerPollingThread - 1) / p.maximumEventsPerPollingThread ≤
      specGroups (p.UpdateSessions heap newSessions closedSessions os).2.sessions.length
        p.maximumEventsPerPollingThread p.minimumPollingThreads := le_max_left _ _
  have hs := hstarted
  simp only [VWSAEventProducer.Started, Bool.and_eq_true, Bool.not_eq_true'] at hs
  refine ⟨?_, (wsa_updateSessions_ok p heap newSessions closedSessions os hs.1 hs.2 hok).2.2.1,
    ?_⟩
  · intro t ht
    have hmem : t.window ∈ (p.UpdateSessions heap newSessions closedSessions
        os).2.pollingThreads.map VPollingThreadInfo.window := List.mem_map_of_mem _ ht
    rw [hw, List.mem_map] at hmem
    obtain ⟨i, -, hi⟩ := hmem
    have hcount : t.NumberOfSockets = t.window.2 := rfl
    rw [hcount, ← hi]
    exact group_size_le _ _ _ i hmax hge
  · intro minimumPollingThreads maximumEventsPerPollingThread startOS
    exact ⟨rfl, (wsa_start_config _ startOS).1, rfl⟩

/-- C18 (amended, an instance): 64 sessions on a producer with minimum 1 and
maximum 64. -/
theorem C18_limit_is_configured_value_witness :
    (∀ t ∈ (((VWSAEventProducer.create 1 64).Start okStartOS).2.UpdateSessions allConnected
        (List.range' 100 64) [] okUpdateOS).2.pollingThreads,
      t.NumberOfSockets ≤ 64) ∧
    (((VWSAEventProducer.create 1 64).Start okStartOS).2.UpdateSessions allConnected
        (List.range' 100 64) [] okUpdateOS).2.maximumEventsPerPollingThread = 64 :=
  have h := C18_limit_is_configured_value ((VWSAEventProducer.create 1 64).Start okStartOS).2
    allConnected (List.range' 100 64) [] okUpdateOS (by decide) (by decide) (by decide)
    (by decide) (by decide) (by decide)
  ⟨h.1, h.2.1.trans (by decide)⟩

/-- C19: a call `CreateCommSessionEventProducer(8, 2)` written against the header,
which declares the per-thread maximum first and the minimum number of threads
second, creates a producer with maximum 2 and minimum 8, and the constructor
called as its header declares it does the same; 10 sessions are then spread
over 8 polling threads instead of 2. In general the first number is stored as
the minimum and the second as the maximum. -/
theorem C19_declared_order_is_swapped :
    ((VCommSessionEventProducerFactory.createAsDeclared { commSessionEventProducer := none }
        8 2).1.toOption.map VWSAEventProducer.maximumEventsPerPollingThread = some 2) ∧
    ((VCommSessionEventProducerFactory.createAsDeclared { commSessionEventProducer := none }
        8 2).1.toOption.map VWSAEventProducer.minimumPollingThreads = some 8) ∧
    (VWSAEventProducer.createAsDeclared 8 2).maximumEventsPerPollingThread = 2 ∧
    (VWSAEventProducer.createAsDeclared 8 2).minimumPollingThreads = 8 ∧
    ((((VWSAEventProducer.createAsDeclared 8 2).Start okStartOS).2.UpdateSessions allConnected
        (List.range' 100 10) [] okUpdateOS).2.pollingThreads.map
        VPollingThreadInfo.NumberOfSockets = [2, 2, 1, 1, 1, 1, 1, 1]) ∧
    (∀ a b : Nat,
      (VWSAEventProducer.createAsDeclared a b).maximumEventsPerPollingThread = b ∧
      (VWSAEventProducer.createAsDeclared a b).minimumPollingThreads = a) := by
  refine ⟨by decide, by decide, by decide, by decide, by decide, ?_⟩
  intro a b
  exact ⟨rfl, rfl⟩

/-- C21: the wait for the join events is made once. When `WaitForMultipleObjects`
times out while the join events of both polling threads are still unset, the
wait returns without error instead of being repeated, and so it does for every
list of polling threads; `UpdateSessions` then goes on, changes the registry
and completes although no polling thread has acknowledged the pause. -/
theorem C21_timed_out_wait_is_not_repeated :
    (VPollingThreadInfo.create 1 0 0).IsPollingThreadJoinEventSet = false ∧
    (VPollingThreadInfo.create 2 0 0).IsPollingThreadJoinEventSet = false ∧
    (VWSAEventProducer.waitForAllJoinEvents
        [VPollingThreadInfo.create 1 0 0, VPollingThreadInfo.create 2 0 0]
        WaitResult.WAIT_TIMEOUT).toBool = true ∧
    (∀ pollingThreads : List VPollingThreadInfo,
      (VWSAEventProducer.waitForAllJoinEvents pollingThreads
        WaitResult.WAIT_TIMEOUT).toBool = true) ∧
    (((VWSAEventProducer.create 2 8).Start okStartOS).2.pollingThreads.map
        VPollingThreadInfo.IsPollingThreadJoinEventSet = [false, false]) ∧
    ((((VWSAEventProducer.create 2 8).Start okStartOS).2.UpdateSessions allConnected
        [100, 101] []
        { okUpdateOS with pauseWait := WaitResult.WAIT_TIMEOUT }).1 = none) ∧
    ((((VWSAEventProducer.create 2 8).Start okStartOS).2.UpdateSessions allConnected
        [100, 101] []
        { okUpdateOS with pauseWait := WaitResult.WAIT_TIMEOUT }).2.sessions = [100, 101]) := by
  refine ⟨by decide, by decide, by decide, ?_, by decide, by decide, by decide⟩
  intro pollingThreads
  unfold VWSAEventProducer.waitForAllJoinEvents
  split
  · rfl
  · dsimp only
    split
    · rfl
    · rw [if_neg (by decide)]
      rfl

/-- C30: `SetThreadExited` on a polling thread whose exited flag is not set
leaves the flag unset, so `ThreadExited` still returns false; on every record it
returns false and leaves the record as it was. -/
theorem C30_set_thread_exited_sets_nothing :
    (VPollingThreadInfo.create 1 0 0).ThreadExited = false ∧
    (VPollingThreadInfo.create 1 0 0).SetThreadExited.2.ThreadExited = false ∧
    (∀ t : VPollingThreadInfo, t.SetThreadExited.1 = false ∧ t.SetThreadExited.2 = t) := by
  refine ⟨by decide, by decide, ?_⟩
  intro t
  unfold VPollingThreadInfo.SetThreadExited
  by_cases h : t.threadExited = true
  · rw [if_pos h]
    refine ⟨rfl, ?_⟩
    cases t
    simp only at h
    subst h
    rfl
  · rw [if_neg h]
    exact ⟨rfl, rfl⟩

theorem create_counter_zero (id : Nat) (socket : Int) (st : SessionConnectionState)
    (r : MessageReceptionAfterDisconnection) (m : MessageProcessingAfterDisconnection)
    (socketEvent : EPOLL_EVENT) :
    (VCommSessionInfo.create id socket st r m socketEvent).messagesWaitingToBeProcessed = 0 := by
  unfold VCommSessionInfo.create
  dsimp only
  split <;> rfl

/-- C29: the counter starts at 0; on a counter below 2^32, `Increment` and
`Decrement` return the updated counter, which is the old value plus 1 and minus
1 modulo 2^32 and is again below 2^32; `Increment` followed by `Decrement`
restores the value, and `Decrement` on a counter of 0 returns 4294967295. -/
theorem C29_counter_modulo (s : VCommSessionInfo)
    (h : s.messagesWaitingToBeProcessed < 4294967296) :
    (∀ (id : Nat) (socket : Int) (st : SessionConnectionState)
        (r : MessageReceptionAfterDisconnection) (m : MessageProcessingAfterDisconnection)
        (socketEvent : EPOLL_EVENT),
      (VCommSessionInfo.create id socket st r m
        socketEvent).GetNumberOfMessagesWaitingToBeProcessed = 0) ∧
    s.IncrementMessagesWaitingToBeProcessed.1 =
      (s.messagesWaitingToBeProcessed + 1) % 4294967296 ∧
    s.IncrementMessagesWaitingToBeProcessed.2.GetNumberOfMessagesWaitingToBeProcessed =
      s.IncrementMessagesWaitingToBeProcessed.1 ∧
    s.DecrementMessagesWaitingToBeProcessed.1 =
      (s.messagesWaitingToBeProcessed + 4294967295) % 4294967296 ∧
    s.DecrementMessagesWaitingToBeProcessed.2.GetNumberOfMessagesWaitingToBeProcessed =
      s.DecrementMessagesWaitingToBeProcessed.1 ∧
    s.IncrementMessagesWaitingToBeProcessed.2.DecrementMessagesWaitingToBeProcessed.1 =
      s.messagesWaitingToBeProcessed ∧
    s.IncrementMessagesWaitingToBeProcessed.2.DecrementMessagesWaitingToBeProcessed.2 = s ∧
    (s.messagesWaitingToBeProcessed = 0 →
      s.DecrementMessagesWaitingToBeProcessed.1 = 4294967295) ∧
    s.IncrementMessagesWaitingToBeProcessed.2.messagesWaitingToBeProcessed < 4294967296 ∧
    s.DecrementMessagesWaitingToBeProcessed.2.messagesWaitingToBeProcessed < 4294967296 := by
  have hinc : uint32 ((s.messagesWaitingToBeProcessed : Int) + 1) =
      (s.messagesWaitingToBeProcessed + 1) % 4294967296 := by
    unfold uint32
    omega
  have hdec : uint32 ((s.messagesWaitingToBeProcessed : Int) - 1) =
      (s.messagesWaitingToBeProcessed + 4294967295) % 4294967296 := by
    unfold uint32
    omega
  have hback : uint32 ((((s.messagesWaitingToBeProcessed + 1) % 4294967296 : Nat) : Int) - 1) =
      s.messagesWaitingToBeProcessed := by
    unfold uint32
    omega
  unfold VCommSessionInfo.IncrementMessagesWaitingToBeProcessed
    VCommSessionInfo.DecrementMessagesWaitingToBeProcessed
    VCommSessionInfo.GetNumberOfMessagesWaitingToBeProcessed
  simp only [hinc, hdec, hback]
  refine ⟨create_counter_zero, trivial, trivial, trivial, trivial, trivial, trivial, ?_, ?_, ?_⟩
  · intro h0
    omega
  · omega
  · omega

/-- C29 (an instance): `Decrement` on the counter of a session just constructed
returns 4294967295. -/
theorem C29_counter_modulo_witness :
    (VCommSessionInfo.create 100 5 SessionConnectionState.Connected
      MessageReceptionAfterDisconnection.NotSupported
      MessageProcessingAfterDisconnection.NotSupported
      { events := 0, fd := 0 }).DecrementMessagesWaitingToBeProcessed.1 =
      4294967295 :=
  (C29_counter_modulo
    (VCommSessionInfo.create 100 5 SessionConnectionState.Connected
      MessageReceptionAfterDisconnection.NotSupported
      MessageProcessingAfterDisconnection.NotSupported { events := 0, fd := 0 })
    (by decide)).2.2.2.2.2.2.2.1 rfl

theorem specGroups_eq_zero_iff (n maximumEventsPerPollingThread minimumPollingThreads : Nat)
    (hmax : 0 < maximumEventsPerPollingThread) :
    specGroups n maximumEventsPerPollingThread minimumPollingThreads = 0 ↔
      n = 0 ∧ minimumPollingThreads = 0 := by
  have hc := ceil_div n maximumEventsPerPollingThread hmax
  have hdm := Nat.div_add_mod n maximumEventsPerPollingThread
  unfold specGroups
  constructor
  · intro h
    have h1 : (n + maximumEventsPerPollingThread - 1) / maximumEventsPerPollingThread = 0 :=
      Nat.eq_zero_of_le_zero (le_of_le_of_eq (le_max_left _ _) h)
    have h2 : minimumPollingThreads = 0 :=
      Nat.eq_zero_of_le_zero (le_of_le_of_eq (le_max_right _ _) h)
    rw [h1] at hc
    have h3 : n / maximumEventsPerPollingThread = 0 :=
      Nat.eq_zero_of_le_zero (le_of_le_of_eq (Nat.le_add_right _ _) hc)
    have h5 : (if n % maximumEventsPerPollingThread > 0 then 1 else 0) = 0 :=
      Nat.eq_zero_of_le_zero (le_of_le_of_eq (Nat.le_add_left _ _) hc)
    have h4 : n % maximumEventsPerPollingThread = 0 := by
      by_contra hne
      rw [if_pos (Nat.pos_of_ne_zero hne)] at h5
      exact absurd h5 (by decide)
    rw [h3, h4] at hdm
    exact ⟨by omega, h2⟩
  · rintro ⟨rfl, rfl⟩
    have : (0 + maximumEventsPerPollingThread - 1) / maximumEventsPerPollingThread = 0 :=
      Nat.div_eq_of_lt (by omega)
    rw [this]
    rfl

theorem redistribute_division_by_zero (p : VWSAEventProducer) (os : UpdateOS)
    (hn : p.sessions.length < 2147483648)
    (hmax2 : p.maximumEventsPerPollingThread < 2147483648)
    (hmin2 : p.minimumPollingThreads < 2147483648) :
    (p.redistribute os).1 = some ProducerError.DivisionByZero ↔
      ¬ (1 ≤ p.maximumEventsPerPollingThread ∧
        (1 ≤ p.minimumPollingThreads ∨ 1 ≤ p.sessions.length)) := by
  unfold VWSAEventProducer.redistribute
  simp only
  rw [int32_natCast _ hn]
  by_cases hmax : p.maximumEventsPerPollingThread = 0
  · have hr : VWSAEventProducer.requiredSocketGroups (p.sessions.length : Int)
        p.maximumEventsPerPollingThread p.minimumPollingThreads = none := by
      unfold VWSAEventProducer.requiredSocketGroups
      rw [hmax, int32_natCast 0 (by decide), Nat.cast_zero, std_div_zero]
    rw [hr]
    simp only [true_iff]
    omega
  · have hpos : 0 < p.maximumEventsPerPollingThread := Nat.pos_of_ne_zero hmax
    have hg2 : specGroups p.sessions.length p.maximumEventsPerPollingThread
        p.minimumPollingThreads < 2147483648 := by
      have := ceil_div_le p.sessions.length p.maximumEventsPerPollingThread hpos
      unfold specGroups
      omega
    have hz := specGroups_eq_zero_iff p.sessions.length p.maximumEventsPerPollingThread
      p.minimumPollingThreads hpos
    rw [requiredSocketGroups_spec _ _ _ hn hpos hmax2]
    simp only
    rw [int32_natCast _ hg2]
    by_cases hg : specGroups p.sessions.length p.maximumEventsPerPollingThread
        p.minimumPollingThreads = 0
    · rw [hg, Nat.cast_zero, std_div_zero]
      simp only [true_iff]
      have := hz.1 hg
      omega
    · rw [std_div_natCast _ _ (Nat.pos_of_ne_zero hg)]
      simp only
      have hnz : ¬ (p.sessions.length = 0 ∧ p.minimumPollingThreads = 0) := fun h => hg (hz.2 h)
      constructor
      · intro h
        rcases createThreads_error _ os.threadCreated _ _ _ with h' | h'
        · rw [h'] at h; exact absurd h (by simp)
        · rw [h'] at h; exact absurd h (by simp)
      · intro h
        exact absurd ⟨by omega, by omega⟩ h

theorem StdMap.find_assign {κ β : Type} [LinearOrder κ] (m : StdMap κ β) (k k' : κ) (v : β) :
    StdMap.find (StdMap.assign m k v) k' = if k' = k then some v else StdMap.find m k' := by
  by_cases hk : k' = k
  · rw [if_pos hk, hk]
    exact StdMap.find_assign_self m k v
  · rw [if_neg hk]
    have hk' : ¬ k = k' := fun h => hk h.symm
    induction m with
    | nil => simp [StdMap.assign, StdMap.find, hk']
    | cons e rest ih =>
      unfold StdMap.assign
      by_cases h1 : k < e.1
      · simp [h1, StdMap.find, hk']
      · by_cases h2 : k = e.1
        · have h3 : ¬ e.1 = k' := fun h => hk' (h2.trans h)
          simp [h1, h2, StdMap.find, h3]
        · simp [h1, h2, StdMap.find, ih]

theorem StdMap.find_erase_ne {κ β : Type} [LinearOrder κ] (m : StdMap κ β) (k k' : κ)
    (h : k' ≠ k) : StdMap.find (StdMap.erase m k) k' = StdMap.find m k' := by
  induction m with
  | nil => rfl
  | cons e rest ih =>
    unfold StdMap.erase
    by_cases h1 : e.1 = k
    · have h2 : ¬ e.1 = k' := fun h3 => h (h3.symm.trans h1)
      simp [h1, StdMap.find, h2]
      rw [if_neg (fun h4 => h h4.symm)]
    · simp [h1, StdMap.find, ih]

theorem StdMap.find_none_of_not_mem_keys {κ β : Type} [LinearOrder κ] (m : StdMap κ β) (k : κ)
    (h : k ∉ m.map Prod.fst) : StdMap.find m k = none := by
  induction m with
  | nil => rfl
  | cons e rest ih =>
    simp only [List.map_cons, List.mem_cons, not_or] at h
    unfold StdMap.find
    rw [if_neg (fun h1 => h.1 h1.symm)]
    exact ih h.2

theorem StdMap.find_erase_self {κ β : Type} [LinearOrder κ] (m : StdMap κ β) (k : κ)
    (hkeys : (m.map Prod.fst).Nodup) : StdMap.find (StdMap.erase m k) k = none := by
  induction m with
  | nil => rfl
  | cons e rest ih =>
    simp only [List.map_cons, List.nodup_cons] at hkeys
    unfold StdMap.erase
    by_cases h1 : e.1 = k
    · rw [if_pos h1]
      exact StdMap.find_none_of_not_mem_keys rest k (h1 ▸ hkeys.1)
    · rw [if_neg h1]
      unfold StdMap.find
      rw [if_neg h1]
      exact ih hkeys.2

theorem StdMap.erase_sublist {κ β : Type} [LinearOrder κ] (m : StdMap κ β) (k : κ) :
    List.Sublist (StdMap.erase m k) m := by
  induction m with
  | nil => exact List.Sublist.refl _
  | cons e rest ih =>
    unfold StdMap.erase
    by_cases h1 : e.1 = k
    · rw [if_pos h1]
      exact List.sublist_cons_self e rest
    · rw [if_neg h1]
      exact ih.cons₂ e

theorem StdMap.erase_of_find_none {κ β : Type} [LinearOrder κ] (m : StdMap κ β) (k : κ)
    (h : StdMap.find m k = none) : StdMap.erase m k = m := by
  induction m with
  | nil => rfl
  | cons e rest ih =>
    unfold StdMap.find at h
    by_cases h1 : e.1 = k
    · rw [if_pos h1] at h
      exact absurd h (by simp)
    · rw [if_neg h1] at h
      unfold StdMap.erase
      rw [if_neg h1, ih h]

theorem eraseClosed_find (heap : SessionHeap) (closedSessions : List SessionPtr) :
    ∀ (sessions : StdMap Int SessionPtr), (sessions.map Prod.fst).Nodup →
      ∀ fd, (VEventProducer.eraseClosed heap sessions closedSessions).find fd =
        if fd ∈ closedSessions.map (fun c => (heap c).socket) then none
        else sessions.find fd := by
  induction closedSessions with
  | nil =>
    intro sessions _ fd
    simp [VEventProducer.eraseClosed]
  | cons c rest ih =>
    intro sessions hkeys fd
    have hsub : ((StdMap.erase sessions (heap c).socket).map Prod.fst).Nodup :=
      hkeys.sublist ((StdMap.erase_sublist sessions (heap c).socket).map Prod.fst)
    unfold VEventProducer.eraseClosed
    rw [ih _ hsub fd]
    by_cases h1 : fd = (heap c).socket
    · subst h1
      rw [StdMap.find_erase_self _ _ hkeys]
      simp
    · rw [StdMap.find_erase_ne _ _ _ h1]
      simp [h1]

theorem addNew_find (heap : SessionHeap) (addAccepted : Int → Bool)
    (newSessions : List SessionPtr) :
    ∀ (st : StdMap Int SessionPtr × EpollInterest) (fd : Int),
      (VEventProducer.addNew heap addAccepted st newSessions).1.find fd =
        match st.1.find fd with
        | some v => some v
        | none => newSessions.find? (fun s => decide ((heap s).socket = fd)) := by
  induction newSessions with
  | nil =>
    intro st fd
    unfold VEventProducer.addNew
    cases st.1.find fd <;> rfl
  | cons s rest ih =>
    intro st fd
    unfold VEventProducer.addNew
    unfold StdMap.emplace
    cases hs : st.1.find (heap s).socket with
    | some v =>
      simp only [Bool.not_false, if_true]
      rw [ih]
      simp only
      cases hfd : st.1.find fd with
      | some w => rfl
      | none =>
        have hne : ¬ (heap s).socket = fd := by
          intro h
          rw [h] at hs
          rw [hs] at hfd
          exact absurd hfd (by simp)
        simp [List.find?, hne]
    | none =>
      simp only [Bool.not_true, Bool.false_eq_true, if_false]
      rw [ih]
      simp only
      rw [StdMap.find_assign]
      by_cases hfd : fd = (heap s).socket
      · subst hfd
        rw [if_pos rfl, hs]
        simp [List.find?]
      · rw [if_neg hfd]
        have hne : ¬ (heap s).socket = fd := fun h => hfd h.symm
        cases st.1.find fd with
        | some w => rfl
        | none => simp [List.find?, hne]

theorem epoll_updateSessions_started (p : VEventProducer) (heap : SessionHeap)
    (newSessions closedSessions : List SessionPtr) (addAccepted : Int → Bool)
    (hstarted : p.Started = true) :
    (p.UpdateSessions heap newSessions closedSessions addAccepted).1 = none ∧
    (p.UpdateSessions heap newSessions closedSessions addAccepted).2.sessions =
      (VEventProducer.addNew heap addAccepted
        (VEventProducer.eraseClosed heap p.sessions closedSessions, p.epollInterest)
        newSessions).1 ∧
    (p.UpdateSessions heap newSessions closedSessions addAccepted).2.epollInterest =
      (VEventProducer.addNew heap addAccepted
        (VEventProducer.eraseClosed heap p.sessions closedSessions, p.epollInterest)
        newSessions).2 := by
  simp only [VEventProducer.Started, Bool.and_eq_true, Bool.not_eq_true'] at hstarted
  unfold VEventProducer.UpdateSessions
  simp only [hstarted.1, hstarted.2, Bool.not_true, Bool.false_eq_true, if_false]
  exact ⟨trivial, trivial, trivial⟩

theorem addNew_registry (heap : SessionHeap) (a a' : Int → Bool) (newSessions : List SessionPtr) :
    ∀ (st st' : StdMap Int SessionPtr × EpollInterest), st.1 = st'.1 →
      (VEventProducer.addNew heap a st newSessions).1 =
        (VEventProducer.addNew heap a' st' newSessions).1 := by
  induction newSessions with
  | nil =>
    intro st st' h
    unfold VEventProducer.addNew
    exact h
  | cons s rest ih =>
    intro st st' h
    unfold VEventProducer.addNew
    rw [← h]
    dsimp only
    split
    · exact ih _ _ rfl
    · exact ih _ _ rfl

/-- C24 (as stated, refuted): on a started producer on which session 100 is
registered under the descriptor 5, an `UpdateSessions` whose new list holds the
session 200 with the same descriptor completes and leaves session 100 under
the descriptor 5; session 200 is not in the registry. -/
theorem C24_taken_descriptor_is_not_replaced :
    exampleProducer.Started = true ∧
    (reusedDescriptor 200).socket = 5 ∧
    (exampleProducer.UpdateSessions reusedDescriptor [200] [] (fun _ => true)).1 = none ∧
    (exampleProducer.UpdateSessions reusedDescriptor [200] []
        (fun _ => true)).2.sessions.find 5 = some 100 ∧
    (exampleProducer.UpdateSessions reusedDescriptor [200] []
        (fun _ => true)).2.sessions = [(5, 100), (6, 101)] := by
  decide

/-- C24 (amended): on a started readiness-API producer, after `UpdateSessions`
the session found under a descriptor is the one that was registered under it
after the removals of the call, or else the first session of the new list with
that descriptor, whether or not the operating system accepts the add. So a
session of the new list whose descriptor is free after the removals, and is not
the descriptor of an earlier session of the list, is found under its
descriptor; under the descriptor of every session of the new list some session
is registered; and the registry does not depend on the outcome of the adds. -/
theorem C24_new_sessions_registered (p : VEventProducer) (heap : SessionHeap)
    (newSessions closedSessions : List SessionPtr) (addAccepted : Int → Bool)
    (hstarted : p.Started = true) :
    (∀ fd, (p.UpdateSessions heap newSessions closedSessions addAccepted).2.sessions.find fd =
      match (VEventProducer.eraseClosed heap p.sessions closedSessions).find fd with
      | some registered => some registered
      | none => newSessions.find? (fun s => decide ((heap s).socket = fd))) ∧
    (∀ s ∈ newSessions,
      (VEventProducer.eraseClosed heap p.sessions closedSessions).find (heap s).socket = none →
      newSessions.find? (fun s' => decide ((heap s').socket = (heap s).socket)) = some s →
      (p.UpdateSessions heap newSessions closedSessions addAccepted).2.sessions.find
        (heap s).socket = some s) ∧
    (∀ s ∈ newSessions,
      ((p.UpdateSessions heap newSessions closedSessions addAccepted).2.sessions.find
        (heap s).socket).isSome = true) ∧
    (∀ otherAnswers : Int → Bool,
      (p.UpdateSessions heap newSessions closedSessions otherAnswers).2.sessions =
        (p.UpdateSessions heap newSessions closedSessions addAccepted).2.sessions) := by
  obtain ⟨-, hreg, -⟩ :=
    epoll_updateSessions_started p heap newSessions closedSessions addAccepted hstarted
  have hfind : ∀ fd,
      (p.UpdateSessions heap newSessions closedSessions addAccepted).2.sessions.find fd =
      match (VEventProducer.eraseClosed heap p.sessions closedSessions).find fd with
      | some registered => some registered
      | none => newSessions.find? (fun s => decide ((heap s).socket = fd)) := by
    intro fd
    rw [hreg, addNew_find]
  refine ⟨hfind, ?_, ?_, ?_⟩
  · intro s _ hfree hfirst
    rw [hfind, hfree]
    exact hfirst
  · intro s hs
    rw [hfind]
    cases (VEventProducer.eraseClosed heap p.sessions closedSessions).find (heap s).socket with
    | some v => rfl
    | none =>
      simp only
      rw [List.find?_isSome]
      exact ⟨s, hs, by simp⟩
  · intro otherAnswers
    obtain ⟨-, hreg', -⟩ :=
      epoll_updateSessions_started p heap newSessions closedSessions otherAnswers hstarted
    rw [hreg, hreg']
    exact addNew_registry heap _ _ newSessions _ _ rfl

/-- C24 (amended, an instance): the new session 102 with the free descriptor 7 is
registered although the operating system refuses every add. -/
theorem C24_new_sessions_registered_witness :
    (exampleProducer.UpdateSessions allConnected [102] [] (fun _ => false)).2.sessions.find 7 =
      some 102 :=
  (C24_new_sessions_registered exampleProducer allConnected [102] [] (fun _ => false)
    (by decide)).2.1 102 (by decide) (by decide) (by decide)

/-- C28: on a started readiness-API producer (whose registry holds one entry a
descriptor), `UpdateSessions` completes, and its registry is the result of the
insertions applied to the registry left by all the removals. After the removals
no session is found under the descriptor of a session of the closed list,
whatever the UUIDs are, and every other descriptor holds what it held; a removal
under a descriptor that is not registered changes nothing. A session of the new
list whose descriptor is the descriptor of a closed session is therefore
inserted. -/
theorem C28_removal_by_descriptor (p : VEventProducer) (heap : SessionHeap)
    (newSessions closedSessions : List SessionPtr) (addAccepted : Int → Bool)
    (hstarted : p.Started = true) (hkeys : (p.sessions.map Prod.fst).Nodup) :
    (p.UpdateSessions heap newSessions closedSessions addAccepted).1 = none ∧
    (p.UpdateSessions heap newSessions closedSessions addAccepted).2.sessions =
      (VEventProducer.addNew heap addAccepted
        (VEventProducer.eraseClosed heap p.sessions closedSessions, p.epollInterest)
        newSessions).1 ∧
    (∀ fd, (VEventProducer.eraseClosed heap p.sessions closedSessions).find fd =
      if fd ∈ closedSessions.map (fun c => (heap c).socket) then none
      else p.sessions.find fd) ∧
    (∀ (sessions : StdMap Int SessionPtr) (fd : Int), sessions.find fd = none →
      sessions.erase fd = sessions) ∧
    (∀ s, newSessions.find? (fun s' => decide ((heap s').socket = (heap s).socket)) = some s →
      (heap s).socket ∈ closedSessions.map (fun c => (heap c).socket) →
      (p.UpdateSessions heap newSessions closedSessions addAccepted).2.sessions.find
        (heap s).socket = some s) := by
  obtain ⟨hnone, hreg, -⟩ :=
    epoll_updateSessions_started p heap newSessions closedSessions addAccepted hstarted
  have herase := eraseClosed_find heap closedSessions p.sessions hkeys
  refine ⟨hnone, hreg, herase, fun sessions fd h => StdMap.erase_of_find_none sessions fd h, ?_⟩
  intro s hfirst hclosed
  rw [hreg, addNew_find]
  simp only
  rw [herase, if_pos hclosed]
  exact hfirst

/-- C28 (an instance): session 200 has the descriptor 5 of the registered session
100 and another UUID; passed in the closed list it removes session 100, and
passed in the new list of the same call as well it is registered under 5. -/
theorem C28_removal_by_descriptor_witness :
    ((exampleProducer.UpdateSessions reusedDescriptor [] [200] (fun _ => true)).2.sessions =
      [(6, 101)]) ∧
    ((exampleProducer.UpdateSessions reusedDescriptor [200] [200]
      (fun _ => true)).2.sessions.find 5 = some 200) :=
  ⟨by decide,
    (C28_removal_by_descriptor exampleProducer reusedDescriptor [200] [200] (fun _ => true)
      (by decide) (by decide)).2.2.2.2 200 (by decide) (by decide)⟩

theorem handleEvent_cases (inSessions : StdMap Int SessionPtr) (st : ListenState)
    (event : EPOLL_EVENT) (session : SessionPtr)
    (hfind : inSessions.find event.fd = some session) :
    VEventProducer.handleEvent inSessions st event =
      if (decide (event.events &&& EPOLLRDHUP ≠ 0) || decide (event.events &&& EPOLLHUP ≠ 0)) then
        some { heap := st.heap.SetAsDisconnected session,
               epollInterest := (epoll_ctl_del st.epollInterest event.fd).2,
               readingSessions := st.readingSessions,
               closedSessions := st.closedSessions ++ [session] }
      else if event.events &&& EPOLLIN ≠ 0 then
        some { st with readingSessions := st.readingSessions ++ [session] }
      else some st := by
  unfold VEventProducer.handleEvent
  rw [hfind]

theorem handleEvent_fold (inSessions : StdMap Int SessionPtr) (events : List EPOLL_EVENT) :
    ∀ (st st' : ListenState),
      events.foldlM (VEventProducer.handleEvent inSessions) st = some st' →
      st'.closedSessions = st.closedSessions ++
        (events.filter (fun e =>
          decide (e.events &&& EPOLLRDHUP ≠ 0) || decide (e.events &&& EPOLLHUP ≠ 0))).filterMap
          (fun e => inSessions.find e.fd) ∧
      st'.readingSessions = st.readingSessions ++
        (events.filter (fun e =>
          !(decide (e.events &&& EPOLLRDHUP ≠ 0) || decide (e.events &&& EPOLLHUP ≠ 0)) &&
            decide (e.events &&& EPOLLIN ≠ 0))).filterMap
          (fun e => inSessions.find e.fd) := by
  induction events with
  | nil =>
    intro st st' h
    simp only [List.foldlM_nil, Option.pure_def, Option.some.injEq] at h
    subst h
    simp
  | cons e rest ih =>
    intro st st' h
    rw [List.foldlM_cons] at h
    cases hstep : VEventProducer.handleEvent inSessions st e with
    | none =>
      rw [hstep] at h
      exact absurd h (by simp)
    | some st1 =>
      rw [hstep] at h
      simp only [Option.bind_eq_bind, Option.some_bind] at h
      obtain ⟨i1, i2⟩ := ih st1 st' h
      unfold VEventProducer.handleEvent at hstep
      by_cases hh : (decide (e.events &&& EPOLLRDHUP ≠ 0) ||
          decide (e.events &&& EPOLLHUP ≠ 0)) = true
      · rw [if_pos hh] at hstep
        cases hf : inSessions.find e.fd with
        | none =>
          rw [hf] at hstep
          exact absurd hstep (by simp)
        | some session =>
          rw [hf] at hstep
          simp only [Option.some.injEq] at hstep
          subst hstep
          rw [i1, i2]
          have hnot : ¬ ((!(decide (e.events &&& EPOLLRDHUP ≠ 0) ||
              decide (e.events &&& EPOLLHUP ≠ 0)) &&
              decide (e.events &&& EPOLLIN ≠ 0)) = true) := by
            rw [hh]
            simp
          rw [List.filter_cons_of_pos (p := fun (e : EPOLL_EVENT) =>
              decide (e.events &&& EPOLLRDHUP ≠ 0) || decide (e.events &&& EPOLLHUP ≠ 0)) hh,
            List.filter_cons_of_neg (p := fun (e : EPOLL_EVENT) =>
              !(decide (e.events &&& EPOLLRDHUP ≠ 0) || decide (e.events &&& EPOLLHUP ≠ 0)) &&
                decide (e.events &&& EPOLLIN ≠ 0)) hnot,
            List.filterMap_cons_some (f := fun (e : EPOLL_EVENT) => inSessions.find e.fd) hf]
          exact ⟨by rw [List.append_assoc]; rfl, rfl⟩
      · rw [if_neg hh] at hstep
        by_cases hr : e.events &&& EPOLLIN ≠ 0
        · rw [if_pos hr] at hstep
          cases hf : inSessions.find e.fd with
          | none =>
            rw [hf] at hstep
            exact absurd hstep (by simp)
          | some session =>
            rw [hf] at hstep
            simp only [Option.some.injEq] at hstep
            subst hstep
            rw [i1, i2]
            have hpos : (!(decide (e.events &&& EPOLLRDHUP ≠ 0) ||
                decide (e.events &&& EPOLLHUP ≠ 0)) &&
                decide (e.events &&& EPOLLIN ≠ 0)) = true := by
              rw [Bool.not_eq_true] at hh
              rw [hh]
              simpa using hr
            rw [List.filter_cons_of_neg (p := fun (e : EPOLL_EVENT) =>
              decide (e.events &&& EPOLLRDHUP ≠ 0) || decide (e.events &&& EPOLLHUP ≠ 0)) hh,
              List.filter_cons_of_pos (p := fun (e : EPOLL_EVENT) =>
              !(decide (e.events &&& EPOLLRDHUP ≠ 0) || decide (e.events &&& EPOLLHUP ≠ 0)) &&
                decide (e.events &&& EPOLLIN ≠ 0)) hpos,
              List.filterMap_cons_some (f := fun (e : EPOLL_EVENT) => inSessions.find e.fd) hf]
            exact ⟨rfl, by rw [List.append_assoc]; rfl⟩
        · rw [if_neg hr] at hstep
          simp only [Option.some.injEq] at hstep
          subst hstep
          rw [i1, i2]
          have hnot : ¬ ((!(decide (e.events &&& EPOLLRDHUP ≠ 0) ||
              decide (e.events &&& EPOLLHUP ≠ 0)) &&
              decide (e.events &&& EPOLLIN ≠ 0)) = true) := by
            rw [Bool.not_eq_true] at hh
            rw [hh]
            simpa using hr
          rw [List.filter_cons_of_neg (p := fun (e : EPOLL_EVENT) =>
              decide (e.events &&& EPOLLRDHUP ≠ 0) || decide (e.events &&& EPOLLHUP ≠ 0)) hh,
            List.filter_cons_of_neg (p := fun (e : EPOLL_EVENT) =>
              !(decide (e.events &&& EPOLLRDHUP ≠ 0) || decide (e.events &&& EPOLLHUP ≠ 0)) &&
                decide (e.events &&& EPOLLIN ≠ 0)) hnot]
          exact ⟨rfl, rfl⟩

/-- C22 (as stated, refuted): in a pass over the one `Connected` session 100 for
which `WSAEnumNetworkEvents` reports `FD_READ | FD_CLOSE`, the session is put in
the readable batch; it is not set to `Disconnected` and no closed batch is
raised. -/
theorem C22_close_with_read_is_not_closed :
    (FD_READ ||| FD_CLOSE = 33) ∧
    (allConnected 100).connectionState = SessionConnectionState.Connected ∧
    (VWSAEventProducer.processEvents allConnected [100] 1 (fun _ => probeOf 33)).2 =
      [{ eventType := CommEventType.Read, sessions := [100] }] ∧
    ((VWSAEventProducer.processEvents allConnected [100] 1 (fun _ => probeOf 33)).1
      100).connectionState = SessionConnectionState.Connected := by
  decide

theorem examineIndex_closed_grows (localSessions : List SessionPtr) (os : Nat → SocketProbe)
    (indices : List Nat) :
    ∀ (st : ProcessingState) (s : SessionPtr), s ∈ st.closedSessions →
      s ∈ (indices.foldl (VWSAEventProducer.examineIndex localSessions os) st).closedSessions := by
  induction indices with
  | nil => intro st s h; exact h
  | cons i rest ih =>
    intro st s h
    rw [List.foldl_cons]
    apply ih
    rcases examineIndex_cases localSessions os st i with h1 | ⟨_, _, _, _, h1⟩ | ⟨_, _, _, _, h1⟩
    · rw [h1.2.2]; exact h
    · rw [h1]; exact h
    · rw [h1]; exact List.mem_append_left _ h

/-- C22 (amended): in an event-array polling pass, an examined session that is
`Connected` is set to `Disconnected` and appended to the closed batch of the
pass, and to that batch only, when its socket is invalid, when
`WSAEnumNetworkEvents` reports that it is not a socket, or when the enumerated
network events include `FD_CLOSE` and not `FD_READ`. When they include `FD_READ`
the session is handled as readable, whatever `FD_CLOSE` is: it stays `Connected`
and is not appended to the closed batch. What is appended to the closed batch
stays in it to the end of the pass, and a closed batch that is not empty is
raised. -/
theorem C22_close_without_read (localSessions : List SessionPtr) (os : Nat → SocketProbe)
    (st : ProcessingState) (index : Nat) (session : SessionPtr)
    (hsession : localSessions.get? (index - 1) = some session)
    (hwait : (os index).waitFailed = false)
    (hconn : (st.heap session).connectionState = SessionConnectionState.Connected) :
    (((st.heap session).socket = INVALID_SOCKET ∨
        ((st.heap session).socket ≠ INVALID_SOCKET ∧ (os index).enumResult = SOCKET_ERROR ∧
          (os index).lastError = WSAENOTSOCK) ∨
        ((st.heap session).socket ≠ INVALID_SOCKET ∧ (os index).enumResult ≠ SOCKET_ERROR ∧
          (os index).networkEvents.lNetworkEvents &&& FD_CLOSE ≠ 0 ∧
          (os index).networkEvents.lNetworkEvents &&& FD_READ = 0)) →
      (VWSAEventProducer.examineIndex localSessions os st index).heap =
        st.heap.SetAsDisconnected session ∧
      (VWSAEventProducer.examineIndex localSessions os st index).closedSessions =
        st.closedSessions ++ [session] ∧
      (VWSAEventProducer.examineIndex localSessions os st index).readingSessions =
        st.readingSessions ∧
      ((VWSAEventProducer.examineIndex localSessions os st index).heap
        session).connectionState = SessionConnectionState.Disconnected) ∧
    (((st.heap session).socket ≠ INVALID_SOCKET ∧ (os index).enumResult ≠ SOCKET_ERROR ∧
        (os index).networkEvents.lNetworkEvents &&& FD_READ ≠ 0) →
      (VWSAEventProducer.examineIndex localSessions os st index).heap = st.heap ∧
      (VWSAEventProducer.examineIndex localSessions os st index).closedSessions =
        st.closedSessions) ∧
    (∀ (indices : List Nat) (s : SessionPtr),
      s ∈ (VWSAEventProducer.examineIndex localSessions os st index).closedSessions →
      s ∈ (indices.foldl (VWSAEventProducer.examineIndex localSessions os)
        (VWSAEventProducer.examineIndex localSessions os st index)).closedSessions) ∧
    (∀ readingSessions closedSessions : List SessionPtr, closedSessions.length > 0 →
      { eventType := CommEventType.Close, sessions := closedSessions } ∈
        raiseBatches readingSessions closedSessions) := by
  have hc : ¬ ((st.heap session).ConnectionState ≠ SessionConnectionState.Connected) :=
    fun h => h hconn
  have hdis : ((st.heap.SetAsDisconnected session) session).connectionState =
      SessionConnectionState.Disconnected := by
    rw [heap_setAsDisconnected_apply, if_pos rfl, if_pos hconn]
  refine ⟨?_, ?_, ?_, ?_⟩
  · intro hclose
    unfold VWSAEventProducer.examineIndex
    rw [hsession]
    simp only [hwait, Bool.false_eq_true, if_false, if_neg hc]
    rcases hclose with h1 | ⟨h1, h2, h3⟩ | ⟨h1, h2, h3, h4⟩
    · simp only [h1, decide_True, Bool.not_true, Bool.false_eq_true, if_false, Bool.false_and,
        Bool.true_or, if_true]
      exact ⟨trivial, trivial, trivial, hdis⟩
    · simp only [h1, h2, h3, decide_False, Bool.not_false, if_true, ne_eq, not_true_eq_false,
        if_false, Bool.not_true, Bool.false_and, Bool.false_eq_true, Bool.true_or]
      exact ⟨trivial, trivial, trivial, hdis⟩
    · simp only [h1, h2, h3, h4, decide_False, Bool.not_false, if_true, if_false, ne_eq,
        not_true_eq_false, not_false_eq_true, decide_True, Bool.true_and, Bool.false_eq_true,
        Bool.or_true, Bool.false_or]
      exact ⟨trivial, trivial, trivial, hdis⟩
  · rintro ⟨h1, h2, h3⟩
    unfold VWSAEventProducer.examineIndex
    rw [hsession]
    simp only [hwait, Bool.false_eq_true, if_false, if_neg hc]
    simp only [h1, h2, h3, decide_False, Bool.not_false, if_true, if_false, ne_eq,
      not_false_eq_true, decide_True, Bool.true_and]
    split <;> exact ⟨rfl, rfl⟩
  · intro indices s hs
    exact examineIndex_closed_grows localSessions os indices _ s hs
  · intro readingSessions closedSessions hlen
    unfold raiseBatches
    rw [if_pos hlen]
    exact List.mem_append_right _ (List.mem_singleton.mpr rfl)

/-- C22 (amended, an instance): the `Connected` session 100 for which
`WSAEnumNetworkEvents` reports `FD_CLOSE` alone is appended to the closed
batch. -/
theorem C22_close_without_read_witness :
    (VWSAEventProducer.examineIndex [100] (fun _ => probeOf 32)
      { heap := allConnected, networkEvents := { lNetworkEvents := 0, iErrorCode := fun _ => 0 },
        readingSessions := [], closedSessions := [] } 1).closedSessions = [100] :=
  ((C22_close_without_read [100] (fun _ => probeOf 32)
    { heap := allConnected, networkEvents := { lNetworkEvents := 0, iErrorCode := fun _ => 0 },
      readingSessions := [], closedSessions := [] } 1 100 (by decide) (by decide)
    (by decide)).1
    (Or.inr (Or.inr ⟨by decide, by decide, by decide, by decide⟩))).2.1

/-- C25 (as stated, refuted): the handler with UUID 2 is subscribed first and
the handler with UUID 1 second; both are alive, and `RaiseReadEvent` and
`RaiseClosedEvent` call the handler with UUID 1 first. -/
theorem C25_fan_out_is_not_in_insertion_order :
    ((((VCommSessionEventProducer.create.SubscribeToReadEvents
          { address := 1, id := 2 }).2.SubscribeToReadEvents
          { address := 2, id := 1 }).2.RaiseReadEvent (fun _ => true) [100]).2 =
      [(({ address := 2, id := 1 } : VCommSessionEventHandler), [100]),
       (({ address := 1, id := 2 } : VCommSessionEventHandler), [100])]) ∧
    ((((VCommSessionEventProducer.create.SubscribeToClosedEvents
          { address := 1, id := 2 }).2.SubscribeToClosedEvents
          { address := 2, id := 1 }).2.RaiseClosedEvent (fun _ => true) [100]).2 =
      [(({ address := 2, id := 1 } : VCommSessionEventHandler), [100]),
       (({ address := 1, id := 2 } : VCommSessionEventHandler), [100])]) := by
  decide

theorem StdMap.mem_assign {κ β : Type} [LinearOrder κ] (m : StdMap κ β) (k : κ) (v : β)
    (x : κ × β) (h : x ∈ StdMap.assign m k v) : x = (k, v) ∨ x ∈ m := by
  induction m with
  | nil =>
    unfold StdMap.assign at h
    exact Or.inl (List.mem_singleton.mp h)
  | cons e rest ih =>
    unfold StdMap.assign at h
    by_cases h1 : k < e.1
    · rw [if_pos h1] at h
      rcases List.mem_cons.mp h with h | h
      · exact Or.inl h
      · exact Or.inr h
    · rw [if_neg h1] at h
      by_cases h2 : k = e.1
      · rw [if_pos h2] at h
        rcases List.mem_cons.mp h with h | h
        · exact Or.inl h
        · exact Or.inr (List.mem_cons_of_mem _ h)
      · rw [if_neg h2] at h
        rcases List.mem_cons.mp h with h | h
        · exact Or.inr (h ▸ List.mem_cons_self _ _)
        · rcases ih h with h | h
          · exact Or.inl h
          · exact Or.inr (List.mem_cons_of_mem _ h)

theorem StdMap.assign_pairwise {κ β : Type} [LinearOrder κ] (m : StdMap κ β) (k : κ) (v : β)
    (hm : m.Pairwise (fun a b => a.1 < b.1)) :
    (StdMap.assign m k v).Pairwise (fun a b => a.1 < b.1) := by
  induction m with
  | nil =>
    unfold StdMap.assign
    exact List.pairwise_singleton _ _
  | cons e rest ih =>
    rw [List.pairwise_cons] at hm
    unfold StdMap.assign
    by_cases h1 : k < e.1
    · rw [if_pos h1, List.pairwise_cons]
      refine ⟨?_, List.pairwise_cons.mpr hm⟩
      intro x hx
      rcases List.mem_cons.mp hx with hx | hx
      · rw [hx]; exact h1
      · exact lt_trans h1 (hm.1 x hx)
    · rw [if_neg h1]
      by_cases h2 : k = e.1
      · rw [if_pos h2, List.pairwise_cons]
        refine ⟨?_, hm.2⟩
        intro x hx
        rw [h2]
        exact hm.1 x hx
      · rw [if_neg h2, List.pairwise_cons]
        refine ⟨?_, ih hm.2⟩
        intro x hx
        rcases StdMap.mem_assign rest k v x hx with hx | hx
        · rw [hx]
          exact lt_of_le_of_ne (not_lt.mp h1) (fun h => h2 h.symm)
        · exact hm.1 x hx

theorem subscribersOrdered_assign (m : StdMap Nat VCommSessionEventHandler)
    (handler : VCommSessionEventHandler) (hm : SubscribersOrdered m) :
    SubscribersOrdered (m.assign handler.HandlerId handler) := by
  refine ⟨StdMap.assign_pairwise m _ _ hm.1, ?_⟩
  intro e he
  rcases StdMap.mem_assign m _ _ e he with h | h
  · rw [h]; rfl
  · exact hm.2 e h

theorem subscribersOrdered_sublist (m m' : StdMap Nat VCommSessionEventHandler)
    (hsub : List.Sublist m' m) (hm : SubscribersOrdered m) : SubscribersOrdered m' :=
  ⟨hm.1.sublist hsub, fun e he => hm.2 e (hsub.subset he)⟩

theorem subscribersOrdered_apply (c : SubscriberCall) (p : VCommSessionEventProducer)
    (h : SubscribersOrdered p.readEventHandlers ∧ SubscribersOrdered p.closedEventHandlers) :
    SubscribersOrdered (c.apply p).readEventHandlers ∧
      SubscribersOrdered (c.apply p).closedEventHandlers := by
  cases c with
  | SubscribeToReadEvents handler =>
    unfold SubscriberCall.apply VCommSessionEventProducer.SubscribeToReadEvents
    dsimp only
    split
    · exact ⟨subscribersOrdered_assign _ handler h.1, h.2⟩
    · exact h
  | UnsubscribeFromReadEvents handler =>
    unfold SubscriberCall.apply VCommSessionEventProducer.UnsubscribeFromReadEvents
    dsimp only
    split
    · exact ⟨subscribersOrdered_sublist _ _ (StdMap.erase_sublist _ _) h.1, h.2⟩
    · exact h
  | SubscribeToClosedEvents handler =>
    unfold SubscriberCall.apply VCommSessionEventProducer.SubscribeToClosedEvents
    dsimp only
    split
    · exact ⟨h.1, subscribersOrdered_assign _ handler h.2⟩
    · exact h
  | UnsubscribeFromClosedEvents handler =>
    unfold SubscriberCall.apply VCommSessionEventProducer.UnsubscribeFromClosedEvents
    dsimp only
    split
    · exact ⟨h.1, subscribersOrdered_sublist _ _ (StdMap.erase_sublist _ _) h.2⟩
    · exact h
  | RaiseReadEvent alive eventArgs =>
    unfold SubscriberCall.apply VCommSessionEventProducer.RaiseReadEvent
    dsimp only
    rw [collectHandlers_eq]
    exact ⟨subscribersOrdered_sublist _ _ (List.filter_sublist _) h.1, h.2⟩
  | RaiseClosedEvent alive eventArgs =>
    unfold SubscriberCall.apply VCommSessionEventProducer.RaiseClosedEvent
    dsimp only
    rw [collectHandlers_eq]
    exact ⟨h.1, subscribersOrdered_sublist _ _ (List.filter_sublist _) h.2⟩

theorem subscribersOrdered_run (cs : List SubscriberCall) :
    ∀ p : VCommSessionEventProducer,
      SubscribersOrdered p.readEventHandlers ∧ SubscribersOrdered p.closedEventHandlers →
      SubscribersOrdered (runSubscriberCalls p cs).readEventHandlers ∧
        SubscribersOrdered (runSubscriberCalls p cs).closedEventHandlers := by
  induction cs with
  | nil => intro p h; exact h
  | cons c rest ih =>
    intro p h
    unfold runSubscriberCalls
    rw [List.foldl_cons]
    exact ih _ (subscribersOrdered_apply c p h)

theorem fan_out_ordered (alive : VCommSessionEventHandler → Bool) (ev : VCommSessionEvent)
    (m : StdMap Nat VCommSessionEventHandler) (hm : SubscribersOrdered m) :
    ((VCommSessionEventProducer.invokeHandlers alive ev
        (VCommSessionEventProducer.collectHandlers alive m).2).map
      (fun call => call.1.HandlerId)).Pairwise (fun a b => a < b) := by
  rw [fan_out_calls, List.map_map]
  have h1 : (m.map Prod.snd).Pairwise (fun a b => a.id < b.id) := by
    rw [List.pairwise_map]
    refine hm.1.imp_of_mem ?_
    intro a b ha hb hab
    rw [hm.2 a ha, hm.2 b hb]
    exact hab
  rw [List.pairwise_map]
  exact h1.sublist (List.filter_sublist _)

/-- C25 (amended): on a producer reached from its construction by any sequence
of subscribe, unsubscribe and raise calls, `RaiseReadEvent` and
`RaiseClosedEvent` call the subscribed handlers that are alive in strictly
increasing order of their UUIDs, whatever the order of the subscriptions
was. -/
theorem C25_fan_out_in_uuid_order (cs : List SubscriberCall)
    (alive : VCommSessionEventHandler → Bool) (eventArgs : VCommSessionEvent) :
    ((((runSubscriberCalls VCommSessionEventProducer.create cs).RaiseReadEvent alive
        eventArgs).2.map (fun call => call.1.HandlerId)).Pairwise (fun a b => a < b)) ∧
    ((((runSubscriberCalls VCommSessionEventProducer.create cs).RaiseClosedEvent alive
        eventArgs).2.map (fun call => call.1.HandlerId)).Pairwise (fun a b => a < b)) ∧
    ((runSubscriberCalls VCommSessionEventProducer.create cs).RaiseReadEvent alive
        eventArgs).2 =
      (((runSubscriberCalls VCommSessionEventProducer.create cs).readEventHandlers.map
        Prod.snd).filter alive).map (fun h => (h, eventArgs)) ∧
    ((runSubscriberCalls VCommSessionEventProducer.create cs).RaiseClosedEvent alive
        eventArgs).2 =
      (((runSubscriberCalls VCommSessionEventProducer.create cs).closedEventHandlers.map
        Prod.snd).filter alive).map (fun h => (h, eventArgs)) := by
  have hinit : SubscribersOrdered VCommSessionEventProducer.create.readEventHandlers ∧
      SubscribersOrdered VCommSessionEventProducer.create.closedEventHandlers :=
    ⟨⟨List.Pairwise.nil, fun e he => absurd he (List.not_mem_nil _)⟩,
      ⟨List.Pairwise.nil, fun e he => absurd he (List.not_mem_nil _)⟩⟩
  obtain ⟨hr, hc⟩ := subscribersOrdered_run cs _ hinit
  exact ⟨fan_out_ordered alive eventArgs _ hr, fan_out_ordered alive eventArgs _ hc,
    fan_out_calls alive eventArgs _, fan_out_calls alive eventArgs _⟩

theorem create_connected_configured (id : Nat) (socket : Int)
    (r : MessageReceptionAfterDisconnection) (m : MessageProcessingAfterDisconnection)
    (socketEvent : EPOLL_EVENT) :
    (VCommSessionInfo.create id socket SessionConnectionState.Connected r m
      socketEvent).SocketEvent.fd = socket ∧
    (VCommSessionInfo.create id socket SessionConnectionState.Connected r m
      socketEvent).socket = socket := by
  unfold VCommSessionInfo.create
  dsimp only
  rw [if_pos rfl]
  exact ⟨rfl, rfl⟩

/-- C26 (as stated, refuted), in two ways. Session 100 is registered under the
descriptor 5 and added to the epoll instance; an `UpdateSessions` that passes it
as closed erases it from the registry and leaves the descriptor in the interest
list, and the lookup for the next event on the descriptor 5 throws. And a
session 100 that was constructed as `NotConnected`, whose socket event was
never configured and holds 6 in `data.fd`, is registered under its descriptor 5
and added with that event; a hang-up on the descriptor 5 is reported with the
user data 6, and the lookup of 6 throws although 5 has its registry entry. -/
theorem C26_erased_session_is_still_polled :
    ((((VEventProducer.create.Start 3).2.UpdateSessions allConnected [100] []
        (fun _ => true)).2.UpdateSessions allConnected [] [100]
        (fun _ => true)).2.epollInterest.map Prod.fst = [5]) ∧
    ((((VEventProducer.create.Start 3).2.UpdateSessions allConnected [100] []
        (fun _ => true)).2.UpdateSessions allConnected [] [100]
        (fun _ => true)).2.sessions.find 5 = none) ∧
    ((runEpollSteps VEventProducer.create
        [EpollStep.Start 3,
         EpollStep.UpdateSessions allConnected [100] [] (fun _ => true),
         EpollStep.UpdateSessions allConnected [] [100] (fun _ => true),
         EpollStep.Poll allConnected [{ events := EPOLLIN, fd := 5 }]]).isNone = true) ∧
    ((neverConfigured 100).socket = 5) ∧
    ((neverConfigured 100).SocketEvent = { events := 0, fd := 6 }) ∧
    (((VEventProducer.create.Start 3).2.UpdateSessions neverConfigured [100] []
        (fun _ => true)).2.sessions = [(5, 100)]) ∧
    (((VEventProducer.create.Start 3).2.UpdateSessions neverConfigured [100] []
        (fun _ => true)).2.epollInterest = [(5, { events := 0, fd := 6 })]) ∧
    (epoll_wait [(5, { events := 0, fd := 6 })] [{ events := EPOLLHUP, fd := 5 }]
        MAX_EPOLL_EVENTS = [{ events := EPOLLHUP, fd := 6 }]) ∧
    ((runEpollSteps VEventProducer.create
        [EpollStep.Start 3,
         EpollStep.UpdateSessions neverConfigured [100] [] (fun _ => true),
         EpollStep.Poll neverConfigured [{ events := EPOLLHUP, fd := 5 }]]).isNone = true) := by
  decide

theorem eraseClosed_find_of_not_closed (heap : SessionHeap) (closedSessions : List SessionPtr) :
    ∀ (sessions : StdMap Int SessionPtr) (fd : Int),
      fd ∉ closedSessions.map (fun c => (heap c).socket) →
      (VEventProducer.eraseClosed heap sessions closedSessions).find fd = sessions.find fd := by
  induction closedSessions with
  | nil => intro sessions fd _; rfl
  | cons c rest ih =>
    intro sessions fd h
    simp only [List.map_cons, List.mem_cons, not_or] at h
    unfold VEventProducer.eraseClosed
    rw [ih _ fd h.2, StdMap.find_erase_ne _ _ _ h.1]

theorem addNew_interest (heap : SessionHeap) (addAccepted : Int → Bool)
    (newSessions : List SessionPtr) :
    ∀ (st : StdMap Int SessionPtr × EpollInterest) (x : Int × EPOLL_EVENT),
      x ∈ (VEventProducer.addNew heap addAccepted st newSessions).2 →
      x ∈ st.2 ∨ ∃ s ∈ newSessions, (heap s).socket = x.1 ∧ (heap s).SocketEvent = x.2 := by
  induction newSessions with
  | nil =>
    intro st x h
    exact Or.inl h
  | cons s rest ih =>
    intro st x h
    unfold VEventProducer.addNew at h
    dsimp only at h
    split at h
    · rcases ih _ x h with h1 | ⟨s', hs', h1⟩
      · exact Or.inl h1
      · exact Or.inr ⟨s', List.mem_cons_of_mem _ hs', h1⟩
    · rcases ih _ x h with h1 | ⟨s', hs', h1⟩
      · unfold epoll_ctl_add at h1
        split at h1
        · rcases List.mem_append.mp h1 with h2 | h2
          · exact Or.inl h2
          · rw [List.mem_singleton.mp h2]
            exact Or.inr ⟨s, List.mem_cons_self _ _, rfl, rfl⟩
        · exact Or.inl h1
      · exact Or.inr ⟨s', List.mem_cons_of_mem _ hs', h1⟩

theorem epoll_update_registered (p : VEventProducer) (heap : SessionHeap)
    (newSessions closedSessions : List SessionPtr) (addAccepted : Int → Bool)
    (h : ∀ x ∈ p.epollInterest, x.2.fd = x.1 ∧ (p.sessions.find x.1).isSome = true)
    (hnew : ∀ s ∈ newSessions, (heap s).SocketEvent.fd = (heap s).socket)
    (hclosed : ∀ c ∈ closedSessions, (heap c).socket ∉ p.epollInterest.map Prod.fst) :
    ∀ x ∈ (p.UpdateSessions heap newSessions closedSessions addAccepted).2.epollInterest,
      x.2.fd = x.1 ∧
      ((p.UpdateSessions heap newSessions closedSessions
        addAccepted).2.sessions.find x.1).isSome = true := by
  unfold VEventProducer.UpdateSessions
  split
  · split
    · exact h
    · exact h
  · split
    · exact h
    · intro x hx
      dsimp only at hx ⊢
      rw [addNew_find]
      dsimp only
      rcases addNew_interest heap addAccepted newSessions _ x hx with h1 | ⟨s, hs, h1, h2⟩
      · have hnot : x.1 ∉ closedSessions.map (fun c => (heap c).socket) := by
          intro hmem
          rw [List.mem_map] at hmem
          obtain ⟨c, hc, hcs⟩ := hmem
          exact hclosed c hc (hcs ▸ List.mem_map_of_mem Prod.fst h1)
        rw [eraseClosed_find_of_not_closed heap closedSessions p.sessions x.1 hnot]
        obtain ⟨hd, hr⟩ := h x h1
        refine ⟨hd, ?_⟩
        cases hf : p.sessions.find x.1 with
        | none => rw [hf] at hr; exact absurd hr (by simp)
        | some v => rfl
      · refine ⟨by rw [← h2, ← h1]; exact hnew s hs, ?_⟩
        cases (VEventProducer.eraseClosed heap p.sessions closedSessions).find x.1 with
        | some v => rfl
        | none =>
          dsimp only
          rw [List.find?_isSome]
          exact ⟨s, hs, by simpa using h1⟩

theorem handleEvent_fold_registered (inSessions : StdMap Int SessionPtr)
    (events : List EPOLL_EVENT) :
    ∀ (st : ListenState), (∀ e ∈ events, (inSessions.find e.fd).isSome = true) →
      ∃ st', events.foldlM (VEventProducer.handleEvent inSessions) st = some st' := by
  induction events with
  | nil =>
    intro st _
    exact ⟨st, rfl⟩
  | cons e rest ih =>
    intro st h
    have he := h e (List.mem_cons_self _ _)
    cases hf : inSessions.find e.fd with
    | none => rw [hf] at he; exact absurd he (by simp)
    | some session =>
      have hcases := handleEvent_cases inSessions st e session hf
      rw [List.foldlM_cons, hcases]
      split
      · exact ih _ (fun e' he' => h e' (List.mem_cons_of_mem _ he'))
      · split
        · exact ih _ (fun e' he' => h e' (List.mem_cons_of_mem _ he'))
        · exact ih st (fun e' he' => h e' (List.mem_cons_of_mem _ he'))

theorem epoll_poll_registered (p : VEventProducer) (heap : SessionHeap)
    (ready : List Readiness)
    (h : ∀ x ∈ p.epollInterest, x.2.fd = x.1 ∧ (p.sessions.find x.1).isSome = true) :
    ∃ r, p.pollOnce heap ready = some r ∧ r.1.sessions = p.sessions ∧
      ∀ x ∈ r.1.epollInterest, x ∈ p.epollInterest := by
  have hev : ∀ e ∈ epoll_wait p.epollInterest ready MAX_EPOLL_EVENTS,
      (p.sessions.find e.fd).isSome = true := by
    intro e he
    have hkey := (epoll_wait_spec p.epollInterest ready MAX_EPOLL_EVENTS
      (fun x hx => (h x hx).1)).1 e he
    obtain ⟨x, hx, hfd⟩ := List.mem_map.mp hkey
    rw [← hfd]
    exact (h x hx).2
  obtain ⟨st', h1⟩ := handleEvent_fold_registered p.sessions _
    { heap := heap, epollInterest := p.epollInterest,
      readingSessions := [], closedSessions := [] } hev
  have hpoll : p.pollOnce heap ready =
      some ({ p with epollInterest := st'.epollInterest }, st'.heap,
        raiseBatches st'.readingSessions st'.closedSessions) := by
    unfold VEventProducer.pollOnce
    dsimp only
    rw [h1]
  obtain ⟨e1, e2⟩ := pollOnce_interest p heap ready _ hpoll
  exact ⟨_, hpoll, e1, e2⟩

theorem runEpollSteps_registered (steps : List EpollStep) :
    ∀ p : VEventProducer,
      (∀ x ∈ p.epollInterest, x.2.fd = x.1 ∧ (p.sessions.find x.1).isSome = true) →
      newAreConfigured steps = true →
      closedAreDeregistered p steps = true →
      ∃ p', runEpollSteps p steps = some p' ∧
        ∀ x ∈ p'.epollInterest, x.2.fd = x.1 ∧ (p'.sessions.find x.1).isSome = true := by
  induction steps with
  | nil =>
    intro p h _ _
    exact ⟨p, rfl, h⟩
  | cons step rest ih =>
    intro p h hnew hclosed
    unfold closedAreDeregistered at hclosed
    unfold newAreConfigured at hnew
    rw [Bool.and_eq_true] at hclosed hnew
    unfold runEpollSteps
    cases step with
    | Start r =>
      have hnext := hclosed.2
      simp only [EpollStep.apply] at hnext ⊢
      obtain ⟨e1, e2⟩ := epoll_start_interest p r
      refine ih _ ?_ hnew.2 hnext
      intro x hx
      rw [e1]
      exact h x (e2 x hx)
    | UpdateSessions heap newSessions closedSessions addAccepted =>
      have hfirst := hclosed.1
      have hnext := hclosed.2
      have hcfg := hnew.1
      simp only [EpollStep.apply] at hnext ⊢
      simp only [List.all_eq_true, decide_eq_true_eq] at hfirst hcfg
      exact ih _ (epoll_update_registered p heap newSessions closedSessions addAccepted h
        hcfg hfirst) hnew.2 hnext
    | Poll heap ready =>
      have hnext := hclosed.2
      obtain ⟨r, h1, h2, h3⟩ := epoll_poll_registered p heap ready h
      simp only [EpollStep.apply, h1] at hnext ⊢
      refine ih _ ?_ hnew.2 hnext
      intro x hx
      rw [h2]
      exact h x (h3 x hx)

/-- C26 (amended): a session constructed as `Connected` carries a socket event
whose `data.fd` is its socket. In every state that a readiness-API producer
reaches from its construction through `Start`, polling passes and
`UpdateSessions` calls whose new sessions carry such a socket event and whose
closed sessions have a descriptor that is not in the epoll interest list, no
lookup has thrown, every descriptor in the interest list is registered with its
own value as user data and has an entry in the session registry, and the next
polling pass completes: the lookup for a reported event does not throw. -/
theorem C26_lookup_cannot_fail (steps : List EpollStep)
    (hnew : newAreConfigured steps = true)
    (hclosed : closedAreDeregistered VEventProducer.create steps = true) :
    (∀ (id : Nat) (socket : Int) (r : MessageReceptionAfterDisconnection)
        (m : MessageProcessingAfterDisconnection) (socketEvent : EPOLL_EVENT),
      (VCommSessionInfo.create id socket SessionConnectionState.Connected r m
        socketEvent).SocketEvent.fd =
      (VCommSessionInfo.create id socket SessionConnectionState.Connected r m
        socketEvent).socket) ∧
    ∃ p, runEpollSteps VEventProducer.create steps = some p ∧
      DataIsDescriptor p.epollInterest ∧
      (∀ fd ∈ p.epollInterest.map Prod.fst, (p.sessions.find fd).isSome = true) ∧
      (∀ (heap : SessionHeap) (ready : List Readiness),
        (p.pollOnce heap ready).isSome = true) := by
  constructor
  · intro id socket r m socketEvent
    obtain ⟨h1, h2⟩ := create_connected_configured id socket r m socketEvent
    rw [h1, h2]
  · have hinit : ∀ x ∈ VEventProducer.create.epollInterest,
        x.2.fd = x.1 ∧ (VEventProducer.create.sessions.find x.1).isSome = true :=
      fun x hx => absurd hx (List.not_mem_nil _)
    obtain ⟨p, h1, h2⟩ := runEpollSteps_registered steps _ hinit hnew hclosed
    refine ⟨p, h1, fun x hx => (h2 x hx).1, ?_, ?_⟩
    · intro fd hfd
      obtain ⟨x, hx, hxfd⟩ := List.mem_map.mp hfd
      rw [← hxfd]
      exact (h2 x hx).2
    · intro heap ready
      obtain ⟨r, h3, -⟩ := epoll_poll_registered p heap ready h2
      rw [h3]
      rfl

/-- C26 (amended, an instance): the sessions 100 and 101, constructed as
`Connected`, are registered; session 100 hangs up (the pass deletes its
descriptor from the epoll instance) and is then passed as closed. -/
theorem C26_lookup_cannot_fail_witness :
    ∃ p, runEpollSteps VEventProducer.create
        [EpollStep.Start 3,
         EpollStep.UpdateSessions allConnected [100, 101] [] (fun _ => true),
         EpollStep.Poll allConnected [{ events := EPOLLRDHUP, fd := 5 }],
         EpollStep.UpdateSessions allConnected [] [100] (fun _ => true)] = some p ∧
      DataIsDescriptor p.epollInterest ∧
      (∀ fd ∈ p.epollInterest.map Prod.fst, (p.sessions.find fd).isSome = true) ∧
      (∀ (heap : SessionHeap) (ready : List Readiness),
        (p.pollOnce heap ready).isSome = true) :=
  (C26_lookup_cannot_fail
    [EpollStep.Start 3,
     EpollStep.UpdateSessions allConnected [100, 101] [] (fun _ => true),
     EpollStep.Poll allConnected [{ events := EPOLLRDHUP, fd := 5 }],
     EpollStep.UpdateSessions allConnected [] [100] (fun _ => true)] (by decide) (by decide)).2

theorem epoll_ctl_del_keys (interest : EpollInterest) (fd fd' : Int)
    (h : fd' ∈ (epoll_ctl_del interest fd).2.map Prod.fst) : fd' ∈ interest.map Prod.fst := by
  obtain ⟨x, hx, hfd⟩ := List.mem_map.mp h
  exact List.mem_map.mpr ⟨x, (epoll_ctl_del_spec interest fd).2 x hx, hfd⟩

theorem listenInvariant_step (sessions : StdMap Int SessionPtr) (interest0 : EpollInterest)
    (hinj : RegistryInjective sessions) (st st' : ListenState) (e : EPOLL_EVENT)
    (rest : List EPOLL_EVENT) (hinv : ListenInvariant sessions interest0 st (e :: rest))
    (he : e.fd ∈ interest0.map Prod.fst) (hfresh : e.fd ∉ rest.map EPOLL_EVENT.fd)
    (hstep : VEventProducer.handleEvent sessions st e = some st') :
    ListenInvariant sessions interest0 st' rest := by
  obtain ⟨i1, i2, i3, i4, i5⟩ := hinv
  have i4' : ∀ s ∈ st.closedSessions, ∀ fd, sessions.find fd = some s →
      fd ∉ st.epollInterest.map Prod.fst ∧ fd ∉ rest.map EPOLL_EVENT.fd := by
    intro s hs fd hfd
    obtain ⟨h1, h2⟩ := i4 s hs fd hfd
    exact ⟨h1, fun hin => h2 (by rw [List.map_cons]; exact List.mem_cons_of_mem _ hin)⟩
  unfold VEventProducer.handleEvent at hstep
  split at hstep
  · dsimp only at hstep
    split at hstep
    · exact absurd hstep (by simp)
    · rename_i session hfind
      obtain ⟨d1, d2⟩ := epoll_ctl_del_spec st.epollInterest e.fd
      have hnotin : session ∉ st.closedSessions := by
        intro hin
        have := (i4 session hin e.fd hfind).2
        rw [List.map_cons] at this
        exact this (List.mem_cons_self _ _)
      simp only [Option.some.injEq] at hstep
      subst hstep
      refine ⟨?_, i2, ?_, ?_, ?_⟩
      · intro x hx
        exact i1 x (d2 x hx)
      · intro s hs
        rcases List.mem_append.mp hs with hs | hs
        · exact i3 s hs
        · rw [List.mem_singleton.mp hs]; exact ⟨e.fd, he, hfind⟩
      · intro s hs fd hfd
        rcases List.mem_append.mp hs with hs | hs
        · obtain ⟨h1, h2⟩ := i4' s hs fd hfd
          exact ⟨fun hin => h1 (epoll_ctl_del_keys _ _ _ hin), h2⟩
        · rw [List.mem_singleton.mp hs] at hfd
          have hfdeq : fd = e.fd := registryInjective_find sessions hinj fd e.fd session hfd hfind
          rw [hfdeq]
          exact ⟨d1, hfresh⟩
      · apply List.Nodup.append i5 (List.nodup_singleton _)
        intro a ha hb
        rw [List.mem_singleton.mp hb] at ha
        exact hnotin ha
  · split at hstep
    · split at hstep
      · exact absurd hstep (by simp)
      · rename_i session hfind
        simp only [Option.some.injEq] at hstep
        subst hstep
        refine ⟨i1, ?_, i3, i4', i5⟩
        intro s hs
        rcases List.mem_append.mp hs with hs | hs
        · exact i2 s hs
        · rw [List.mem_singleton.mp hs]; exact ⟨e.fd, he, hfind⟩
    · simp only [Option.some.injEq] at hstep
      subst hstep
      exact ⟨i1, i2, i3, i4', i5⟩

theorem listenInvariant_fold (sessions : StdMap Int SessionPtr) (interest0 : EpollInterest)
    (hinj : RegistryInjective sessions) (events : List EPOLL_EVENT) :
    ∀ st st', ListenInvariant sessions interest0 st events →
      (∀ e ∈ events, e.fd ∈ interest0.map Prod.fst) → (events.map EPOLL_EVENT.fd).Nodup →
      events.foldlM (VEventProducer.handleEvent sessions) st = some st' →
      ListenInvariant sessions interest0 st' [] := by
  induction events with
  | nil =>
    intro st st' hinv _ _ hfold
    simp only [List.foldlM_nil, Option.pure_def, Option.some.injEq] at hfold
    subst hfold
    exact hinv
  | cons e rest ih =>
    intro st st' hinv hmem hnd hfold
    rw [List.foldlM_cons] at hfold
    cases hstep : VEventProducer.handleEvent sessions st e with
    | none => rw [hstep] at hfold; exact absurd hfold (by simp)
    | some st1 =>
      rw [hstep] at hfold
      rw [List.map_cons] at hnd
      obtain ⟨hfresh, hnd'⟩ := List.nodup_cons.mp hnd
      exact ih st1 st'
        (listenInvariant_step sessions interest0 hinj st st1 e rest hinv
          (hmem e (List.mem_cons_self _ _)) hfresh hstep)
        (fun x hx => hmem x (List.mem_cons_of_mem _ hx)) hnd' hfold

theorem pollOnce_spec (p p' : VEventProducer) (heap heap' : SessionHeap)
    (ready : List Readiness) (raised : List RaisedEvent)
    (hinj : RegistryInjective p.sessions) (hdata : DataIsDescriptor p.epollInterest)
    (h : p.pollOnce heap ready = some (p', heap', raised)) :
    p'.sessions = p.sessions ∧
    (∀ x ∈ p'.epollInterest, x ∈ p.epollInterest) ∧
    (∀ d ∈ raised, ∀ s ∈ d.sessions,
      ∃ fd ∈ p.epollInterest.map Prod.fst, p.sessions.find fd = some s) ∧
    (∀ d ∈ raised, d.eventType = CommEventType.Close → d.sessions.Nodup ∧
      ∀ s ∈ d.sessions, ∀ fd, p.sessions.find fd = some s →
        fd ∉ p'.epollInterest.map Prod.fst) ∧
    raised.Pairwise NotAfterClosed := by
  unfold VEventProducer.pollOnce at h
  dsimp only at h
  split at h
  · exact absurd h (by simp)
  · rename_i st hfold
    simp only [Option.some.injEq, Prod.mk.injEq] at h
    obtain ⟨hp, _, hr⟩ := h
    subst hp hr
    obtain ⟨w1, w2⟩ := epoll_wait_spec p.epollInterest ready MAX_EPOLL_EVENTS hdata
    have hinit : ListenInvariant p.sessions p.epollInterest
        { heap := heap, epollInterest := p.epollInterest,
          readingSessions := [], closedSessions := [] }
        (epoll_wait p.epollInterest ready MAX_EPOLL_EVENTS) := by
      refine ⟨fun x hx => hx, ?_, ?_, ?_, List.nodup_nil⟩ <;> simp
    obtain ⟨i1, i2, i3, i4, i5⟩ := listenInvariant_fold p.sessions p.epollInterest hinj _ _ st
      hinit w1 w2 hfold
    refine ⟨rfl, i1, ?_, ?_, pairwise_raiseBatches _ _⟩
    · intro d hd s hsd
      rcases mem_raiseBatches hd with ⟨_, hh⟩ | ⟨_, hh⟩
      · rw [hh] at hsd; exact i2 s hsd
      · rw [hh] at hsd; exact i3 s hsd
    · intro d hd hclose
      rcases mem_raiseBatches hd with ⟨h1, _⟩ | ⟨_, hh⟩
      · rw [h1] at hclose; exact absurd hclose (by decide)
      · rw [hh]
        exact ⟨i5, fun s hs fd hfd => (i4 s hs fd hfd).1⟩

theorem epoll_run_sessions_registered (readies : List (List Readiness)) :
    ∀ (p : VEventProducer) (heap : SessionHeap), RegistryInjective p.sessions →
      DataIsDescriptor p.epollInterest →
      ∀ d ∈ p.ListenAndProduceEvents heap readies, ∀ s ∈ d.sessions,
        ∃ fd ∈ p.epollInterest.map Prod.fst, p.sessions.find fd = some s := by
  induction readies with
  | nil => intro p heap _ _ d hd; exact absurd hd (List.not_mem_nil _)
  | cons ready rest ih =>
    intro p heap hinj hdata d hd s hsd
    unfold VEventProducer.ListenAndProduceEvents at hd
    split at hd
    · exact absurd hd (List.not_mem_nil _)
    · split at hd
      · exact absurd hd (List.not_mem_nil _)
      · rename_i p' heap' raised hpoll
        obtain ⟨q1, q2, q3, _, _⟩ :=
          pollOnce_spec p p' heap heap' ready raised hinj hdata hpoll
        rcases List.mem_append.mp hd with hd | hd
        · exact q3 d hd s hsd
        · obtain ⟨fd, hfd, hfind⟩ :=
            ih p' heap' (q1 ▸ hinj) (fun x hx => hdata x (q2 x hx)) d hd s hsd
          obtain ⟨x, hx, hxfd⟩ := List.mem_map.mp hfd
          exact ⟨fd, List.mem_map.mpr ⟨x, q2 x hx, hxfd⟩, q1 ▸ hfind⟩

theorem epoll_run_closed_terminal (readies : List (List Readiness)) :
    ∀ (p : VEventProducer) (heap : SessionHeap), RegistryInjective p.sessions →
      DataIsDescriptor p.epollInterest →
      (p.ListenAndProduceEvents heap readies).Pairwise NotAfterClosed ∧
      ∀ d ∈ p.ListenAndProduceEvents heap readies,
        d.eventType = CommEventType.Close → d.sessions.Nodup := by
  induction readies with
  | nil =>
    intro p heap _ _
    exact ⟨List.Pairwise.nil, fun d hd => absurd hd (List.not_mem_nil _)⟩
  | cons ready rest ih =>
    intro p heap hinj hdata
    unfold VEventProducer.ListenAndProduceEvents
    split
    · exact ⟨List.Pairwise.nil, fun d hd => absurd hd (List.not_mem_nil _)⟩
    · split
      · exact ⟨List.Pairwise.nil, fun d hd => absurd hd (List.not_mem_nil _)⟩
      · rename_i p' heap' raised hpoll
        obtain ⟨q1, q2, _, q4, q5⟩ :=
          pollOnce_spec p p' heap heap' ready raised hinj hdata hpoll
        have hdata' : DataIsDescriptor p'.epollInterest := fun x hx => hdata x (q2 x hx)
        obtain ⟨ih1, ih2⟩ := ih p' heap' (q1 ▸ hinj) hdata'
        constructor
        · apply List.pairwise_append.mpr
          refine ⟨q5, ih1, ?_⟩
          intro a ha b hb hclose s hsa hsb
          obtain ⟨fd, hfd, hfind⟩ :=
            epoll_run_sessions_registered rest p' heap' (q1 ▸ hinj) hdata' b hb s hsb
          rw [q1] at hfind
          exact (q4 a ha hclose).2 s hsa fd hfind hfd
        · intro d hd hclose
          rcases List.mem_append.mp hd with hd | hd
          · exact (q4 d hd hclose).1
          · exact ih2 d hd hclose

theorem at_most_one_closed_batch (l : List RaisedEvent) (h : l.Pairwise NotAfterClosed)
    (s : SessionPtr) :
    (l.filter (fun d => decide (d.eventType = CommEventType.Close ∧ s ∈ d.sessions))).length
      ≤ 1 := by
  induction l with
  | nil => simp
  | cons a rest ih =>
    obtain ⟨ha, hrest⟩ := List.pairwise_cons.mp h
    by_cases hc : a.eventType = CommEventType.Close ∧ s ∈ a.sessions
    · have : rest.filter
          (fun d => decide (d.eventType = CommEventType.Close ∧ s ∈ d.sessions)) = [] := by
        apply List.filter_eq_nil_iff.mpr
        intro b hb
        simp only [decide_eq_true_eq, not_and]
        intro _
        exact ha b hb hc.1 s hc.2
      rw [List.filter_cons, if_pos (decide_eq_true hc), this]
      exact Nat.le_refl 1
    · rw [List.filter_cons, if_neg (by simpa using hc)]
      exact ih hrest

theorem eraseClosed_sublist (heap : SessionHeap) (closedSessions : List SessionPtr) :
    ∀ sessions : StdMap Int SessionPtr,
      List.Sublist (VEventProducer.eraseClosed heap sessions closedSessions) sessions := by
  induction closedSessions with
  | nil => intro sessions; exact List.Sublist.refl _
  | cons c rest ih =>
    intro sessions
    unfold VEventProducer.eraseClosed
    exact (ih _).trans (StdMap.erase_sublist sessions _)

theorem addNew_mem (heap : SessionHeap) (addAccepted : Int → Bool)
    (newSessions : List SessionPtr) :
    ∀ (st : StdMap Int SessionPtr × EpollInterest) (x : Int × SessionPtr),
      x ∈ (VEventProducer.addNew heap addAccepted st newSessions).1 →
      x ∈ st.1 ∨ (x.2 ∈ newSessions ∧ (heap x.2).socket = x.1) := by
  induction newSessions with
  | nil =>
    intro st x h
    exact Or.inl h
  | cons s rest ih =>
    intro st x h
    unfold VEventProducer.addNew at h
    unfold StdMap.emplace at h
    cases hs : st.1.find (heap s).socket with
    | some v =>
      rw [hs] at h
      simp only [Bool.not_false, if_true] at h
      rcases ih _ x h with h1 | ⟨h1, h2⟩
      · exact Or.inl h1
      · exact Or.inr ⟨List.mem_cons_of_mem _ h1, h2⟩
    | none =>
      rw [hs] at h
      simp only [Bool.not_true, Bool.false_eq_true, if_false] at h
      rcases ih _ x h with h1 | ⟨h1, h2⟩
      · rcases StdMap.mem_assign _ _ _ x h1 with h3 | h3
        · rw [h3]
          exact Or.inr ⟨List.mem_cons_self _ _, rfl⟩
        · exact Or.inl h3
      · exact Or.inr ⟨List.mem_cons_of_mem _ h1, h2⟩

theorem epoll_update_configured (socketOf : SessionPtr → Int) (p : VEventProducer)
    (heap : SessionHeap) (newSessions closedSessions : List SessionPtr)
    (addAccepted : Int → Bool)
    (hreg : ∀ x ∈ p.sessions, socketOf x.2 = x.1) (hdata : DataIsDescriptor p.epollInterest)
    (hcfg : ∀ s ∈ newSessions, (heap s).SocketEvent.fd = (heap s).socket)
    (hsock : ∀ s ∈ newSessions, (heap s).socket = socketOf s) :
    (∀ x ∈ (p.UpdateSessions heap newSessions closedSessions addAccepted).2.sessions,
      socketOf x.2 = x.1) ∧
    DataIsDescriptor
      (p.UpdateSessions heap newSessions closedSessions addAccepted).2.epollInterest := by
  unfold VEventProducer.UpdateSessions
  split
  · split
    · exact ⟨hreg, hdata⟩
    · exact ⟨hreg, hdata⟩
  · split
    · exact ⟨hreg, hdata⟩
    · dsimp only
      constructor
      · intro x hx
        rcases addNew_mem heap addAccepted newSessions _ x hx with h1 | ⟨h1, h2⟩
        · exact hreg x ((eraseClosed_sublist heap closedSessions p.sessions).subset h1)
        · rw [← hsock x.2 h1]
          exact h2
      · intro x hx
        rcases addNew_interest heap addAccepted newSessions _ x hx with h1 | ⟨s, hs, h1, h2⟩
        · exact hdata x h1
        · rw [← h2, ← h1]
          exact hcfg s hs

theorem runEpollSteps_configured (socketOf : SessionPtr → Int) (steps : List EpollStep) :
    ∀ p p' : VEventProducer, (∀ x ∈ p.sessions, socketOf x.2 = x.1) →
      DataIsDescriptor p.epollInterest →
      newAreConfigured steps = true → newHaveSocket socketOf steps = true →
      runEpollSteps p steps = some p' →
      (∀ x ∈ p'.sessions, socketOf x.2 = x.1) ∧ DataIsDescriptor p'.epollInterest := by
  induction steps with
  | nil =>
    intro p p' hreg hdata _ _ hrun
    unfold runEpollSteps at hrun
    simp only [Option.some.injEq] at hrun
    subst hrun
    exact ⟨hreg, hdata⟩
  | cons step rest ih =>
    intro p p' hreg hdata hcfg hsock hrun
    unfold newAreConfigured at hcfg
    unfold newHaveSocket at hsock
    rw [Bool.and_eq_true] at hcfg hsock
    unfold runEpollSteps at hrun
    cases step with
    | Start r =>
      simp only [EpollStep.apply] at hrun
      obtain ⟨e1, e2⟩ := epoll_start_interest p r
      refine ih _ p' ?_ (fun x hx => hdata x (e2 x hx)) hcfg.2 hsock.2 hrun
      rw [e1]
      exact hreg
    | UpdateSessions heap newSessions closedSessions addAccepted =>
      simp only [EpollStep.apply] at hrun
      have hc := hcfg.1
      have hs := hsock.1
      simp only [List.all_eq_true, decide_eq_true_eq] at hc hs
      obtain ⟨u1, u2⟩ := epoll_update_configured socketOf p heap newSessions closedSessions
        addAccepted hreg hdata hc hs
      exact ih _ p' u1 u2 hcfg.2 hsock.2 hrun
    | Poll heap ready =>
      simp only [EpollStep.apply] at hrun
      cases hpoll : p.pollOnce heap ready with
      | none =>
        rw [hpoll] at hrun
        exact absurd hrun (by simp)
      | some r =>
        rw [hpoll] at hrun
        obtain ⟨e1, e2⟩ := pollOnce_interest p heap ready r hpoll
        refine ih _ p' ?_ (fun x hx => hdata x (e2 x hx)) hcfg.2 hsock.2 hrun
        rw [e1]
        exact hreg

theorem registryInjective_of_sockets (socketOf : SessionPtr → Int)
    (sessions : StdMap Int SessionPtr) (h : ∀ x ∈ sessions, socketOf x.2 = x.1) :
    RegistryInjective sessions := by
  intro e1 h1 e2 h2 heq
  rw [← h e1 h1, ← h e2 h2, heq]

end CodeVault
